import Mathlib

/-!
Verification development for the GRES selection filter
(src: gres_select_filter.c — filters used in the select plugin).

The C code is shallowly embedded: C bitmaps (bitstr_t) become List Bool,
C arrays become List with getD-style total indexing (a C out-of-bounds
access would be undefined behaviour; here it reads a default), NULL
pointers become Option.none, and unsigned machine integers become Nat
with explicit wrap-around helpers at the places where the C code performs
uint64/uint16 arithmetic whose overflow is observable.

The development covers one GRES kind of one job (the per-kind slice of
the job state): distinct kinds use disjoint gres_job_state_t records, and
the node state gres_node_state_t is only read, so the per-kind slice is
exact for the properties treated here.
-/

namespace GresFilter

/-- Sentinel NO_VAL16 (0xfffe) from slurm.h. -/
def NO_VAL16 : Nat := 0xfffe

/-- Sentinel NO_VAL (0xfffffffe) from slurm.h. -/
def NO_VAL : Nat := 0xfffffffe

/-- Sentinel NO_VAL64 (0xfffffffffffffffe) from slurm.h. -/
def NO_VAL64 : Nat := 0xfffffffffffffffe

/-- Success return code SLURM_SUCCESS. -/
def SLURM_SUCCESS : Int := 0

/-- Generic error return code SLURM_ERROR. -/
def SLURM_ERROR : Int := -1

/-- Error code ESLURM_INVALID_GRES (invalid-GRES failure). -/
def ESLURM_INVALID_GRES : Int := 2072

/-- Error code ESLURM_NODE_NOT_AVAIL (node-not-available failure). -/
def ESLURM_NODE_NOT_AVAIL : Int := 2015

/-- uint64 modulus. -/
def U64 : Nat := 2 ^ 64

/-- uint64 multiplication (wraps modulo 2^64). -/
def mul64 (a b : Nat) : Nat := (a * b) % U64

/-- uint64 subtraction (wraps modulo 2^64); arguments are uint64 values. -/
def usub64 (a b : Nat) : Nat := (a % U64 + (U64 - b % U64)) % U64

/-- uint16 compound addition target: (a + b) truncated to uint16. -/
def add16 (a b : Nat) : Nat := (a + b) % 2 ^ 16

/-- uint16 multiplication (int promotion then truncation on store). -/
def mul16 (a b : Nat) : Nat := (a * b) % 2 ^ 16

/-- C `bit_test`: out-of-range reads yield false (C would be UB). -/
def bitTest (l : List Bool) (i : Nat) : Bool := l.getD i false

/-- C `bit_set`. -/
def bitSet (l : List Bool) (i : Nat) : List Bool := l.set i true

/-- C `bit_clear`. -/
def bitClear (l : List Bool) (i : Nat) : List Bool := l.set i false

/-- C `bit_set_count`. -/
def bitSetCount (l : List Bool) : Nat := l.count true

/-- C `bit_size`. -/
def bitSize (l : List Bool) : Nat := l.length

/-- C `bit_overlap`: count of positions set in both bitmaps. -/
def bitOverlap (a b : List Bool) : Nat :=
  (List.range a.length).countP (fun i => bitTest a i && bitTest b i)

/-- bit_test through an optional bitmap (NULL bitmap reads as false). -/
def obitTest (o : Option (List Bool)) (i : Nat) : Bool := bitTest (o.getD []) i

/-- Sum of the first n entries of a Nat list (getD semantics). -/
def sumTo (l : List Nat) (n : Nat) : Nat :=
  (List.range n).foldl (fun a s => a + l.getD s 0) 0

/-- Node GRES state gres_node_state_t (the fields this core reads). -/
structure GresNs where
  gres_cnt_avail : Nat
  gres_cnt_alloc : Nat
  gres_bit_alloc : Option (List Bool)
  topo_cnt : Nat
  topo_gres_cnt_avail : Option (List Nat)
  topo_gres_cnt_alloc : Option (List Nat)
  topo_gres_bitmap : Option (List (Option (List Bool)))
  topo_type_id : List Nat
  links_cnt : List (List Int)
  link_len : Nat
  deriving Repr, DecidableEq

/-- links_cnt[g][h] (int matrix, getD semantics). -/
def linkAt (ns : GresNs) (g h : Nat) : Int := (ns.links_cnt.getD g []).getD h 0

/-!
SECTION: gres_select_filter_remove_unusable (the feasibility filter, C3).
One record of the sock_gres list; the fields of the job request
(gres_job_state_t, reached through gres_state_job->gres_data) that the
filter reads are inlined, since the filter touches no other job fields.
gres_state_node is carried (never read by the filter) to express frame
facts about the node state.
-/

/-- One sock_gres_t record as seen by gres_select_filter_remove_unusable,
with the job-state fields it dereferences inlined.
sharing models gres_id_sharing(gres_state_job->plugin_id). -/
structure FSock where
  gres_state_node : GresNs
  sharing : Bool
  gres_per_node : Nat
  gres_per_socket : Nat
  gres_per_task : Nat
  gres_per_job : Nat
  cpus_per_gres : Nat
  ntasks_per_gres : Nat
  def_cpus_per_gres : Nat
  mem_per_gres : Nat
  def_mem_per_gres : Nat
  total_cnt : Nat
  max_node_gres : Nat
  cnt_by_sock : Option (List Nat)
  deriving Repr, DecidableEq

/-- The scalar inputs of gres_select_filter_remove_unusable. -/
structure FilterIn where
  avail_mem : Nat
  max_cpus : Nat
  enforce_binding : Bool
  core_bitmap : Option (List Bool)
  sockets : Nat
  cores_per_sock : Nat
  cpus_per_core : Nat
  sock_per_node : Nat
  task_per_node : Nat
  cpus_per_task : Nat
  whole_node : Bool
  deriving Repr, DecidableEq

/-- _build_avail_cores_by_sock: socket s has an available core iff some
core index s*cores_per_sock+c (c < cores_per_sock) within the bitmap is
set.  The C early exit (goto fini once an index reaches bit_size) yields
exactly this predicate because indices grow monotonically. -/
def availCoresBySock (core : List Bool) (sockets cores_per_sock : Nat) :
    List Bool :=
  (List.range sockets).map (fun s =>
    (List.range cores_per_sock).any (fun c => bitTest core (s * cores_per_sock + c)))

/-- min_gres computation of the filter loop body, translated step by
step: start at 1; whole_node overwrites with total_cnt, else a nonzero
gres_per_node overwrites; then MAX with the gres_per_socket and
gres_per_task terms, whose multipliers are skipped at the sentinels. -/
def minGres (inp : FilterIn) (r : FSock) : Nat :=
  let mg : Nat := 1
  let mg : Nat :=
    if inp.whole_node then r.total_cnt
    else if r.gres_per_node ≠ 0 then r.gres_per_node else mg
  let mg : Nat :=
    if r.gres_per_socket ≠ 0 then
      Nat.max mg (if inp.sock_per_node ≠ NO_VAL then
                    mul64 r.gres_per_socket inp.sock_per_node
                  else r.gres_per_socket)
    else mg
  let mg : Nat :=
    if r.gres_per_task ≠ 0 then
      Nat.max mg (if inp.task_per_node ≠ NO_VAL16 then
                    mul64 r.gres_per_task inp.task_per_node
                  else r.gres_per_task)
    else mg
  mg

/-- Derived cpus_per_gres: cpus_per_gres, else ntasks_per_gres *
cpus_per_task (uint16 store), else def_cpus_per_gres. -/
def cpgOf (inp : FilterIn) (r : FSock) : Nat :=
  if r.cpus_per_gres ≠ 0 then r.cpus_per_gres
  else if r.ntasks_per_gres ≠ 0 ∧ r.ntasks_per_gres ≠ NO_VAL16 then
    mul16 r.ntasks_per_gres inp.cpus_per_task
  else r.def_cpus_per_gres

/-- Derived mem_per_gres: mem_per_gres else def_mem_per_gres. -/
def mpgOf (r : FSock) : Nat :=
  if r.mem_per_gres ≠ 0 then r.mem_per_gres else r.def_mem_per_gres

/-- _set_max_node_gres: set max_node_gres if val is nonzero and
max_node_gres is unset or greater than val; returns whether it set. -/
def setMaxNodeGres (r : FSock) (val : Nat) : FSock × Bool :=
  if val ≠ 0 ∧ (r.max_node_gres = 0 ∨ r.max_node_gres > val) then
    ({ r with max_node_gres := val }, true)
  else (r, false)

/-- The enforce_binding prune: for each socket without an available core,
subtract cnt_by_sock[s] from total_cnt (uint64 subtraction) and zero
cnt_by_sock[s].  Loop over an explicit index list for ease of induction;
the filter calls it with List.range sockets. -/
def pruneGo (avail : List Bool) : List Nat → Nat → List Nat → Nat × List Nat
  | [], total, l => (total, l)
  | s :: rest, total, l =>
    if bitTest avail s then pruneGo avail rest total l
    else pruneGo avail rest (usub64 total (l.getD s 0)) (l.set s 0)

/-- The no-enforce_binding near count: subtract from near the
cnt_by_sock of sockets without an available core (no mutation). -/
def nearGo (avail : List Bool) : List Nat → Nat → List Nat → Nat
  | [], near, _ => near
  | s :: rest, near, l =>
    if bitTest avail s then nearGo avail rest near l
    else nearGo avail rest (usub64 near (l.getD s 0)) l

/-- Record state after the memory feasibility step (max_node_gres from
avail_mem / mem_per_gres when memory is tracked and sufficient). -/
def stageMem (inp : FilterIn) (r : FSock) : FSock :=
  let m := mpgOf r
  if m ≠ 0 ∧ inp.avail_mem ≠ NO_VAL64 then
    { r with max_node_gres := inp.avail_mem / m }
  else r

/-- Record and near_gres_cnt after the socket-binding step. -/
def stageBind (inp : FilterIn) (avail : List Bool) (r : FSock) : FSock × Nat :=
  match r.cnt_by_sock with
  | some l =>
    if inp.enforce_binding then
      let pr := pruneGo avail (List.range inp.sockets) r.total_cnt l
      ({ r with total_cnt := pr.1, cnt_by_sock := some pr.2 }, pr.1)
    else (r, nearGo avail (List.range inp.sockets) r.total_cnt l)
  | none => (r, r.total_cnt)

/-- Record after the non-whole-node max_node_gres step: try
gres_per_node, else gres_per_job. -/
def stagePerNodeCap (inp : FilterIn) (r : FSock) : FSock :=
  if ¬ inp.whole_node then
    let p := setMaxNodeGres r r.gres_per_node
    if p.2 then p.1 else (setMaxNodeGres p.1 r.gres_per_job).1
  else r

/-- max_gres from the core-count step: popcount(core_bitmap)
* cpus_per_core / cpus_per_gres. -/
def coreMaxGres (inp : FilterIn) (core : List Bool) (r : FSock) : Nat :=
  bitSetCount core * inp.cpus_per_core / cpgOf inp r

/-- Whether the core-count step applies: cpus_per_gres nonzero and not
(ntasks_per_gres set and whole_node). -/
def coreCapApplies (inp : FilterIn) (r : FSock) : Prop :=
  cpgOf inp r ≠ 0 ∧ (r.ntasks_per_gres = NO_VAL16 ∨ ¬ inp.whole_node)

instance (inp : FilterIn) (r : FSock) : Decidable (coreCapApplies inp r) := by
  unfold coreCapApplies; infer_instance

/-- Record after the core-count max_node_gres cap. -/
def stageCoreCap (inp : FilterIn) (core : List Bool) (r : FSock) : FSock :=
  if coreCapApplies inp r then
    let mg := coreMaxGres inp core r
    if r.max_node_gres = 0 ∨ r.max_node_gres > mg then
      { r with max_node_gres := mg }
    else r
  else r

/-- Record after the memory cap of total_cnt. -/
def stageMemCap (inp : FilterIn) (r : FSock) : FSock :=
  let m := mpgOf r
  if m ≠ 0 ∧ inp.avail_mem ≠ NO_VAL64 then
    { r with total_cnt := Nat.min r.total_cnt (inp.avail_mem / m) }
  else r

/-- The record as it stands at the final feasibility check of the filter
loop body, assuming no earlier break fired (the function below only
reaches the final check along this chain). -/
def finalRec (inp : FilterIn) (core : List Bool) (r : FSock) : FSock :=
  stageMemCap inp (stageCoreCap inp core (stagePerNodeCap inp
    ((stageBind inp (availCoresBySock core inp.sockets inp.cores_per_sock)
        (stageMem inp r)).1)))

/-- near_gres_cnt as it stands at the final check. -/
def nearCnt (inp : FilterIn) (core : List Bool) (r : FSock) : Nat :=
  (stageBind inp (availCoresBySock core inp.sockets inp.cores_per_sock)
    (stageMem inp r)).2

/-- The final reject condition of the loop body: total_cnt below
min_gres, or max_node_gres nonzero and below min_gres. -/
def finalReject (inp : FilterIn) (core : List Bool) (r : FSock) : Prop :=
  (finalRec inp core r).total_cnt < minGres inp r ∨
    ((finalRec inp core r).max_node_gres ≠ 0 ∧
      (finalRec inp core r).max_node_gres < minGres inp r)

instance (inp : FilterIn) (core : List Bool) (r : FSock) :
    Decidable (finalReject inp core r) := by
  unfold finalReject; infer_instance

/-- The loop body of gres_select_filter_remove_unusable for one record:
error carries the record with the mutations made before the break (the C
code mutates in place and breaks), ok carries the mutated record and
near_gres_cnt. -/
def processSock (inp : FilterIn) (core : List Bool) (r : FSock) :
    Except FSock (FSock × Nat) :=
  let c := cpgOf inp r
  if c ≠ 0 ∧ (inp.max_cpus / c = 0 ∨ r.gres_per_node > inp.max_cpus / c ∨
      r.gres_per_task > inp.max_cpus / c ∨ r.gres_per_socket > inp.max_cpus / c)
  then Except.error r
  else
    let m := mpgOf r
    if m ≠ 0 ∧ inp.avail_mem ≠ NO_VAL64 ∧ ¬ (m ≤ inp.avail_mem) then
      Except.error r
    else
      let r1 := stageMem inp r
      let avail := availCoresBySock core inp.sockets inp.cores_per_sock
      let b := stageBind inp avail r1
      let r2 := stagePerNodeCap inp b.1
      if coreCapApplies inp r2 ∧ coreMaxGres inp core r2 = 0 then
        Except.error r2
      else
        let r3 := stageCoreCap inp core r2
        let r4 := stageMemCap inp r3
        if r4.total_cnt < minGres inp r ∨
            (r4.max_node_gres ≠ 0 ∧ r4.max_node_gres < minGres inp r) then
          Except.error r4
        else Except.ok (r4, b.2)

/-- The near_gres_cnt cap applied inside the sharing branch: a nonzero
max_node_gres below near_gres_cnt replaces it. -/
def capNear (r : FSock) (near : Nat) : Nat :=
  if r.max_node_gres ≠ 0 ∧ r.max_node_gres < near then r.max_node_gres else near

/-- Saturating accumulation of *near_gpus: add while the sum stays below
0xff, else clamp to 0xff. -/
def satAdd (a b : Nat) : Nat := if a + b < 0xff then a + b else 0xff

/-- The filter loop: processes records in order, stopping at the first
reject with rc = -1 (records after it are untouched).  Returns
(rc, records, avail_gpus, near_gpus). -/
def removeGo (inp : FilterIn) (core : List Bool) :
    List FSock → Nat → Nat → Int × List FSock × Nat × Nat
  | [], avail, near => (0, [], avail, near)
  | r :: rest, avail, near =>
    match processSock inp core r with
    | Except.error e => (-1, e :: rest, avail, near)
    | Except.ok (r2, nc) =>
      let acc :=
        if r2.sharing then (add16 avail r2.total_cnt, satAdd near (capNear r2 nc))
        else (avail, near)
      let t := removeGo inp core rest acc.1 acc.2
      (t.1, r2 :: t.2.1, t.2.2)

/-- gres_select_filter_remove_unusable.  The sock_gres list is optional
(NULL list allowed); *avail_gpus and *near_gpus are zeroed first, then
the guard returns 0 when core_bitmap or the list is NULL or empty. -/
def removeUnusable (inp : FilterIn) (sgl : Option (List FSock)) :
    Int × Option (List FSock) × Nat × Nat :=
  match inp.core_bitmap, sgl with
  | none, _ => (0, sgl, 0, 0)
  | some _, none => (0, sgl, 0, 0)
  | some core, some l =>
    if l.length = 0 then (0, sgl, 0, 0)
    else
      let t := removeGo inp core l 0 0
      (t.1, some t.2.1, t.2.2)

/-!
SECTION: data model for gres_select_filter_select_and_set and its pickers.
-/

/-- sock_gres_t fields read by the pickers. -/
structure SockGres where
  sock_cnt : Nat
  bits_by_sock : Option (List (Option (List Bool)))
  bits_any_sock : Option (List Bool)
  deriving Repr, DecidableEq

/-- gres_job_state_t for one GRES kind: request counters and the output
fields this core writes.  shared models gres_id_shared(config_flags). -/
structure GresJs where
  shared : Bool
  gres_per_node : Nat
  gres_per_socket : Nat
  gres_per_task : Nat
  gres_per_job : Nat
  cpus_per_gres : Nat
  ntasks_per_gres : Nat
  type_id : Nat
  total_node_cnt : Nat
  total_gres : Nat
  gres_cnt_node_select : Option (List Nat)
  gres_bit_select : Option (List (Option (List Bool)))
  gres_per_bit_select : Option (List (Option (List Nat)))
  deriving Repr, DecidableEq

/-- Cluster policy flags read from slurm_conf.select_type_param. -/
structure Conf where
  ll_shared_gres : Bool
  multiple_sharing_gres_pj : Bool
  deriving Repr, DecidableEq

/-- gres_mc_data_t fields read by this core. -/
structure McData where
  sockets_per_node : Nat
  cpus_per_task : Nat
  deriving Repr, DecidableEq

/-- job_resources fields read by the entry point guard. -/
structure JobResources where
  node_bitmap : Option (List Bool)
  deriving Repr, DecidableEq

/-- job_record_t fields read by this core. -/
structure JobRec where
  job_resrcs : Option JobResources
  enforce_bind : Bool
  one_task_per_sharing : Bool
  deriving Repr, DecidableEq

/-- Per-allocated-node context of _select_and_set_node.
use_busy_dev is the value of the external predicate
gres_use_busy_dev(gres_state_node, 0) (its definition lives outside this
file's source); used_cores_on_sock / used_core_cnt / used_sock_cnt are
the values _set_used_cnts derives from the job core bitmap, and
tasks_per_socket is the node's row of the C4 task-layout matrix; all are
derived from collaborator state outside the pickers and are therefore
inputs here. -/
structure NodeCtx where
  sock : SockGres
  ns : GresNs
  use_busy_dev : Bool
  used_cores_on_sock : List Nat
  used_core_cnt : Nat
  used_sock_cnt : Nat
  tasks_per_socket : Option (List Nat)
  tpc : Nat
  tot_sockets : Nat
  deriving Repr, DecidableEq

/-- Resolution of the socket_index argument of the pickers: ANY_SOCK_TEST
(modelled as none) selects bits_any_sock; a socket index selects
bits_by_sock[s]; a NULL table or entry aborts the pick. -/
def resolveSockBits (sock : SockGres) (si : Option Nat) : Option (List Bool) :=
  match si with
  | none => sock.bits_any_sock
  | some s =>
    match sock.bits_by_sock with
    | some bl => bl.getD s none
    | none => none

/-- Result of _pick_gres_topo's scan loop. -/
structure PickRes where
  bits : List Bool
  cnt : Nat
  sorted : Option (List Nat)
  links : Option (List Int)
  still : Nat
  deriving Repr, DecidableEq

/-- _update_and_sort_by_links: add the links of the just-selected gres g
to every unselected, unallocated index, then sort the index array
ascending by link count (the C qsort comparator subtracts the counts). -/
def updateAndSortByLinks (sorted : List Nat) (links : List Int) (g gcnt : Nat)
    (ns : GresNs) (allocBits : List Bool) : List Nat × List Int :=
  let links2 := (List.range gcnt).map (fun l =>
    if l = g ∨ bitTest allocBits l then links.getD l 0
    else links.getD l 0 + linkAt ns g l)
  (List.insertionSort (fun a b => links2.getD a 0 ≤ links2.getD b 0) sorted, links2)

/-- The candidate index of the scan of _pick_gres_topo: sorted_gres[i]
when link sorting is in use, else i itself. -/
def candAt (sorted : Option (List Nat)) (i : Nat) : Nat :=
  match sorted with
  | some sl => sl.getD i 0
  | none => i

/-- The scan loop of _pick_gres_topo.  Candidate order is sorted_gres
when given, else natural order; indices already selected or set in
gres_bit_alloc are skipped.  On a selection with link data the C code
assigns i = 0 and the for-increment then makes the next probe start at
index 1 of the re-sorted array; that restart is kept verbatim. -/
def pickGresLoop (sock_bits allocBits : List Bool) (ns : GresNs) (gcnt : Nat)
    (bits : List Bool) (cnt : Nat) (sorted : Option (List Nat))
    (links : Option (List Int)) (still i : Nat) : PickRes :=
  if still = 0 ∨ gcnt ≤ i then ⟨bits, cnt, sorted, links, still⟩
  else if ¬ bitTest sock_bits (candAt sorted i) then
    pickGresLoop sock_bits allocBits ns gcnt bits cnt sorted links still
      (i + 1)
  else if bitTest bits (candAt sorted i) ∨
      bitTest allocBits (candAt sorted i) then
    pickGresLoop sock_bits allocBits ns gcnt bits cnt sorted links still
      (i + 1)
  else
    match sorted, links with
    | some sl, some lc =>
      pickGresLoop sock_bits allocBits ns gcnt
        (bitSet bits (candAt (some sl) i)) (cnt + 1)
        (some (updateAndSortByLinks sl lc (candAt (some sl) i) gcnt ns
          allocBits).1)
        (some (updateAndSortByLinks sl lc (candAt (some sl) i) gcnt ns
          allocBits).2)
        (still - 1) 1
    | so, li =>
      pickGresLoop sock_bits allocBits ns gcnt
        (bitSet bits (candAt so i)) (cnt + 1) so li (still - 1) (i + 1)
termination_by (still, gcnt - i)
decreasing_by all_goals omega

/-- Result of one _pick_gres_topo call. -/
structure PickOut where
  picked : Nat
  bits : List Bool
  cnt : Nat
  sorted : Option (List Nat)
  links : Option (List Int)
  deriving Repr, DecidableEq

/-- _pick_gres_topo over the per-node slice (gres_bit_select[node] and
gres_cnt_node_select[node]): returns the number of bits set. -/
def pickGresTopo (sock : SockGres) (ns : GresNs) (si : Option Nat)
    (needed : Nat) (bits : List Bool) (cnt : Nat) (sorted : Option (List Nat))
    (links : Option (List Int)) : PickOut :=
  match resolveSockBits sock si with
  | none => ⟨0, bits, cnt, sorted, links⟩
  | some sb =>
    let gcnt := bitSize bits
    let r := pickGresLoop sb (ns.gres_bit_alloc.getD []) ns gcnt bits cnt
      sorted links needed 0
    ⟨needed - r.still, r.bits, r.cnt, r.sorted, r.links⟩

/-- State threaded through the non-shared bit setters: the per-node
slice, the link-sort scratch, and the outstanding request count. -/
structure SelSt where
  bits : List Bool
  cnt : Nat
  sorted : Option (List Nat)
  links : Option (List Int)
  needed : Nat
  deriving Repr, DecidableEq

/-- One picker call in gres_needed -= _pick_gres_topo(...) form. -/
def pickInto (sock : SockGres) (ns : GresNs) (si : Option Nat) (take : Nat)
    (st : SelSt) : SelSt :=
  let r := pickGresTopo sock ns si take st.bits st.cnt st.sorted st.links
  ⟨r.bits, r.cnt, r.sorted, r.links, st.needed - r.picked⟩

/-- State threaded through the shared pickers: per-node slice including
gres_per_bit_select[node], plus the outstanding count. -/
structure ShSt where
  bits : List Bool
  cnt : Nat
  per_bit : List Nat
  needed : Nat
  deriving Repr, DecidableEq

/-- The slot a shared-picker iteration probes: topo_index[j] when a
sort order is given, else j itself. -/
def tiAt (ti : Option (List Nat)) (j : Nat) : Nat :=
  match ti with
  | some l => l.getD j 0
  | none => j

/-- One topology-slot probe of _pick_shared_gres_topo (loop body over j;
t is topo_index[j] when a sort order is given). -/
def pickSharedStep (sock_bits : List Bool) (type_id : Nat)
    (ttype tavail talloc : List Nat) (use_busy use_single no_repeat : Bool)
    (ti : Option (List Nat)) (st : ShSt) (j : Nat) : ShSt :=
  if st.needed = 0 then st
  else
    let t := tiAt ti j
    if type_id ≠ 0 ∧ type_id ≠ ttype.getD t 0 then st
    else if use_busy ∧ talloc.getD t 0 = 0 then st
    else
      let cnt_avail := usub64 (usub64 (tavail.getD t 0) (talloc.getD t 0))
        (st.per_bit.getD t 0)
      if cnt_avail < (if use_single then st.needed else 1) then st
      else if ¬ bitTest sock_bits t then st
      else if no_repeat ∧ bitTest st.bits t then st
      else
        let c := Nat.min cnt_avail st.needed
        if c = 0 then st
        else
          { bits := bitSet st.bits t, cnt := st.cnt + c,
            per_bit := st.per_bit.set t (st.per_bit.getD t 0 + c),
            needed := st.needed - c }

/-- _pick_shared_gres_topo: iterate topology slots (in topo_index order
when given), taking min(remaining, needed) fractional units from each
accepted slot.  A missing topology counter array aborts (error log). -/
def pickSharedGresTopo (sock : SockGres) (js : GresJs) (ns : GresNs)
    (use_busy use_single no_repeat : Bool) (si : Option Nat)
    (ti : Option (List Nat)) (st : ShSt) : ShSt :=
  match resolveSockBits sock si with
  | none => st
  | some sb =>
    match ns.topo_gres_cnt_alloc, ns.topo_gres_cnt_avail with
    | some talloc, some tavail =>
      (List.range ns.topo_cnt).foldl
        (pickSharedStep sb js.type_id ns.topo_type_id tavail talloc use_busy
          use_single no_repeat ti) st
    | _, _ => st

/-- The fixed-point least-loaded key of _get_sorted_topo_by_least_loaded:
(avail - alloc) * gres_cnt_avail / avail in int64 arithmetic (division
truncates toward zero); slots with zero avail keep the xcalloc 0. -/
def llKey (ns : GresNs) (t : Nat) : Int :=
  let av : Nat := (ns.topo_gres_cnt_avail.getD []).getD t 0
  if av = 0 then 0
  else Int.tdiv (((av : Int) - ((ns.topo_gres_cnt_alloc.getD []).getD t 0 : Int))
    * (ns.gres_cnt_avail : Int)) (av : Int)

/-- _get_sorted_topo_by_least_loaded: slot indices sorted in descending
key order (the C qsort comparator returns 1 when cx < cy). -/
def sortedTopoByLeastLoaded (ns : GresNs) : List Nat :=
  List.insertionSort (fun a b => llKey ns b ≤ llKey ns a)
    (List.range ns.topo_cnt)

/-- _pick_shared_gres: under LL_SHARED_GRES slots are visited in
least-loaded order; then three phases: sockets flagged in used_sock, the
ANY-socket bits, and (the source tests the always-non-NULL gres_needed
pointer here, so only enforce_binding gates it) the unflagged sockets. -/
def pickSharedGres (conf : Conf) (sock : SockGres) (js : GresJs) (ns : GresNs)
    (use_busy use_single no_repeat enforce_binding : Bool)
    (used_sock : List Nat) (st : ShSt) : ShSt :=
  let ti := if conf.ll_shared_gres then some (sortedTopoByLeastLoaded ns)
            else none
  let st1 := (List.range sock.sock_cnt).foldl (fun st s =>
      if st.needed = 0 then st
      else if used_sock.getD s 0 = 0 then st
      else pickSharedGresTopo sock js ns use_busy use_single no_repeat
        (some s) ti st) st
  let st2 := if st1.needed ≠ 0 then
      pickSharedGresTopo sock js ns use_busy use_single no_repeat none ti st1
    else st1
  if ¬ enforce_binding then
    (List.range sock.sock_cnt).foldl (fun st s =>
      if st.needed = 0 then st
      else if used_sock.getD s 0 ≠ 0 then st
      else pickSharedGresTopo sock js ns use_busy use_single no_repeat
        (some s) ti st) st2
  else st2

/-- _get_task_cnt_node: sum of tasks_per_socket, 1 when NULL. -/
def getTaskCntNode (tps : Option (List Nat)) (sock_cnt : Nat) : Nat :=
  match tps with
  | none => 1
  | some l => (List.range sock_cnt).foldl (fun a s => a + l.getD s 0) 0

/-- _set_shared_node_bits: a single-device pass, then (under
MULTIPLE_SHARING_GRES_PJ) a multi-device pass; invalid-GRES if the
per-node count is still unmet. -/
def setSharedNodeBits (conf : Conf) (sock : SockGres) (js : GresJs)
    (ns : GresNs) (use_busy enforce : Bool) (used_sock : List Nat)
    (bits : List Bool) (cnt : Nat) (per_bit : List Nat) : ShSt × Int :=
  let st0 : ShSt := ⟨bits, cnt, per_bit, js.gres_per_node⟩
  let st1 := pickSharedGres conf sock js ns use_busy true false enforce
    used_sock st0
  let st2 := if st1.needed ≠ 0 ∧ conf.multiple_sharing_gres_pj then
      pickSharedGres conf sock js ns use_busy false false enforce
        used_sock st1
    else st1
  (st2, if st2.needed ≠ 0 then ESLURM_INVALID_GRES else SLURM_SUCCESS)

/-- _set_shared_task_bits.  Without MULTIPLE_SHARING_GRES_PJ: one
single-device pass for the whole node task count (tasks_per_socket is
also the used_sock argument).  With it: per socket, per task, a
single-device pass restricted to that socket, no_repeat =
one-task-per-sharing; a failed task breaks that socket's task loop.

One task of the per-socket loop of _set_shared_task_bits under
MULTIPLE_SHARING_GRES_PJ: a single-device pass restricted to the
socket's used map; a failure latches the break flag. -/
def tbInner (conf : Conf) (sock : SockGres) (js : GresJs) (ns : GresNs)
    (use_busy no_task_sharing enforce : Bool) (used : List Nat)
    (p : ShSt × Int × Bool) (t : Nat) : ShSt × Int × Bool :=
  if p.2.2 then p
  else
    let st1 := pickSharedGres conf sock js ns use_busy true
      no_task_sharing enforce used
      ⟨p.1.bits, p.1.cnt, p.1.per_bit, js.gres_per_task⟩
    if st1.needed ≠ 0 then (st1, ESLURM_INVALID_GRES, true)
    else (st1, p.2.1, false)

/-- One socket of _set_shared_task_bits under MULTIPLE_SHARING_GRES_PJ:
run tbInner once per task of the socket. -/
def tbSock (conf : Conf) (sock : SockGres) (js : GresJs) (ns : GresNs)
    (use_busy no_task_sharing enforce : Bool) (tasks : List Nat)
    (acc : ShSt × Int) (s : Nat) : ShSt × Int :=
  let used := (List.range sock.sock_cnt).map
    (fun x => if x = s then 1 else 0)
  let inner := (List.range (tasks.getD s 0)).foldl
    (tbInner conf sock js ns use_busy no_task_sharing enforce used)
    (acc.1, acc.2, false)
  (inner.1, inner.2.1)

/-- _set_shared_task_bits: dispatch between the single whole-node pass
and the per-socket/per-task loops. -/
def setSharedTaskBits (conf : Conf) (sock : SockGres) (js : GresJs)
    (ns : GresNs) (use_busy enforce no_task_sharing : Bool)
    (tps : Option (List Nat)) (bits : List Bool) (cnt : Nat)
    (per_bit : List Nat) : ShSt × Int :=
  match tps with
  | none => (⟨bits, cnt, per_bit, 0⟩, SLURM_ERROR)
  | some tasks =>
    if ¬ conf.multiple_sharing_gres_pj then
      let st0 : ShSt := ⟨bits, cnt, per_bit,
        mul64 js.gres_per_task (getTaskCntNode (some tasks) sock.sock_cnt)⟩
      let st1 := pickSharedGres conf sock js ns use_busy true false enforce
        tasks st0
      (st1, if st1.needed ≠ 0 then ESLURM_INVALID_GRES else SLURM_SUCCESS)
    else
      (List.range sock.sock_cnt).foldl
        (tbSock conf sock js ns use_busy no_task_sharing enforce tasks)
        (⟨bits, cnt, per_bit, 0⟩, SLURM_SUCCESS)

/-- _set_node_bits: three passes on gres_needed = gres_per_node — one
unit per allocated socket (with an ANY fallback of one unit), more units
from allocated sockets (with an ANY fallback), then unallocated sockets.
gres_needed is a uint32 local, so gres_per_node is truncated on entry. -/
def setNodeBits (sock : SockGres) (js : GresJs) (ns : GresNs)
    (used_sock : List Nat) (bits : List Bool) (cnt : Nat) :
    List Bool × Nat :=
  let gcnt := bitSize bits
  let st0 : SelSt := ⟨bits, cnt,
    if ns.link_len = gcnt then some (List.range gcnt) else none,
    if ns.link_len = gcnt then some (List.replicate gcnt 0) else none,
    js.gres_per_node % 2 ^ 32⟩
  let s1 := (List.range sock.sock_cnt).foldl (fun st s =>
      if st.needed = 0 then st
      else if used_sock.getD s 0 = 0 then st
      else pickInto sock ns (some s) 1 st) st0
  let s2 := if s1.needed ≠ 0 then pickInto sock ns none 1 s1 else s1
  let s3 := (List.range sock.sock_cnt).foldl (fun st s =>
      if st.needed = 0 then st
      else if used_sock.getD s 0 = 0 then st
      else pickInto sock ns (some s) st.needed st) s2
  let s4 := if s3.needed ≠ 0 then pickInto sock ns none s3.needed s3 else s3
  let s5 := (List.range sock.sock_cnt).foldl (fun st s =>
      if st.needed = 0 then st
      else if used_sock.getD s 0 ≠ 0 then st
      else pickInto sock ns (some s) st.needed st) s4
  (s5.bits, s5.cnt)

/-- bits_by_sock[s] as an Option. -/
def bitsBySockAt (sock : SockGres) (s : Nat) : Option (List Bool) :=
  match sock.bits_by_sock with
  | some bl => bl.getD s none
  | none => none

/-- Free GRES on socket s: popcount(bits_by_sock[s]) minus its overlap
with gres_bit_alloc (the overlap never exceeds the popcount). -/
def freeBySock (sock : SockGres) (ns : GresNs) (s : Nat) : Nat :=
  match bitsBySockAt sock s with
  | some sb => bitSetCount sb - bitOverlap sb (ns.gres_bit_alloc.getD [])
  | none => 0

/-- The low-socket scan of _set_sock_bits: scan s from sock_cnt-1 down
to 0, keeping the socket with the smallest nonzero used_sock value. -/
def findLowSock (us : List Nat) (sock_cnt : Nat) : Option Nat :=
  ((List.range sock_cnt).reverse).foldl (fun acc s =>
    if us.getD s 0 = 0 then acc
    else match acc with
      | none => some s
      | some lo => if us.getD s 0 < us.getD lo 0 then some s else acc) none

/-- The socket-exclusion while loop of _set_sock_bits, translated with
its literal guard (sockets_per_node > used_sock_cnt in this source).
Each iteration zeroes one nonzero entry, so us.length + 1 rounds bound
the C loop exactly. -/
def dropLowSocks (spn : Nat) (sock_cnt : Nat) :
    Nat → List Nat → Nat → List Nat × Nat
  | 0, us, usc => (us, usc)
  | fuel + 1, us, usc =>
    if spn > usc then
      match findLowSock us sock_cnt with
      | none => (us, usc)
      | some li => dropLowSocks spn sock_cnt fuel (us.set li 0) (usc - 1)
    else (us, usc)

/-- The used_sock reshape pre-pass of _set_sock_bits: when the job's
requested socket count differs from the allocated one (and topology data
exists), either elect extra sockets by free-GRES count or convert
used_sock to free counts and drop the lowest ones. -/
def reshapeUsedSock (mc : Option McData) (sock : SockGres) (js : GresJs)
    (ns : GresNs) (us0 : List Nat) (usc0 : Nat) : List Nat :=
  match mc with
  | none => us0
  | some m =>
    if m.sockets_per_node ≠ 0 ∧ m.sockets_per_node ≠ usc0 ∧
        ns.gres_bit_alloc ≠ none ∧ sock.bits_by_sock ≠ none then
      if m.sockets_per_node > usc0 then
        ((List.range sock.sock_cnt).foldl
          (fun (p : List Nat × Nat × Bool) s =>
            if p.2.2 then p
            else if p.1.getD s 0 ≠ 0 then p
            else match bitsBySockAt sock s with
              | none => p
              | some _ =>
                let free := freeBySock sock ns s
                if free = 0 ∨ free < js.gres_per_socket then
                  (p.1.set s 0, p.2.1, false)
                else if p.2.1 + 1 = m.sockets_per_node then
                  (p.1.set s free, p.2.1 + 1, true)
                else (p.1.set s free, p.2.1 + 1, false))
          (us0, usc0, false)).1
      else
        let q := (List.range sock.sock_cnt).foldl
          (fun (p : List Nat × Nat) s =>
            if p.1.getD s 0 = 0 then p
            else match bitsBySockAt sock s with
              | none => p
              | some _ =>
                let free := freeBySock sock ns s
                if free = 0 then (p.1.set s free, p.2 - 1)
                else (p.1.set s free, p.2))
          (us0, usc0)
        (dropLowSocks m.sockets_per_node sock.sock_cnt (q.1.length + 1)
          q.1 q.2).1
    else us0

/-- _set_sock_bits: reshape used_sock when requested and allocated socket
counts differ, then per allocated socket pick gres_per_socket units with
an ANY-socket top-up. -/
def setSockBits (mc : Option McData) (sock : SockGres) (js : GresJs)
    (ns : GresNs) (used_cores_on_sock : List Nat) (used_sock_cnt : Nat)
    (bits : List Bool) (cnt : Nat) : List Bool × Nat :=
  let gcnt := bitSize bits
  let us := reshapeUsedSock mc sock js ns used_cores_on_sock used_sock_cnt
  let st0 : SelSt := ⟨bits, cnt,
    if ns.link_len = gcnt then some (List.range gcnt) else none,
    if ns.link_len = gcnt then some (List.replicate gcnt 0) else none, 0⟩
  let fin := (List.range sock.sock_cnt).foldl (fun st s =>
      if us.getD s 0 = 0 then st
      else
        let st1 := pickInto sock ns (some s) js.gres_per_socket
          { st with needed := js.gres_per_socket }
        if st1.needed ≠ 0 then pickInto sock ns none st1.needed st1
        else st1) st0
  (fin.bits, fin.cnt)

/-- _set_task_bits: gres_needed = task count * gres_per_task; pick per
socket with tasks (capped at tasks[s] * gres_per_task), then ANY, then
any socket. -/
def setTaskBits (sock : SockGres) (js : GresJs) (ns : GresNs)
    (tps : Option (List Nat)) (bits : List Bool) (cnt : Nat) :
    List Bool × Nat :=
  match tps with
  | none => (bits, cnt)
  | some tasks =>
    let gcnt := bitSize bits
    let st0 : SelSt := ⟨bits, cnt,
      if ns.link_len = gcnt then some (List.range gcnt) else none,
      if ns.link_len = gcnt then some (List.replicate gcnt 0) else none,
      mul64 (getTaskCntNode (some tasks) sock.sock_cnt) js.gres_per_task⟩
    let s1 := (List.range sock.sock_cnt).foldl (fun st s =>
        if tasks.getD s 0 = 0 then st
        else
          let want := Nat.min st.needed (mul64 (tasks.getD s 0) js.gres_per_task)
          pickInto sock ns (some s) want st) st0
    let s2 := if s1.needed ≠ 0 then pickInto sock ns none s1.needed s1 else s1
    let s3 := (List.range sock.sock_cnt).foldl (fun st s =>
        if st.needed = 0 then st
        else pickInto sock ns (some s) st.needed st) s2
    (s3.bits, s3.cnt)

/-- The best-pair scan of _set_job_bits1: over selected index pairs
s < g, the pair with the largest links_cnt[s][g]; returns
(best_link_cnt, best_inx), both -1 when no pair exists. -/
def findBestPair (ns : GresNs) (bits : List Bool) (gcnt : Nat) : Int × Int :=
  (List.range gcnt).foldl (fun (b : Int × Int) s =>
    if ¬ bitTest bits s then b
    else (List.range gcnt).foldl (fun (c : Int × Int) g =>
        if g < s + 1 then c
        else if ¬ bitTest bits g then c
        else if linkAt ns s g ≤ c.1 then c
        else (linkAt ns s g, (s : Int))) b) (-1, -1)

/-- links_cnt[best_inx][g] with the int index of the C code; the prune
loop only runs with best_inx ≥ 0. -/
def linkAtI (ns : GresNs) (i : Int) (g : Nat) : Int :=
  if i < 0 then 0 else linkAt ns i.toNat g

/-- The worst-selected scan of one prune iteration: among selected
indices other than best_inx, the one with the smallest
links_cnt[best_inx][g] (initial worst_link_cnt is NO_VAL16). -/
def findWorst (ns : GresNs) (bits : List Bool) (best_inx : Int)
    (gcnt : Nat) : Option Nat :=
  ((List.range gcnt).foldl (fun (w : Int × Option Nat) (g : Nat) =>
    if (g : Int) = best_inx then w
    else if ¬ bitTest bits g then w
    else if linkAtI ns best_inx g ≥ w.1 then w
    else (linkAtI ns best_inx g, some g)) ((NO_VAL16 : Int), none)).2

/-- The prune while loop of _set_job_bits1: while alloc_gres_cnt exceeds
max_gres, clear the worst-linked selected bit; a failed scan breaks. -/
def pruneLoop (ns : GresNs) (gcnt : Nat) (best_inx : Int) (max_gres : Int)
    (bits : List Bool) (cnt : Nat) (alloc : Int) : List Bool × Nat × Int :=
  if alloc ≤ max_gres then (bits, cnt, alloc)
  else
    match findWorst ns bits best_inx gcnt with
    | none => (bits, cnt, alloc)
    | some w =>
      pruneLoop ns gcnt best_inx max_gres (bitClear bits w) (cnt - 1)
        (alloc - 1)
termination_by (alloc - max_gres).toNat
decreasing_by all_goals omega

/-- uint64 total_gres += (int) alloc_gres_cnt. -/
def totalAdd (total : Nat) (alloc : Int) : Nat :=
  (((total : Int) + alloc).emod (U64 : Int)).toNat

/-- Stage 1 of _set_job_bits1: the socket-constrained pick loop
(s < sock_cnt && alloc_gres_cnt < pick_gres, skipping sockets with no
usable core). -/
def jb1Fold1 (sock : SockGres) (ns : GresNs) (cores_on_sock : List Nat)
    (pick_gres : Int) (p0 : List Bool × Nat × Int) :
    List Bool × Nat × Int :=
  (List.range sock.sock_cnt).foldl
    (fun (p : List Bool × Nat × Int) s =>
      if ¬ (p.2.2 < pick_gres) then p
      else if cores_on_sock.getD s 0 = 0 then p
      else
        let r := pickGresTopo sock ns (some s) (pick_gres - p.2.2).toNat
          p.1 p.2.1 none none
        (r.bits, r.cnt, p.2.2 + (r.picked : Int))) p0

/-- Stage 2 of _set_job_bits1: the ANY_SOCK_TEST pick when still short. -/
def jb1Any (sock : SockGres) (ns : GresNs) (pick_gres : Int)
    (p : List Bool × Nat × Int) : List Bool × Nat × Int :=
  if p.2.2 < pick_gres then
    let r := pickGresTopo sock ns none (pick_gres - p.2.2).toNat
      p.1 p.2.1 none none
    (r.bits, r.cnt, p.2.2 + (r.picked : Int))
  else p

/-- Stage 3 of _set_job_bits1: when nothing was picked, scan sockets
without usable cores for a single GRES. -/
def jb1Fold3 (sock : SockGres) (ns : GresNs) (cores_on_sock : List Nat)
    (p0 : List Bool × Nat × Int) : List Bool × Nat × Int :=
  if p0.2.2 = 0 then
    (List.range sock.sock_cnt).foldl
      (fun (p : List Bool × Nat × Int) s =>
        if p.2.2 ≠ 0 then p
        else if cores_on_sock.getD s 0 ≠ 0 then p
        else
          let r := pickGresTopo sock ns (some s) 1 p.1 p.2.1 none none
          (r.bits, r.cnt, p.2.2 + (r.picked : Int))) p0
  else p0

/-- Stage 4 of _set_job_bits1: when over max_gres, find the best-linked
pair and repeatedly drop the worst-linked selected bit. -/
def jb1Prune (ns : GresNs) (gcnt : Nat) (max_gres : Int)
    (p : List Bool × Nat × Int) : List Bool × Nat × Int :=
  if p.2.2 > max_gres then
    let bp := findBestPair ns p.1 gcnt
    if bp.1 ≠ -1 then pruneLoop ns gcnt bp.2 max_gres p.1 p.2.1 p.2.2
    else p
  else p

/-- The four pick stages of _set_job_bits1 chained. -/
def jb1Picks (sock : SockGres) (ns : GresNs) (cores_on_sock : List Nat)
    (pick_gres max_gres : Int) (gcnt : Nat)
    (p0 : List Bool × Nat × Int) : List Bool × Nat × Int :=
  jb1Prune ns gcnt max_gres
    (jb1Fold3 sock ns cores_on_sock
      (jb1Any sock ns pick_gres
        (jb1Fold1 sock ns cores_on_sock pick_gres p0)))

/-- The tail of _set_job_bits1: accumulate total_gres and decide fini. -/
def jb1Finish (js : GresJs) (total1 : Nat) (fini0 : Int)
    (s4 : List Bool × Nat × Int) : List Bool × Nat × Nat × Int :=
  let total2 := totalAdd total1 s4.2.2
  let fini : Int := if js.gres_per_job ≤ total2 then 1 else fini0
  (s4.1, s4.2.1, total2, fini)

/-- _set_job_bits1 on the per-node slice.  Returns the slice, the new
total_gres and the fini flag.  fini is set when gres_per_job equals
total_gres at entry (before the first-node reset) or when total_gres
reaches gres_per_job at exit. -/
def setJobBits1 (sock : SockGres) (js : GresJs) (ns : GresNs)
    (jni rem_nodes : Nat) (cpus_per_task : Nat) (cpus_per_core : Nat)
    (cores_on_sock : List Nat) (total_cores : Nat) (bits : List Bool)
    (cnt : Nat) (total0 : Nat) : List Bool × Nat × Nat × Int :=
  let fini0 : Int := if js.gres_per_job = total0 then 1 else 0
  let total1 : Nat := if jni = 0 then 0 else total0
  let gcnt := bitSize bits
  let mg0 : Int := (js.gres_per_job : Int) - (total1 : Int) -
    ((rem_nodes : Int) - 1)
  let cpg : Nat :=
    if js.cpus_per_gres ≠ 0 then js.cpus_per_gres
    else if js.ntasks_per_gres ≠ 0 ∧ js.ntasks_per_gres ≠ NO_VAL16 then
      mul16 js.ntasks_per_gres cpus_per_task
    else 0
  let max_gres : Int :=
    if cpg ≠ 0 then min mg0 ((total_cores * cpus_per_core / cpg : Nat) : Int)
    else mg0
  let pick_gres : Int :=
    if max_gres > 1 ∧ ns.link_len = gcnt then (NO_VAL16 : Int)
    else max max_gres 1
  jb1Finish js total1 fini0
    (jb1Picks sock ns cores_on_sock pick_gres max_gres gcnt
      (bits, cnt, (0 : Int)))

/-- The links_cnt seed of _set_job_bits2: for every already-selected g,
add links_cnt[g][l] to every other unallocated index l. -/
def seedLinks (ns : GresNs) (bits : List Bool) (gcnt : Nat) : List Int :=
  (List.range gcnt).foldl (fun lc g =>
    if ¬ bitTest bits g then lc
    else (List.range gcnt).foldl (fun (lc2 : List Int) l =>
      if l = g ∨ obitTest ns.gres_bit_alloc l then lc2
      else lc2.set l (lc2.getD l 0 + linkAt ns g l)) lc)
    (List.replicate gcnt 0)

/-- The two pick phases of _set_job_bits2: per allocated socket while
short of gres_per_job, then the ANY-socket pass. -/
def jb2Q (sock : SockGres) (js : GresJs) (ns : GresNs) (st0 : SelSt)
    (total0 : Nat) : SelSt × Nat :=
  let q1 := (List.range sock.sock_cnt).foldl
    (fun (p : SelSt × Nat) s =>
      if ¬ (js.gres_per_job > p.2) then p
      else
        let r := pickGresTopo sock ns (some s) (js.gres_per_job - p.2)
          p.1.bits p.1.cnt p.1.sorted p.1.links
        (⟨r.bits, r.cnt, r.sorted, r.links, 0⟩, p.2 + r.picked))
    (st0, total0)
  if js.gres_per_job > q1.2 then
    let r := pickGresTopo sock ns none (js.gres_per_job - q1.2)
      q1.1.bits q1.1.cnt q1.1.sorted q1.1.links
    (⟨r.bits, r.cnt, r.sorted, r.links, 0⟩, q1.2 + r.picked)
  else q1

/-- _set_job_bits2 on the per-node slice.  Return value: 1 when
gres_per_job is already satisfied, SLURM_ERROR when the node's
gres_bit_select is missing, else picks until satisfied and reports
0 or 1. -/
def setJobBits2 (sock : SockGres) (js : GresJs) (ns : GresNs)
    (obits : Option (List Bool)) (cnt : Nat) (total0 : Nat) :
    Option (List Bool) × Nat × Nat × Int :=
  if js.gres_per_job ≤ total0 then (obits, cnt, total0, 1)
  else
    match obits with
    | none => (none, cnt, total0, SLURM_ERROR)
    | some bits =>
      let gcnt := bitSize bits
      let sl : Option (List Nat) × Option (List Int) :=
        if js.gres_per_job > total0 ∧ ns.link_len = gcnt then
          let lc := seedLinks ns bits gcnt
          (some (List.insertionSort (fun a b => lc.getD a 0 ≤ lc.getD b 0)
            (List.range gcnt)), some lc)
        else (none, none)
      let q2 := jb2Q sock js ns ⟨bits, cnt, sl.1, sl.2, 0⟩ total0
      (some q2.1.bits, q2.1.cnt, q2.2,
        if js.gres_per_job ≤ q2.2 then 1 else 0)

/-- _get_job_cnt: per-node count for a per-job request with no topology
(uint64 arithmetic). -/
def getJobCnt (js : GresJs) (ns : GresNs) (rem_node_cnt : Nat) : Nat :=
  let avail_gres := usub64 ns.gres_cnt_avail ns.gres_cnt_alloc
  let max_gres := usub64 (usub64 js.gres_per_job js.total_gres)
    (rem_node_cnt - 1)
  Nat.min avail_gres max_gres

/-- _get_gres_node_cnt: size of gres_bit_alloc, else size of
topo_gres_bitmap[0], else the sum of topo_gres_cnt_avail. -/
def getGresNodeCnt (ns : GresNs) : Nat :=
  match ns.gres_bit_alloc with
  | some b => bitSize b
  | none =>
    match ns.topo_gres_bitmap with
    | some tb =>
      match tb.getD 0 none with
      | some b0 => bitSize b0
      | none => (List.range ns.topo_cnt).foldl
          (fun a i => a + (ns.topo_gres_cnt_avail.getD []).getD i 0) 0
    | none => (List.range ns.topo_cnt).foldl
        (fun a i => a + (ns.topo_gres_cnt_avail.getD []).getD i 0) 0

/-- gres_cnt_node_select[n]. -/
def cntSelAt (js : GresJs) (n : Nat) : Nat :=
  (js.gres_cnt_node_select.getD []).getD n 0

/-- Write gres_cnt_node_select[n]. -/
def setCntSel (js : GresJs) (n : Nat) (v : Nat) : GresJs :=
  { js with gres_cnt_node_select := some ((js.gres_cnt_node_select.getD []).set n v) }

/-- gres_bit_select[n] as the C bitmap pointer. -/
def bitSelAt (js : GresJs) (n : Nat) : Option (List Bool) :=
  (js.gres_bit_select.getD []).getD n none

/-- gres_bit_select[n] dereferenced (empty for NULL). -/
def bitsListAt (js : GresJs) (n : Nat) : List Bool :=
  (bitSelAt js n).getD []

/-- Write gres_bit_select[n]. -/
def setBitSel (js : GresJs) (n : Nat) (bs : List Bool) : GresJs :=
  { js with gres_bit_select := some ((js.gres_bit_select.getD []).set n (some bs)) }

/-- gres_per_bit_select[n] dereferenced (empty for NULL). -/
def perBitListAt (js : GresJs) (n : Nat) : List Nat :=
  ((js.gres_per_bit_select.getD []).getD n none).getD []

/-- Write gres_per_bit_select[n]. -/
def setPerBit (js : GresJs) (n : Nat) (l : List Nat) : GresJs :=
  { js with gres_per_bit_select := some ((js.gres_per_bit_select.getD []).set n (some l)) }

/-- First-use bookkeeping of _select_and_set_node: record
total_node_cnt and zero total_gres. -/
def prepTot (node_cnt : Nat) (js0 : GresJs) : GresJs :=
  if js0.total_node_cnt = 0 then
    { js0 with total_node_cnt := node_cnt, total_gres := 0 }
  else js0

/-- Allocate gres_cnt_node_select when missing. -/
def prepCnt (node_cnt : Nat) (js : GresJs) : GresJs :=
  if js.gres_cnt_node_select = none then
    { js with gres_cnt_node_select := some (List.replicate node_cnt 0) }
  else js

/-- The entry bookkeeping of _select_and_set_node: set total_node_cnt
on first use, allocate gres_cnt_node_select, reset total_gres on the
first node. -/
def sanPrep (node_cnt jni : Nat) (js0 : GresJs) : GresJs :=
  let js2 := prepCnt node_cnt (prepTot node_cnt js0)
  if jni = 0 then { js2 with total_gres := 0 } else js2

/-- The no-topology branch of _select_and_set_node: write the slot
count straight from the request and accumulate total_gres. -/
def sanTopo0 (node : NodeCtx) (jni rem_node_cnt : Nat) (js3 : GresJs) :
    GresJs :=
  let ns := node.ns
  let js4 :=
    if js3.gres_per_node ≠ 0 then setCntSel js3 jni js3.gres_per_node
    else if js3.gres_per_socket ≠ 0 then
      setCntSel js3 jni (mul64 js3.gres_per_socket node.used_sock_cnt)
    else if js3.gres_per_task ≠ 0 then
      setCntSel js3 jni (mul64 js3.gres_per_task
        (getTaskCntNode node.tasks_per_socket node.tot_sockets))
    else if js3.gres_per_job ≠ 0 then
      setCntSel js3 jni (getJobCnt js3 ns rem_node_cnt)
    else js3
  { js4 with total_gres := js4.total_gres + cntSelAt js4 jni }

/-- The shared branch of _select_and_set_node (gres_per_bit_select
bookkeeping plus the shared setters). -/
def sanShared (conf : Conf) (enforce_bind one_task_per_sharing : Bool)
    (node : NodeCtx) (jni gcnt : Nat) (job_fini : Int) (js5 : GresJs) :
    GresJs × Int :=
  let ns := node.ns
  let sock := node.sock
  let js6 := if js5.gres_per_bit_select = none then
      { js5 with gres_per_bit_select := some (List.replicate js5.total_node_cnt none) }
    else js5
  let js7 := setPerBit js6 jni (List.replicate gcnt 0)
  let d : ShSt × Int :=
    if js7.gres_per_node ≠ 0 then
      setSharedNodeBits conf sock js7 ns node.use_busy_dev enforce_bind
        node.used_cores_on_sock (bitsListAt js7 jni) (cntSelAt js7 jni)
        (perBitListAt js7 jni)
    else if js7.gres_per_task ≠ 0 then
      setSharedTaskBits conf sock js7 ns node.use_busy_dev enforce_bind
        one_task_per_sharing node.tasks_per_socket (bitsListAt js7 jni)
        (cntSelAt js7 jni) (perBitListAt js7 jni)
    else (⟨bitsListAt js7 jni, cntSelAt js7 jni, perBitListAt js7 jni, 0⟩,
      ESLURM_INVALID_GRES)
  let js8 := setPerBit (setCntSel (setBitSel js7 jni d.1.bits) jni d.1.cnt)
    jni d.1.per_bit
  let js9 := if job_fini = -1 then
      { js8 with total_gres := js8.total_gres + cntSelAt js8 jni }
    else js8
  (js9, d.2)

/-- The total_gres accumulation at the end of the non-shared branch
(done when job_fini stayed -1). -/
def sanFin (jni : Nat) (d : GresJs × Int) : GresJs × Int :=
  (if d.2 = -1 then
    { d.1 with total_gres := d.1.total_gres + cntSelAt d.1 jni }
  else d.1, d.2)

/-- The non-shared branch of _select_and_set_node: dispatch to the
per-node, per-socket, per-task or per-job (pass 1) setter. -/
def sanNonshared (mc : Option McData) (node : NodeCtx)
    (jni rem_node_cnt : Nat) (job_fini : Int) (js5 : GresJs) :
    GresJs × Int :=
  let ns := node.ns
  let sock := node.sock
  let d : GresJs × Int :=
    if js5.gres_per_node ≠ 0 then
      let r := setNodeBits sock js5 ns node.used_cores_on_sock
        (bitsListAt js5 jni) (cntSelAt js5 jni)
      (setCntSel (setBitSel js5 jni r.1) jni r.2, job_fini)
    else if js5.gres_per_socket ≠ 0 then
      let r := setSockBits mc sock js5 ns node.used_cores_on_sock
        node.used_sock_cnt (bitsListAt js5 jni) (cntSelAt js5 jni)
      (setCntSel (setBitSel js5 jni r.1) jni r.2, job_fini)
    else if js5.gres_per_task ≠ 0 then
      let r := setTaskBits sock js5 ns node.tasks_per_socket
        (bitsListAt js5 jni) (cntSelAt js5 jni)
      (setCntSel (setBitSel js5 jni r.1) jni r.2, job_fini)
    else if js5.gres_per_job ≠ 0 then
      let r := setJobBits1 sock js5 ns jni rem_node_cnt
        ((mc.getD ⟨0, 0⟩).cpus_per_task) node.tpc
        node.used_cores_on_sock node.used_core_cnt
        (bitsListAt js5 jni) (cntSelAt js5 jni) js5.total_gres
      ({ setCntSel (setBitSel js5 jni r.1) jni r.2.1 with
          total_gres := r.2.2.1 },
        if job_fini ≠ 0 then r.2.2.2 else job_fini)
    else (js5, job_fini)
  sanFin jni d

/-- _select_and_set_node for one GRES kind on one allocated node.
jni is the job-relative node index (node_inx == bit_ffs(node_bitmap)
iff jni = 0, and per-node output slots are indexed job-relatively in
this per-kind projection).  Returns the job state, rc, and job_fini. -/
def selectAndSetNodeJs (conf : Conf) (mc : Option McData)
    (enforce_bind one_task_per_sharing : Bool) (node : NodeCtx)
    (jni node_cnt rem_node_cnt : Nat) (js0 : GresJs) (job_fini : Int) :
    GresJs × Int × Int :=
  let ns := node.ns
  let js3 := sanPrep node_cnt jni js0
  if ns.topo_cnt = 0 then
    (sanTopo0 node jni rem_node_cnt js3, SLURM_SUCCESS, job_fini)
  else
    let js4 := if js3.gres_bit_select = none then
        { js3 with gres_bit_select := some (List.replicate node_cnt none) }
      else js3
    let gcnt := getGresNodeCnt ns
    let js5 := setCntSel (setBitSel js4 jni (List.replicate gcnt false)) jni 0
    if js5.shared then
      let r := sanShared conf enforce_bind one_task_per_sharing node jni
        gcnt job_fini js5
      (r.1, r.2, job_fini)
    else
      let r := sanNonshared mc node jni rem_node_cnt job_fini js5
      (r.1, SLURM_SUCCESS, r.2)

/-- _select_and_set_node with the node state it read threaded back to
the caller, expressing that the function never writes it. -/
def selectAndSetNode (conf : Conf) (mc : Option McData)
    (enforce_bind one_task_per_sharing : Bool) (node : NodeCtx)
    (jni node_cnt rem_node_cnt : Nat) (js0 : GresJs) (job_fini : Int) :
    GresJs × GresNs × Int × Int :=
  let r := selectAndSetNodeJs conf mc enforce_bind one_task_per_sharing
    node jni node_cnt rem_node_cnt js0 job_fini
  (r.1, node.ns, r.2.1, r.2.2)

/-- Pass-1 loop state of gres_select_filter_select_and_set. -/
structure LoopSt where
  js : GresJs
  job_fini : Int
  rc : Int
  nsl : List GresNs
  deriving Repr, DecidableEq

/-- Pass-2 loop state (js, the running job_fini, whether the node loop
broke on fini = 1). -/
structure Pass2St where
  js : GresJs
  fini : Int
  done : Bool
  deriving Repr, DecidableEq

/-- One pass-2 node visit: _set_job_bits2 on the node's slice; the
returned int becomes a bool at the call site, so nonzero counts as 1. -/
def pass2Node (node : NodeCtx) (i : Nat) (p : Pass2St) : Pass2St :=
  if p.done then p
  else
    let r := setJobBits2 node.sock p.js node.ns (bitSelAt p.js i)
      (cntSelAt p.js i) p.js.total_gres
    let js2 :=
      match r.1 with
      | some bs => setCntSel (setBitSel p.js i bs) i r.2.1
      | none => p.js
    let js3 := { js2 with total_gres := r.2.2.1 }
    let f : Int := if r.2.2.2 ≠ 0 then 1 else 0
    ⟨js3, f, f = 1⟩

/-- gres_select_filter_select_and_set for one GRES kind.  nodes lists
the per-node contexts in allocated-node (set-bit) order; node_cnt and
rem_node_cnt follow the node bitmap of the job resources, which in this
per-kind projection has exactly the listed nodes allocated.  Returns
(rc, job state, node states read). -/
def selectAndSetKind (conf : Conf) (job : JobRec) (mc : Option McData)
    (nodes : List NodeCtx) (js : GresJs) : Int × GresJs × List GresNs :=
  match job.job_resrcs with
  | none => (SLURM_ERROR, js, nodes.map (fun nd => nd.ns))
  | some jr =>
    match jr.node_bitmap with
    | none => (SLURM_ERROR, js, nodes.map (fun nd => nd.ns))
    | some _ =>
      let node_cnt := nodes.length
      let p1 := nodes.enum.foldl (fun (st : LoopSt) ind =>
          if st.rc ≠ SLURM_SUCCESS then
            { st with nsl := st.nsl ++ [ind.2.ns] }
          else
            let r := selectAndSetNode conf mc job.enforce_bind
              job.one_task_per_sharing ind.2 ind.1 node_cnt
              (node_cnt - ind.1) st.js st.job_fini
            ⟨r.1, r.2.2.2, r.2.2.1, st.nsl ++ [r.2.1]⟩)
        ⟨js, -1, SLURM_SUCCESS, []⟩
      if p1.job_fini = 0 then
        let p2 := nodes.enum.foldl (fun (p : Pass2St) ind =>
            pass2Node ind.2 ind.1 p) ⟨p1.js, -1, false⟩
        if p2.fini = 0 then (ESLURM_NODE_NOT_AVAIL, p2.js, p1.nsl)
        else (p1.rc, p2.js, p1.nsl)
      else (p1.rc, p1.js, p1.nsl)

/-!
SECTION: derived quantities used in theorem statements.
-/

/-- The record a filter-loop visit leaves behind: the ok record, or the
partially mutated record at the break. -/
def sockOut (inp : FilterIn) (core : List Bool) (r : FSock) : FSock :=
  match processSock inp core r with
  | Except.ok v => v.1
  | Except.error e => e

/-- Sum of cnt_by_sock over the listed sockets that have no available
core (the quantity the binding prune subtracts). -/
def psum (avail : List Bool) : List Nat → List Nat → Nat
  | [], _ => 0
  | s :: rest, l =>
    (if bitTest avail s then 0 else l.getD s 0) + psum avail rest l

/-- The claim's post-binding-prune count for one request: total_cnt
minus the cnt_by_sock contributions of sockets with no available core. -/
def claimNear (inp : FilterIn) (core : List Bool) (r : FSock) : Nat :=
  r.total_cnt - psum (availCoresBySock core inp.sockets inp.cores_per_sock)
    (List.range inp.sockets) (r.cnt_by_sock.getD [])

/-- The near_gpus contribution of one visited record: for sharing kinds
the post-prune count capped at max_node_gres, accumulated with
saturation; other kinds contribute nothing. -/
def accNear (inp : FilterIn) (core : List Bool) (acc : Nat) (r : FSock) :
    Nat :=
  match processSock inp core r with
  | Except.ok v => if v.1.sharing then satAdd acc (capNear v.1 v.2) else acc
  | Except.error _ => acc

/-- The avail_gpus contribution of one visited record. -/
def accAvail (inp : FilterIn) (core : List Bool) (acc : Nat) (r : FSock) :
    Nat :=
  match processSock inp core r with
  | Except.ok v => if v.1.sharing then add16 acc v.1.total_cnt else acc
  | Except.error _ => acc

/-!
SECTION: concrete instances used by counterexamples and witnesses.
-/

/-- A node state with no topology (the filter never reads it). -/
def nsNone : GresNs := ⟨0, 0, none, 0, none, none, none, [], [], 0⟩

/-- Filter inputs: memory tracked (10 units), one socket with one
available core, nothing else constrained. -/
def inpMem : FilterIn :=
  ⟨10, 0, false, some [true], 1, 1, 1, NO_VAL, NO_VAL16, 0, false⟩

/-- A request with gres_per_node = 5 and mem_per_gres = 1 but only 2
usable units: the memory step sets max_node_gres before the final check
rejects. -/
def rMem : FSock := ⟨nsNone, false, 5, 0, 0, 0, 0, 0, 0, 1, 0, 2, 0, none⟩

/-- Filter inputs with memory untracked. -/
def inpPlain : FilterIn :=
  ⟨NO_VAL64, 0, false, some [true], 1, 1, 1, NO_VAL, NO_VAL16, 0, false⟩

/-- A sharing request with total_cnt = 5 and gres_per_node = 2: feasible,
with max_node_gres capped to 2 by gres_per_node. -/
def rShare : FSock := ⟨nsNone, true, 2, 0, 0, 0, 0, 0, 0, 0, 0, 5, 0, none⟩

/-- A request with total_cnt = 0 and gres_per_node = 1: rejected by the
final count check. -/
def rZero : FSock := ⟨nsNone, false, 1, 0, 0, 0, 0, 0, 0, 0, 0, 0, 0, none⟩

/-- Shared-GRES node state for the least-loaded scenario: two slots,
avail = [10,10], alloc = [5,2], node-wide gres_cnt_avail = 20. -/
def nsLL : GresNs :=
  ⟨20, 7, some [false, false], 2, some [10, 10], some [5, 2], none,
    [0, 0], [], 0⟩

/-- One socket holding both topology slots. -/
def sockLL : SockGres := ⟨1, some [some [true, true]], none⟩

/-- A shared per-node request for 1 unit. -/
def jsLL : GresJs := ⟨true, 1, 0, 0, 0, 0, 0, 0, 0, 0, none, none, none⟩

/-- Policy flags with LL_SHARED_GRES set. -/
def confLL : Conf := ⟨true, false⟩

/-- Policy flags with neither LL_SHARED_GRES nor
MULTIPLE_SHARING_GRES_PJ. -/
def confOff : Conf := ⟨false, false⟩

/-- Shared node state whose single slot is busy (alloc = 1) and whose
bit 0 is set in gres_bit_alloc. -/
def nsBusy : GresNs :=
  ⟨4, 1, some [true], 1, some [4], some [1], none, [0], [], 0⟩

/-- A sock_gres whose ANY-socket bits hold slot 0. -/
def sockAny : SockGres := ⟨1, none, some [true]⟩

/-- A shared request (type 0). -/
def jsShared : GresJs := ⟨true, 1, 0, 0, 0, 0, 0, 0, 0, 0, none, none, none⟩

/-- Node state with four units, unit 1 already allocated, one topology
group, no links. -/
def nsFour : GresNs :=
  ⟨4, 0, some [false, true, false, false], 1, some [4], some [0], none,
    [0], [], 0⟩

/-- One socket holding all four units. -/
def sockFour : SockGres := ⟨1, some [some [true, true, true, true]], none⟩

/-- A non-shared per-node request for 2 units. -/
def jsPerNode : GresJs :=
  ⟨false, 2, 0, 0, 0, 0, 0, 0, 0, 0, none, none, none⟩

/-- Node context for nsFour. -/
def ndFour : NodeCtx := ⟨sockFour, nsFour, false, [1], 1, 1, none, 1, 1⟩

/-- A job record with resources and a one-node bitmap. -/
def jobOne : JobRec := ⟨some ⟨some [true]⟩, false, false⟩

/-- A job record whose job_resrcs is NULL. -/
def jobNoRes : JobRec := ⟨none, false, false⟩

/-- A non-shared per-job request for 2 units. -/
def jsPerJob : GresJs :=
  ⟨false, 0, 0, 0, 2, 0, 0, 0, 0, 0, none, none, none⟩

/-- A sock_gres with no sockets and no bitmaps. -/
def sockNone : SockGres := ⟨0, none, none⟩

/-!
SECTION: generic list lemmas used by the invariant proofs.
-/

lemma getD_set_self {α : Type} (l : List α) (n : Nat) (a d : α)
    (h : n < l.length) : (l.set n a).getD n d = a := by
  induction l generalizing n with
  | nil => simp at h
  | cons b t ih =>
    cases n with
    | zero => rfl
    | succ m => exact ih m (by simpa using h)

lemma getD_set_ne {α : Type} (l : List α) (n m : Nat) (a d : α)
    (h : m ≠ n) : (l.set n a).getD m d = l.getD m d := by
  induction l generalizing n m with
  | nil => rfl
  | cons b t ih =>
    cases n with
    | zero =>
      cases m with
      | zero => exact absurd rfl h
      | succ k => rfl
    | succ n0 =>
      cases m with
      | zero => rfl
      | succ k => exact ih n0 k (by omega)

lemma count_set_true (l : List Bool) (g : Nat) (h : g < l.length)
    (hf : l.getD g false = false) :
    (l.set g true).count true = l.count true + 1 := by
  induction l generalizing g with
  | nil => simp at h
  | cons b t ih =>
    cases g with
    | zero =>
      simp only [List.getD_cons_zero] at hf
      simp [List.count_cons, hf]
    | succ m =>
      simp only [List.getD_cons_succ] at hf
      have := ih m (by simpa using h) hf
      simp only [List.set, List.count_cons, this]
      omega

lemma getD_true_lt (l : List Bool) (g : Nat) (ht : l.getD g false = true) :
    g < l.length := by
  by_contra hge
  rw [List.getD_eq_default] at ht
  · exact absurd ht (by simp)
  · omega

lemma count_clear (l : List Bool) (g : Nat) (ht : l.getD g false = true) :
    (l.set g false).count true + 1 = l.count true := by
  induction l generalizing g with
  | nil => simp at ht
  | cons b t ih =>
    cases g with
    | zero =>
      simp only [List.getD_cons_zero] at ht
      simp [List.count_cons, ht]
    | succ m =>
      simp only [List.getD_cons_succ] at ht
      have := ih m ht
      simp only [List.set, List.count_cons]
      omega

lemma sum_set_add (l : List Nat) (t c : Nat) (h : t < l.length) :
    (l.set t (l.getD t 0 + c)).sum = l.sum + c := by
  induction l generalizing t with
  | nil => simp at h
  | cons b r ih =>
    cases t with
    | zero => simp [List.sum_cons]; omega
    | succ m =>
      have := ih m (by simpa using h)
      simp only [List.getD_cons_succ, List.set, List.sum_cons, this]
      omega

lemma bitTest_set_elim (l : List Bool) (g0 g : Nat)
    (h : bitTest (bitSet l g0) g = true) : g = g0 ∨ bitTest l g = true := by
  rcases eq_or_ne g g0 with he | hne
  · exact Or.inl he
  · right
    unfold bitTest bitSet at h
    unfold bitTest
    rwa [getD_set_ne _ _ _ _ _ hne] at h

lemma foldl_pres {α σ : Type} (P : σ → Prop) (f : σ → α → σ)
    (l : List α) (s : σ) (h : ∀ s a, a ∈ l → P s → P (f s a)) (hs : P s) :
    P (l.foldl f s) := by
  induction l generalizing s with
  | nil => exact hs
  | cons a t ih =>
    exact ih _ (fun s b hb => h s b (List.mem_cons_of_mem a hb))
      (h s a (List.mem_cons_self a t) hs)

lemma mem_insertionSort {α : Type} (r : α → α → Prop) [DecidableRel r]
    (l : List α) (x : α) : x ∈ List.insertionSort r l ↔ x ∈ l :=
  (List.perm_insertionSort r l).mem_iff

lemma foldl_ext {α σ : Type} (f g : σ → α → σ) (l : List α) (s : σ)
    (h : ∀ a ∈ l, ∀ x, f x a = g x a) : l.foldl f s = l.foldl g s := by
  induction l generalizing s with
  | nil => rfl
  | cons a t ih =>
    rw [List.foldl_cons, List.foldl_cons, h a (List.mem_cons_self a t)]
    exact ih _ (fun b hb => h b (List.mem_cons_of_mem a hb))

/-!
SECTION: filter arithmetic lemmas.
-/

lemma usub64_of_le (a b : Nat) (ha : a < U64) (hb : b ≤ a) :
    usub64 a b = a - b := by
  unfold usub64 U64 at *
  omega

lemma psum_nil_list (avail : List Bool) (idxs : List Nat) :
    psum avail idxs [] = 0 := by
  induction idxs with
  | nil => rfl
  | cons s rest ih => simp [psum, ih]

lemma psum_set_ne (avail : List Bool) (idxs : List Nat) (l : List Nat)
    (s : Nat) (v : Nat) (hs : s ∉ idxs) :
    psum avail idxs (l.set s v) = psum avail idxs l := by
  induction idxs with
  | nil => rfl
  | cons t rest ih =>
    have hts : t ≠ s := fun he => hs (he ▸ List.mem_cons_self t rest)
    have hrest : s ∉ rest := fun hm => hs (List.mem_cons_of_mem t hm)
    simp only [psum, ih hrest, getD_set_ne l s t v 0 hts]

lemma pruneGo_fst (avail : List Bool) (idxs : List Nat) (total : Nat)
    (l : List Nat) (hnd : idxs.Nodup) (htot : total < U64)
    (hsum : psum avail idxs l ≤ total) :
    (pruneGo avail idxs total l).1 = total - psum avail idxs l := by
  induction idxs generalizing total l with
  | nil => simp [pruneGo, psum]
  | cons s rest ih =>
    rcases List.nodup_cons.mp hnd with ⟨hs, hnd2⟩
    by_cases hav : bitTest avail s = true
    · simp only [pruneGo, psum, hav, ite_true, Nat.zero_add] at hsum ⊢
      exact ih total l hnd2 htot hsum
    · simp only [pruneGo, psum, hav, Bool.false_eq_true, ite_false]
        at hsum ⊢
      have he : l.getD s 0 ≤ total := by omega
      rw [usub64_of_le _ _ htot he,
        ih (total - l.getD s 0) (l.set s 0) hnd2 (by omega)
          (by rw [psum_set_ne avail rest l s 0 hs]; omega),
        psum_set_ne avail rest l s 0 hs]
      omega

lemma nearGo_eq (avail : List Bool) (idxs : List Nat) (near : Nat)
    (l : List Nat) (hnear : near < U64)
    (hsum : psum avail idxs l ≤ near) :
    nearGo avail idxs near l = near - psum avail idxs l := by
  induction idxs generalizing near with
  | nil => simp [nearGo, psum]
  | cons s rest ih =>
    by_cases hav : bitTest avail s = true
    · simp only [nearGo, psum, hav, ite_true, Nat.zero_add] at hsum ⊢
      exact ih near hnear hsum
    · simp only [nearGo, psum, hav, Bool.false_eq_true, ite_false]
        at hsum ⊢
      have he : l.getD s 0 ≤ near := by omega
      rw [usub64_of_le _ _ hnear he, ih (near - l.getD s 0) (by omega)
        (by omega)]
      omega

/-!
SECTION: the filter loop body never touches gres_state_node and sharing,
and reaches the final check with the staged record.
-/

lemma stageMem_keep (inp : FilterIn) (r : FSock) :
    (stageMem inp r).gres_state_node = r.gres_state_node ∧
    (stageMem inp r).sharing = r.sharing ∧
    (stageMem inp r).total_cnt = r.total_cnt ∧
    (stageMem inp r).cnt_by_sock = r.cnt_by_sock := by
  unfold stageMem
  dsimp only
  split_ifs <;> exact ⟨rfl, rfl, rfl, rfl⟩

lemma stageBind_keep (inp : FilterIn) (avail : List Bool) (r : FSock) :
    (stageBind inp avail r).1.gres_state_node = r.gres_state_node ∧
    (stageBind inp avail r).1.sharing = r.sharing := by
  unfold stageBind
  rcases hcs : r.cnt_by_sock with _ | l <;> dsimp only
  · exact ⟨rfl, rfl⟩
  · split_ifs <;> exact ⟨rfl, rfl⟩

lemma setMaxNodeGres_fst_gsn (r : FSock) (v : Nat) :
    (setMaxNodeGres r v).1.gres_state_node = r.gres_state_node := by
  unfold setMaxNodeGres
  split_ifs <;> rfl

lemma setMaxNodeGres_fst_sharing (r : FSock) (v : Nat) :
    (setMaxNodeGres r v).1.sharing = r.sharing := by
  unfold setMaxNodeGres
  split_ifs <;> rfl

lemma setMaxNodeGres_keep (r : FSock) (v : Nat) :
    (setMaxNodeGres r v).1.gres_state_node = r.gres_state_node ∧
    (setMaxNodeGres r v).1.sharing = r.sharing :=
  ⟨setMaxNodeGres_fst_gsn r v, setMaxNodeGres_fst_sharing r v⟩

lemma stagePerNodeCap_keep (inp : FilterIn) (r : FSock) :
    (stagePerNodeCap inp r).gres_state_node = r.gres_state_node ∧
    (stagePerNodeCap inp r).sharing = r.sharing := by
  unfold stagePerNodeCap
  dsimp only
  split_ifs <;>
    simp [setMaxNodeGres_fst_gsn, setMaxNodeGres_fst_sharing]

lemma stageCoreCap_keep (inp : FilterIn) (core : List Bool) (r : FSock) :
    (stageCoreCap inp core r).gres_state_node = r.gres_state_node ∧
    (stageCoreCap inp core r).sharing = r.sharing := by
  unfold stageCoreCap
  dsimp only
  split_ifs <;> exact ⟨rfl, rfl⟩

lemma stageMemCap_keep (inp : FilterIn) (r : FSock) :
    (stageMemCap inp r).gres_state_node = r.gres_state_node ∧
    (stageMemCap inp r).sharing = r.sharing := by
  unfold stageMemCap
  dsimp only
  split_ifs <;> exact ⟨rfl, rfl⟩

lemma finalRec_keep (inp : FilterIn) (core : List Bool) (r : FSock) :
    (finalRec inp core r).gres_state_node = r.gres_state_node ∧
    (finalRec inp core r).sharing = r.sharing := by
  unfold finalRec
  constructor
  · rw [(stageMemCap_keep _ _).1, (stageCoreCap_keep _ _ _).1,
      (stagePerNodeCap_keep _ _).1, (stageBind_keep _ _ _).1,
      (stageMem_keep _ _).1]
  · rw [(stageMemCap_keep _ _).2, (stageCoreCap_keep _ _ _).2,
      (stagePerNodeCap_keep _ _).2, (stageBind_keep _ _ _).2,
      (stageMem_keep _ _).2.1]

lemma processSock_error_keep (inp : FilterIn) (core : List Bool)
    (r e : FSock) (h : processSock inp core r = Except.error e) :
    e.gres_state_node = r.gres_state_node ∧ e.sharing = r.sharing := by
  simp only [processSock] at h
  split_ifs at h <;> cases h
  · exact ⟨rfl, rfl⟩
  · exact ⟨rfl, rfl⟩
  · refine ⟨?_, ?_⟩
    · rw [(stagePerNodeCap_keep _ _).1, (stageBind_keep _ _ _).1,
        (stageMem_keep _ _).1]
    · rw [(stagePerNodeCap_keep _ _).2, (stageBind_keep _ _ _).2,
        (stageMem_keep _ _).2.1]
  · exact ⟨(finalRec_keep inp core r).1, (finalRec_keep inp core r).2⟩

lemma processSock_ok_eq (inp : FilterIn) (core : List Bool) (r : FSock)
    (v : FSock × Nat) (h : processSock inp core r = Except.ok v) :
    v.1 = finalRec inp core r ∧
    v.2 = (stageBind inp (availCoresBySock core inp.sockets
      inp.cores_per_sock) (stageMem inp r)).2 := by
  simp only [processSock] at h
  split_ifs at h <;> cases h
  exact ⟨rfl, rfl⟩

lemma processSock_reject (inp : FilterIn) (core : List Bool) (r : FSock)
    (h : finalReject inp core r) :
    ∃ e, processSock inp core r = Except.error e := by
  unfold finalReject finalRec at h
  simp only [processSock]
  split_ifs
  all_goals exact ⟨_, rfl⟩

lemma stageBind_near_claim (inp : FilterIn) (core : List Bool) (r : FSock)
    (htot : r.total_cnt < U64)
    (hsum : psum (availCoresBySock core inp.sockets inp.cores_per_sock)
      (List.range inp.sockets) (r.cnt_by_sock.getD []) ≤ r.total_cnt) :
    (stageBind inp (availCoresBySock core inp.sockets inp.cores_per_sock)
      (stageMem inp r)).2 = claimNear inp core r := by
  have hm := stageMem_keep inp r
  unfold stageBind claimNear
  rw [hm.2.2.1, hm.2.2.2]
  rcases hcs : r.cnt_by_sock with _ | l
  · rw [hcs] at hsum
    simp only [Option.getD] at hsum ⊢
    rw [psum_nil_list]
    omega
  · rw [hcs] at hsum
    simp only [Option.getD] at hsum ⊢
    split
    · exact pruneGo_fst _ _ _ _ (List.nodup_range inp.sockets) htot hsum
    · exact nearGo_eq _ _ _ _ htot hsum

/-!
SECTION: the filter loop as a whole.
-/

lemma removeGo_error_head (inp : FilterIn) (core : List Bool)
    (pre : List FSock) (r : FSock) (post : List FSock) (a n : Nat)
    (hpre : ∀ x ∈ pre, ∃ v, processSock inp core x = Except.ok v)
    (e : FSock) (herr : processSock inp core r = Except.error e) :
    (removeGo inp core (pre ++ r :: post) a n).1 = -1 ∧
    (removeGo inp core (pre ++ r :: post) a n).2.1 =
      pre.map (sockOut inp core) ++ sockOut inp core r :: post := by
  induction pre generalizing a n with
  | nil =>
    simp only [List.nil_append, List.map_nil]
    unfold removeGo
    rw [herr]
    refine ⟨rfl, ?_⟩
    have hso : sockOut inp core r = e := by unfold sockOut; rw [herr]
    rw [hso]
  | cons x t ih =>
    rcases hpre x (List.mem_cons_self x t) with ⟨v, hv⟩
    have htail : ∀ y ∈ t, ∃ w, processSock inp core y = Except.ok w :=
      fun y hy => hpre y (List.mem_cons_of_mem x hy)
    have hso : sockOut inp core x = v.1 := by unfold sockOut; rw [hv]
    simp only [List.cons_append, List.map_cons]
    unfold removeGo
    rw [hv]
    dsimp only
    exact ⟨(ih _ _ htail).1, by rw [hso, (ih _ _ htail).2]⟩

lemma removeGo_ok_state (inp : FilterIn) (core : List Bool)
    (l : List FSock) (a n : Nat)
    (hok : ∀ x ∈ l, ∃ v, processSock inp core x = Except.ok v) :
    (removeGo inp core l a n).1 = 0 ∧
    (removeGo inp core l a n).2.1 = l.map (sockOut inp core) ∧
    (removeGo inp core l a n).2.2.1 = l.foldl (accAvail inp core) a ∧
    (removeGo inp core l a n).2.2.2 = l.foldl (accNear inp core) n := by
  induction l generalizing a n with
  | nil => exact ⟨rfl, rfl, rfl, rfl⟩
  | cons x t ih =>
    rcases hok x (List.mem_cons_self x t) with ⟨v, hv⟩
    have htail : ∀ y ∈ t, ∃ w, processSock inp core y = Except.ok w :=
      fun y hy => hok y (List.mem_cons_of_mem x hy)
    have hso : sockOut inp core x = v.1 := by unfold sockOut; rw [hv]
    have hav : accAvail inp core a x =
        if v.1.sharing then add16 a v.1.total_cnt else a := by
      unfold accAvail; rw [hv]
    have hne : accNear inp core n x =
        if v.1.sharing then satAdd n (capNear v.1 v.2) else n := by
      unfold accNear; rw [hv]
    unfold removeGo
    rw [hv]
    dsimp only
    by_cases hs : v.1.sharing = true
    · simp only [hs, ite_true]
      have ih2 := ih (add16 a v.1.total_cnt) (satAdd n (capNear v.1 v.2))
        htail
      refine ⟨ih2.1, ?_, ?_, ?_⟩
      · rw [List.map_cons, hso, ih2.2.1]
      · rw [List.foldl_cons, hav, if_pos hs]
        exact ih2.2.2.1
      · rw [List.foldl_cons, hne, if_pos hs]
        exact ih2.2.2.2
    · simp only [hs, ite_false, Bool.false_eq_true]
      have ih2 := ih a n htail
      refine ⟨ih2.1, ?_, ?_, ?_⟩
      · rw [List.map_cons, hso, ih2.2.1]
      · rw [List.foldl_cons, hav, if_neg hs]
        exact ih2.2.2.1
      · rw [List.foldl_cons, hne, if_neg hs]
        exact ih2.2.2.2

lemma removeGo_zero_ok (inp : FilterIn) (core : List Bool)
    (l : List FSock) (a n : Nat) (h : (removeGo inp core l a n).1 = 0) :
    ∀ x ∈ l, ∃ v, processSock inp core x = Except.ok v := by
  induction l generalizing a n with
  | nil => intro x hx; cases hx
  | cons x t ih =>
    intro y hy
    unfold removeGo at h
    cases hp : processSock inp core x with
    | error e =>
      rw [hp] at h
      dsimp only at h
      exact absurd h (by decide)
    | ok v =>
      rw [hp] at h
      dsimp only at h
      rcases List.mem_cons.mp hy with rfl | hy2
      · exact ⟨v, hp⟩
      · exact ih _ _ h y hy2

lemma removeGo_gsn (inp : FilterIn) (core : List Bool) (l : List FSock)
    (a n : Nat) :
    ((removeGo inp core l a n).2.1).map (fun x => x.gres_state_node) =
      l.map (fun x => x.gres_state_node) := by
  induction l generalizing a n with
  | nil => rfl
  | cons x t ih =>
    unfold removeGo
    cases hp : processSock inp core x with
    | error e =>
      dsimp only
      rw [List.map_cons, List.map_cons,
        (processSock_error_keep inp core x e hp).1]
    | ok v =>
      dsimp only
      rw [List.map_cons, List.map_cons,
        (processSock_ok_eq inp core x v hp).1,
        (finalRec_keep inp core x).1, ih]

/-!
SECTION: claim theorems for the feasibility filter.
-/

/-- C3: gres_select_filter_remove_unusable computes min_gres as the
maximum of (whole_node ? total_cnt : gres_per_node, else 1), the
gres_per_socket term (multiplier skipped at NO_VAL) and the
gres_per_task term (multiplier skipped at NO_VAL16), zero counters
ignored; and whenever a request it examines reaches the final check with
total_cnt below min_gres or with max_node_gres nonzero and below
min_gres, the function returns -1. -/
theorem remove_unusable_min_gres_and_reject (inp : FilterIn)
    (core : List Bool) (pre post : List FSock) (r : FSock)
    (hc : inp.core_bitmap = some core)
    (hpre : ∀ x ∈ pre, ∃ v, processSock inp core x = Except.ok v)
    (hrej : finalReject inp core r) :
    minGres inp r =
      Nat.max (Nat.max
        (if inp.whole_node then r.total_cnt
         else if r.gres_per_node ≠ 0 then r.gres_per_node else 1)
        (if r.gres_per_socket ≠ 0 then
           (if inp.sock_per_node ≠ NO_VAL then
              mul64 r.gres_per_socket inp.sock_per_node
            else r.gres_per_socket)
         else 0))
        (if r.gres_per_task ≠ 0 then
           (if inp.task_per_node ≠ NO_VAL16 then
              mul64 r.gres_per_task inp.task_per_node
            else r.gres_per_task)
         else 0) ∧
    (removeUnusable inp (some (pre ++ r :: post))).1 = -1 := by
  constructor
  · simp only [minGres, Nat.max_def]
    split_ifs <;> omega
  · rcases processSock_reject inp core r hrej with ⟨e, he⟩
    unfold removeUnusable
    rw [hc]
    dsimp only
    rw [if_neg (by simp)]
    exact (removeGo_error_head inp core pre r post 0 0 hpre e he).1

/-- C3 witness: a request with total_cnt 0 and gres_per_node 1 on a
one-socket node is rejected, and its min_gres is 1. -/
theorem remove_unusable_min_gres_and_reject_witness :
    minGres inpPlain rZero =
      Nat.max (Nat.max
        (if inpPlain.whole_node then rZero.total_cnt
         else if rZero.gres_per_node ≠ 0 then rZero.gres_per_node else 1)
        (if rZero.gres_per_socket ≠ 0 then
           (if inpPlain.sock_per_node ≠ NO_VAL then
              mul64 rZero.gres_per_socket inpPlain.sock_per_node
            else rZero.gres_per_socket)
         else 0))
        (if rZero.gres_per_task ≠ 0 then
           (if inpPlain.task_per_node ≠ NO_VAL16 then
              mul64 rZero.gres_per_task inpPlain.task_per_node
            else rZero.gres_per_task)
         else 0) ∧
    (removeUnusable inpPlain (some ([] ++ rZero :: []))).1 = -1 :=
  remove_unusable_min_gres_and_reject inpPlain [true] [] [] rZero rfl
    (by intro x hx; cases hx) (by decide)

/-- C4 counterexample: on this input the filter returns -1, yet the
rejecting record has been mutated (its max_node_gres was set by the
memory step before the final check rejected), so the records do not hold
their entry values. -/
theorem remove_unusable_reject_mutation_cex :
    (removeUnusable inpMem (some [rMem])).1 = -1 ∧
    (removeUnusable inpMem (some [rMem])).2.1 ≠ some [rMem] ∧
    ((removeUnusable inpMem (some [rMem])).2.1.getD []).map
      (fun x => x.max_node_gres) = [5] := by decide

/-- C4 amended: whenever the filter returns -1 it stopped at the first
rejecting request: that request and the accepted ones before it carry
the mutations made before the reject, and every request after it is
returned exactly as it was at entry. -/
theorem remove_unusable_stops_at_first_reject (inp : FilterIn)
    (core : List Bool) (pre post : List FSock) (r e : FSock)
    (hc : inp.core_bitmap = some core)
    (hpre : ∀ x ∈ pre, ∃ v, processSock inp core x = Except.ok v)
    (herr : processSock inp core r = Except.error e) :
    (removeUnusable inp (some (pre ++ r :: post))).1 = -1 ∧
    (removeUnusable inp (some (pre ++ r :: post))).2.1 =
      some (pre.map (sockOut inp core) ++ sockOut inp core r :: post) := by
  have h := removeGo_error_head inp core pre r post 0 0 hpre e herr
  unfold removeUnusable
  rw [hc]
  dsimp only
  rw [if_neg (by simp)]
  exact ⟨h.1, by rw [h.2]⟩

/-- C4 amended witness: with a second record after the rejecting one,
the function returns -1 and the second record is untouched. -/
theorem remove_unusable_stops_at_first_reject_witness :
    (removeUnusable inpMem (some ([] ++ rMem :: [rShare]))).1 = -1 ∧
    (removeUnusable inpMem (some ([] ++ rMem :: [rShare]))).2.1 =
      some ([].map (sockOut inpMem [true]) ++
        sockOut inpMem [true] rMem :: [rShare]) :=
  remove_unusable_stops_at_first_reject inpMem [true] [] [rShare] rMem
    (sockOut inpMem [true] rMem) rfl (by intro x hx; cases hx) rfl

/-- C5 counterexample: a feasible sharing request with total_cnt 5 and
gres_per_node 2; the claim's formula (sum of post-binding-prune counts,
saturated at 255) gives 5, but the code caps the contribution at
max_node_gres = 2 before accumulating, so near_gpus is 2. -/
theorem near_gpus_claim_cex :
    (removeUnusable inpPlain (some [rShare])).1 = 0 ∧
    satAdd 0 (claimNear inpPlain [true] rShare) = 5 ∧
    (removeUnusable inpPlain (some [rShare])).2.2.2 = 2 := by decide

/-- C5 amended: on a feasible return, near_gpus is the sum over
sharing-kind requests of the post-binding-prune count (total_cnt minus
the cnt_by_sock contributions of sockets with no available core),
each contribution first capped at the request's final max_node_gres
when that is nonzero and smaller, the sum saturating at 255. -/
theorem near_gpus_sum_with_cap (inp : FilterIn) (core : List Bool)
    (l : List FSock) (hc : inp.core_bitmap = some core)
    (hwf : ∀ r ∈ l, r.total_cnt < U64 ∧
      psum (availCoresBySock core inp.sockets inp.cores_per_sock)
        (List.range inp.sockets) (r.cnt_by_sock.getD []) ≤ r.total_cnt)
    (hrc : (removeUnusable inp (some l)).1 = 0) :
    (removeUnusable inp (some l)).2.2.2 =
      l.foldl (fun acc r =>
        if r.sharing then
          satAdd acc (capNear (finalRec inp core r) (claimNear inp core r))
        else acc) 0 := by
  unfold removeUnusable
  rw [hc]
  dsimp only
  by_cases hl : l.length = 0
  · rw [if_pos hl]
    rw [List.length_eq_zero.mp hl]
    rfl
  · rw [if_neg hl]
    unfold removeUnusable at hrc
    rw [hc] at hrc
    dsimp only at hrc
    rw [if_neg hl] at hrc
    dsimp only at hrc
    have hok := removeGo_zero_ok inp core l 0 0 hrc
    have hst := removeGo_ok_state inp core l 0 0 hok
    dsimp only
    rw [hst.2.2.2]
    apply foldl_ext
    intro r hr acc
    rcases hok r hr with ⟨v, hv⟩
    have he := processSock_ok_eq inp core r v hv
    unfold accNear
    rw [hv]
    dsimp only
    rw [he.1, he.2, (finalRec_keep inp core r).2,
      stageBind_near_claim inp core r (hwf r hr).1 (hwf r hr).2]

/-- C5 amended witness: the capped formula matches the code on the
counterexample record. -/
theorem near_gpus_sum_with_cap_witness :
    (removeUnusable inpPlain (some [rShare])).2.2.2 =
      [rShare].foldl (fun acc r =>
        if r.sharing then
          satAdd acc (capNear (finalRec inpPlain [true] r)
            (claimNear inpPlain [true] r))
        else acc) 0 :=
  near_gpus_sum_with_cap inpPlain [true] [rShare] rfl (by decide)
    (by decide)

/-- C9: a NULL core_bitmap, a NULL sock_gres list, or an empty list make
gres_select_filter_remove_unusable report the node feasible (0) with
avail_gpus = 0 and near_gpus = 0 and the records untouched. -/
theorem remove_unusable_null_guard (inp : FilterIn)
    (sgl : Option (List FSock))
    (h : inp.core_bitmap = none ∨ sgl = none ∨ sgl = some []) :
    removeUnusable inp sgl = (0, sgl, 0, 0) := by
  rcases h with h | h | h
  · unfold removeUnusable
    rw [h]
  · subst h
    unfold removeUnusable
    rcases hcb : inp.core_bitmap with _ | c <;> rfl
  · subst h
    unfold removeUnusable
    rcases hcb : inp.core_bitmap with _ | c <;> rfl

/-- C9 witness: NULL sock_gres list. -/
theorem remove_unusable_null_guard_witness :
    removeUnusable inpMem none = (0, none, 0, 0) :=
  remove_unusable_null_guard inpMem none (Or.inr (Or.inl rfl))

/-!
SECTION: invariants of the non-shared picker _pick_gres_topo.
-/

lemma getD_lt_of (sl : List Nat) (i gcnt : Nat)
    (hsl : ∀ x ∈ sl, x < gcnt) (hpos : 0 < gcnt) : sl.getD i 0 < gcnt := by
  by_cases hi : i < sl.length
  · apply hsl
    have : sl.getD i 0 = sl.get ⟨i, hi⟩ := by
      simp [List.getD_eq_getElem?_getD, List.getElem?_eq_getElem hi]
    rw [this]
    exact sl.get_mem i hi
  · rw [List.getD_eq_default]
    · exact hpos
    · omega

lemma pickGresLoop_spec (sb ab : List Bool) (ns : GresNs) (gcnt : Nat)
    (bits : List Bool) (cnt : Nat) (sorted : Option (List Nat))
    (links : Option (List Int)) (still i : Nat)
    (hlen : bits.length = gcnt)
    (hs : ∀ sl, sorted = some sl → ∀ x ∈ sl, x < gcnt) :
    (pickGresLoop sb ab ns gcnt bits cnt sorted links still i).bits.length
        = gcnt ∧
    (pickGresLoop sb ab ns gcnt bits cnt sorted links still i).still
        ≤ still ∧
    (pickGresLoop sb ab ns gcnt bits cnt sorted links still i).cnt
      = cnt + (still -
        (pickGresLoop sb ab ns gcnt bits cnt sorted links still i).still) ∧
    (pickGresLoop sb ab ns gcnt bits cnt sorted links still i).bits.count
        true
      = bits.count true + (still -
        (pickGresLoop sb ab ns gcnt bits cnt sorted links still i).still) ∧
    (∀ sl, (pickGresLoop sb ab ns gcnt bits cnt sorted links still
        i).sorted = some sl → ∀ x ∈ sl, x < gcnt) ∧
    (∀ g, bitTest (pickGresLoop sb ab ns gcnt bits cnt sorted links still
        i).bits g = true →
      bitTest bits g = true ∨
        (bitTest ab g = false ∧ bitTest sb g = true)) := by
  induction bits, cnt, sorted, links, still, i using
      pickGresLoop.induct sb ab ns gcnt with
  | case1 bits cnt sorted links still i h =>
    rw [pickGresLoop.eq_def, if_pos h]
    dsimp only
    exact ⟨hlen, le_refl _, by omega, by omega, hs,
      fun g hg => Or.inl hg⟩
  | case2 bits cnt sorted links still i h hskip ih =>
    rw [pickGresLoop.eq_def, if_neg h, if_pos hskip]
    exact ih hlen hs
  | case3 bits cnt sorted links still i h hsb htaken ih =>
    rw [pickGresLoop.eq_def, if_neg h, if_neg hsb, if_pos htaken]
    exact ih hlen hs
  | case4 bits cnt still i h sl lc hsb htaken ih =>
    have hpos : 0 < gcnt := by omega
    have hg : candAt (some sl) i < gcnt := by
      unfold candAt
      exact getD_lt_of sl i gcnt (hs sl rfl) hpos
    have hbitsg : bitTest bits (candAt (some sl) i) = false := by
      cases hbv : bitTest bits (candAt (some sl) i) with
      | false => rfl
      | true => exact absurd (Or.inl hbv) htaken
    have habg : bitTest ab (candAt (some sl) i) = false := by
      cases hbv : bitTest ab (candAt (some sl) i) with
      | false => rfl
      | true => exact absurd (Or.inr hbv) htaken
    have hsbg : bitTest sb (candAt (some sl) i) = true := not_not.mp hsb
    have hlen2 : (bitSet bits (candAt (some sl) i)).length = gcnt := by
      unfold bitSet
      rw [List.length_set]
      exact hlen
    have hcount : (bitSet bits (candAt (some sl) i)).count true
        = bits.count true + 1 :=
      count_set_true bits _ (by omega) hbitsg
    have hs2 : ∀ sl2,
        some (updateAndSortByLinks sl lc (candAt (some sl) i) gcnt ns
          ab).1 = some sl2 → ∀ x ∈ sl2, x < gcnt := by
      intro sl2 he x hx
      cases he
      unfold updateAndSortByLinks at hx
      exact hs sl rfl x ((mem_insertionSort _ sl x).mp hx)
    have ih2 := ih hlen2 hs2
    rw [pickGresLoop.eq_def, if_neg h, if_neg hsb, if_neg htaken]
    dsimp only
    refine ⟨ih2.1, ?_, ?_, ?_, ih2.2.2.2.2.1, ?_⟩
    · have h1 := ih2.2.1
      omega
    · have h1 := ih2.2.1
      have h2 := ih2.2.2.1
      omega
    · have h1 := ih2.2.1
      have h2 := ih2.2.2.2.1
      rw [hcount] at h2
      omega
    · intro g2 hg2
      rcases ih2.2.2.2.2.2 g2 hg2 with hb | hb
      · rcases bitTest_set_elim bits _ g2 hb with he | hb2
        · rw [he]
          exact Or.inr ⟨habg, hsbg⟩
        · exact Or.inl hb2
      · exact Or.inr hb
  | case5 bits cnt still i h so li hnot hsb htaken ih =>
    rcases so with _ | sl <;> rcases li with _ | lc
    rotate_right 1
    · exact (hnot sl lc rfl rfl).elim
    ·
      have hpos : 0 < gcnt := by omega
      have hg : candAt none i < gcnt := by
        simp only [candAt]
        omega
      have hbitsg : bitTest bits (candAt none i) = false := by
        cases hbv : bitTest bits (candAt none i) with
        | false => rfl
        | true => exact absurd (Or.inl hbv) htaken
      have habg : bitTest ab (candAt none i) = false := by
        cases hbv : bitTest ab (candAt none i) with
        | false => rfl
        | true => exact absurd (Or.inr hbv) htaken
      have hsbg : bitTest sb (candAt none i) = true := not_not.mp hsb
      have hlen2 : (bitSet bits (candAt none i)).length = gcnt := by
        unfold bitSet
        rw [List.length_set]
        exact hlen
      have hcount : (bitSet bits (candAt none i)).count true
          = bits.count true + 1 :=
        count_set_true bits _ (by omega) hbitsg
      have ih2 := ih hlen2 hs
      rw [pickGresLoop.eq_def, if_neg h, if_neg hsb, if_neg htaken]
      dsimp only
      refine ⟨ih2.1, ?_, ?_, ?_, ih2.2.2.2.2.1, ?_⟩
      · have h1 := ih2.2.1
        omega
      · have h1 := ih2.2.1
        have h2 := ih2.2.2.1
        omega
      · have h1 := ih2.2.1
        have h2 := ih2.2.2.2.1
        rw [hcount] at h2
        omega
      · intro g2 hg2
        rcases ih2.2.2.2.2.2 g2 hg2 with hb | hb
        · rcases bitTest_set_elim bits _ g2 hb with he | hb2
          · rw [he]
            exact Or.inr ⟨habg, hsbg⟩
          · exact Or.inl hb2
        · exact Or.inr hb
    ·
      have hpos : 0 < gcnt := by omega
      have hg : candAt none i < gcnt := by
        simp only [candAt]
        omega
      have hbitsg : bitTest bits (candAt none i) = false := by
        cases hbv : bitTest bits (candAt none i) with
        | false => rfl
        | true => exact absurd (Or.inl hbv) htaken
      have habg : bitTest ab (candAt none i) = false := by
        cases hbv : bitTest ab (candAt none i) with
        | false => rfl
        | true => exact absurd (Or.inr hbv) htaken
      have hsbg : bitTest sb (candAt none i) = true := not_not.mp hsb
      have hlen2 : (bitSet bits (candAt none i)).length = gcnt := by
        unfold bitSet
        rw [List.length_set]
        exact hlen
      have hcount : (bitSet bits (candAt none i)).count true
          = bits.count true + 1 :=
        count_set_true bits _ (by omega) hbitsg
      have ih2 := ih hlen2 hs
      rw [pickGresLoop.eq_def, if_neg h, if_neg hsb, if_neg htaken]
      dsimp only
      refine ⟨ih2.1, ?_, ?_, ?_, ih2.2.2.2.2.1, ?_⟩
      · have h1 := ih2.2.1
        omega
      · have h1 := ih2.2.1
        have h2 := ih2.2.2.1
        omega
      · have h1 := ih2.2.1
        have h2 := ih2.2.2.2.1
        rw [hcount] at h2
        omega
      · intro g2 hg2
        rcases ih2.2.2.2.2.2 g2 hg2 with hb | hb
        · rcases bitTest_set_elim bits _ g2 hb with he | hb2
          · rw [he]
            exact Or.inr ⟨habg, hsbg⟩
          · exact Or.inl hb2
        · exact Or.inr hb
    ·
      have hpos : 0 < gcnt := by omega
      have hg : candAt (some sl) i < gcnt := by
        simp only [candAt]
        exact getD_lt_of sl i gcnt (hs sl rfl) hpos
      have hbitsg : bitTest bits (candAt (some sl) i) = false := by
        cases hbv : bitTest bits (candAt (some sl) i) with
        | false => rfl
        | true => exact absurd (Or.inl hbv) htaken
      have habg : bitTest ab (candAt (some sl) i) = false := by
        cases hbv : bitTest ab (candAt (some sl) i) with
        | false => rfl
        | true => exact absurd (Or.inr hbv) htaken
      have hsbg : bitTest sb (candAt (some sl) i) = true := not_not.mp hsb
      have hlen2 : (bitSet bits (candAt (some sl) i)).length = gcnt := by
        unfold bitSet
        rw [List.length_set]
        exact hlen
      have hcount : (bitSet bits (candAt (some sl) i)).count true
          = bits.count true + 1 :=
        count_set_true bits _ (by omega) hbitsg
      have ih2 := ih hlen2 hs
      rw [pickGresLoop.eq_def, if_neg h, if_neg hsb, if_neg htaken]
      dsimp only
      refine ⟨ih2.1, ?_, ?_, ?_, ih2.2.2.2.2.1, ?_⟩
      · have h1 := ih2.2.1
        omega
      · have h1 := ih2.2.1
        have h2 := ih2.2.2.1
        omega
      · have h1 := ih2.2.1
        have h2 := ih2.2.2.2.1
        rw [hcount] at h2
        omega
      · intro g2 hg2
        rcases ih2.2.2.2.2.2 g2 hg2 with hb | hb
        · rcases bitTest_set_elim bits _ g2 hb with he | hb2
          · rw [he]
            exact Or.inr ⟨habg, hsbg⟩
          · exact Or.inl hb2
        · exact Or.inr hb

lemma pickGresTopo_spec (sock : SockGres) (ns : GresNs) (si : Option Nat)
    (needed : Nat) (bits : List Bool) (cnt : Nat)
    (sorted : Option (List Nat)) (links : Option (List Int))
    (hs : ∀ sl, sorted = some sl → ∀ x ∈ sl, x < bits.length) :
    (pickGresTopo sock ns si needed bits cnt sorted links).bits.length
        = bits.length ∧
    (pickGresTopo sock ns si needed bits cnt sorted links).picked
        ≤ needed ∧
    (pickGresTopo sock ns si needed bits cnt sorted links).cnt
      = cnt + (pickGresTopo sock ns si needed bits cnt sorted
          links).picked ∧
    (pickGresTopo sock ns si needed bits cnt sorted links).bits.count true
      = bits.count true + (pickGresTopo sock ns si needed bits cnt sorted
          links).picked ∧
    (∀ sl, (pickGresTopo sock ns si needed bits cnt sorted links).sorted
        = some sl → ∀ x ∈ sl, x < bits.length) ∧
    (∀ g, bitTest (pickGresTopo sock ns si needed bits cnt sorted
        links).bits g = true →
      bitTest bits g = true ∨
        bitTest (ns.gres_bit_alloc.getD []) g = false) := by
  unfold pickGresTopo
  rcases hr : resolveSockBits sock si with _ | sb
  · dsimp only
    exact ⟨rfl, Nat.zero_le _, by omega, by omega, hs,
      fun g hg => Or.inl hg⟩
  · dsimp only
    have hspec := pickGresLoop_spec sb (ns.gres_bit_alloc.getD []) ns
      (bitSize bits) bits cnt sorted links needed 0 rfl hs
    refine ⟨hspec.1, ?_, ?_, ?_, hspec.2.2.2.2.1, ?_⟩
    · omega
    · have h1 := hspec.2.1
      have h2 := hspec.2.2.1
      omega
    · have h1 := hspec.2.1
      have h2 := hspec.2.2.2.1
      omega
    · intro g hg
      rcases hspec.2.2.2.2.2 g hg with hb | hb
      · exact Or.inl hb
      · exact Or.inr hb.1

/-- The running invariant of the non-shared bit setters: the per-node
selection count equals the popcount of the per-node bitmap, the bitmap
length is stable, and any link-sort order stays within range. -/
def SelOk (L : Nat) (st : SelSt) : Prop :=
  st.bits.length = L ∧ st.cnt = st.bits.count true ∧
  (∀ sl, st.sorted = some sl → ∀ x ∈ sl, x < L)

lemma pickInto_selOk (sock : SockGres) (ns : GresNs) (si : Option Nat)
    (take : Nat) (L : Nat) (st : SelSt) (h : SelOk L st) :
    SelOk L (pickInto sock ns si take st) := by
  rcases h with ⟨hl, hc, hsrt⟩
  have hspec := pickGresTopo_spec sock ns si take st.bits st.cnt st.sorted
    st.links (by rw [hl]; exact hsrt)
  unfold pickInto
  refine ⟨by rw [hspec.1, hl], ?_, ?_⟩
  · dsimp only
    rw [hspec.2.2.1, hspec.2.2.2.1, hc]
  · dsimp only
    intro sl he
    have h2 := hspec.2.2.2.2.1 sl he
    rw [hl] at h2
    exact h2

lemma foldl_selOk (L : Nat) (f : SelSt → Nat → SelSt) (idxs : List Nat)
    (st : SelSt) (hf : ∀ st2 s, SelOk L st2 → SelOk L (f st2 s))
    (h : SelOk L st) : SelOk L (idxs.foldl f st) :=
  foldl_pres (SelOk L) f idxs st (fun st2 s _ h2 => hf st2 s h2) h

lemma selOk_ite (L : Nat) (c : Prop) [Decidable c] (st1 st2 : SelSt)
    (h1 : c → SelOk L st1) (h2 : ¬ c → SelOk L st2) :
    SelOk L (if c then st1 else st2) := by
  split
  · exact h1 (by assumption)
  · exact h2 (by assumption)

lemma setNodeBits_selOk (sock : SockGres) (js : GresJs) (ns : GresNs)
    (used_sock : List Nat) (bits : List Bool) (cnt : Nat)
    (hc : cnt = bits.count true) :
    (setNodeBits sock js ns used_sock bits cnt).1.length = bits.length ∧
    (setNodeBits sock js ns used_sock bits cnt).2
      = (setNodeBits sock js ns used_sock bits cnt).1.count true := by
  unfold setNodeBits
  dsimp only
  have h0 : SelOk bits.length ⟨bits, cnt,
      if ns.link_len = bitSize bits then some (List.range (bitSize bits))
        else none,
      if ns.link_len = bitSize bits then
        some (List.replicate (bitSize bits) 0) else none,
      js.gres_per_node % 2 ^ 32⟩ := by
    refine ⟨rfl, hc, ?_⟩
    intro sl he x hx
    dsimp only at he
    split at he
    · cases he
      exact List.mem_range.mp hx
    · cases he
  have hstep : ∀ (st2 : SelSt) (s : Nat), SelOk bits.length st2 →
      SelOk bits.length (if st2.needed = 0 then st2
        else if used_sock.getD s 0 = 0 then st2
        else pickInto sock ns (some s) 1 st2) := by
    intro st2 s h2
    split
    · exact h2
    · split
      · exact h2
      · exact pickInto_selOk sock ns (some s) 1 _ st2 h2
  have hstep2 : ∀ (st2 : SelSt) (s : Nat), SelOk bits.length st2 →
      SelOk bits.length (if st2.needed = 0 then st2
        else if used_sock.getD s 0 = 0 then st2
        else pickInto sock ns (some s) st2.needed st2) := by
    intro st2 s h2
    split
    · exact h2
    · split
      · exact h2
      · exact pickInto_selOk sock ns (some s) st2.needed _ st2 h2
  have hstep3 : ∀ (st2 : SelSt) (s : Nat), SelOk bits.length st2 →
      SelOk bits.length (if st2.needed = 0 then st2
        else if used_sock.getD s 0 ≠ 0 then st2
        else pickInto sock ns (some s) st2.needed st2) := by
    intro st2 s h2
    split
    · exact h2
    · split
      · exact h2
      · exact pickInto_selOk sock ns (some s) st2.needed _ st2 h2
  have ha := foldl_selOk bits.length _ (List.range sock.sock_cnt) _
    hstep h0
  have hb : ∀ (st2 : SelSt), SelOk bits.length st2 →
      SelOk bits.length (if st2.needed ≠ 0 then
        pickInto sock ns none 1 st2 else st2) := by
    intro st2 h2
    split
    · exact pickInto_selOk sock ns none 1 _ st2 h2
    · exact h2
  have hd : ∀ (st2 : SelSt), SelOk bits.length st2 →
      SelOk bits.length (if st2.needed ≠ 0 then
        pickInto sock ns none st2.needed st2 else st2) := by
    intro st2 h2
    split
    · exact pickInto_selOk sock ns none st2.needed _ st2 h2
    · exact h2
  have hfin := foldl_selOk bits.length _ (List.range sock.sock_cnt) _
    hstep3 (hd _ (foldl_selOk bits.length _ (List.range sock.sock_cnt) _
      hstep2 (hb _ ha)))
  exact ⟨hfin.1, hfin.2.1⟩

lemma setSockBits_selOk (mc : Option McData) (sock : SockGres)
    (js : GresJs) (ns : GresNs) (ucs : List Nat) (usc : Nat)
    (bits : List Bool) (cnt : Nat) (hc : cnt = bits.count true) :
    (setSockBits mc sock js ns ucs usc bits cnt).1.length
        = bits.length ∧
    (setSockBits mc sock js ns ucs usc bits cnt).2
      = (setSockBits mc sock js ns ucs usc bits cnt).1.count true := by
  unfold setSockBits
  dsimp only
  have h0 : SelOk bits.length ⟨bits, cnt,
      if ns.link_len = bitSize bits then some (List.range (bitSize bits))
        else none,
      if ns.link_len = bitSize bits then
        some (List.replicate (bitSize bits) 0) else none, 0⟩ := by
    refine ⟨rfl, hc, ?_⟩
    intro sl he x hx
    dsimp only at he
    split at he
    · cases he
      exact List.mem_range.mp hx
    · cases he
  have hstep : ∀ (st2 : SelSt) (s : Nat), SelOk bits.length st2 →
      SelOk bits.length (if (reshapeUsedSock mc sock js ns ucs
          usc).getD s 0 = 0 then st2
        else
          let st1 := pickInto sock ns (some s) js.gres_per_socket
            { st2 with needed := js.gres_per_socket }
          if st1.needed ≠ 0 then pickInto sock ns none st1.needed st1
          else st1) := by
    intro st2 s h2
    split
    · exact h2
    · dsimp only
      have hmid : SelOk bits.length
          { st2 with needed := js.gres_per_socket } :=
        ⟨h2.1, h2.2.1, h2.2.2⟩
      have h3 := pickInto_selOk sock ns (some s) js.gres_per_socket _
        _ hmid
      split
      · exact pickInto_selOk sock ns none _ _ _ h3
      · exact h3
  have hfin := foldl_selOk bits.length _ (List.range sock.sock_cnt) _
    hstep h0
  exact ⟨hfin.1, hfin.2.1⟩

lemma setTaskBits_selOk (sock : SockGres) (js : GresJs) (ns : GresNs)
    (tps : Option (List Nat)) (bits : List Bool) (cnt : Nat)
    (hc : cnt = bits.count true) :
    (setTaskBits sock js ns tps bits cnt).1.length = bits.length ∧
    (setTaskBits sock js ns tps bits cnt).2
      = (setTaskBits sock js ns tps bits cnt).1.count true := by
  unfold setTaskBits
  rcases tps with _ | tasks
  · exact ⟨rfl, hc⟩
  · dsimp only
    have h0 : SelOk bits.length ⟨bits, cnt,
        if ns.link_len = bitSize bits then
          some (List.range (bitSize bits)) else none,
        if ns.link_len = bitSize bits then
          some (List.replicate (bitSize bits) 0) else none,
        mul64 (getTaskCntNode (some tasks) sock.sock_cnt)
          js.gres_per_task⟩ := by
      refine ⟨rfl, hc, ?_⟩
      intro sl he x hx
      dsimp only at he
      split at he
      · cases he
        exact List.mem_range.mp hx
      · cases he
    have hstep : ∀ (st2 : SelSt) (s : Nat), SelOk bits.length st2 →
        SelOk bits.length (if tasks.getD s 0 = 0 then st2
          else
            pickInto sock ns (some s)
              (Nat.min st2.needed (mul64 (tasks.getD s 0)
                js.gres_per_task)) st2) := by
      intro st2 s h2
      split
      · exact h2
      · exact pickInto_selOk sock ns (some s) _ _ st2 h2
    have hstep3 : ∀ (st2 : SelSt) (s : Nat), SelOk bits.length st2 →
        SelOk bits.length (if st2.needed = 0 then st2
          else pickInto sock ns (some s) st2.needed st2) := by
      intro st2 s h2
      split
      · exact h2
      · exact pickInto_selOk sock ns (some s) st2.needed _ st2 h2
    have hb : ∀ (st2 : SelSt), SelOk bits.length st2 →
        SelOk bits.length (if st2.needed ≠ 0 then
          pickInto sock ns none st2.needed st2 else st2) := by
      intro st2 h2
      split
      · exact pickInto_selOk sock ns none st2.needed _ st2 h2
      · exact h2
    have hfin := foldl_selOk bits.length _ (List.range sock.sock_cnt) _
      hstep3 (hb _ (foldl_selOk bits.length _ (List.range sock.sock_cnt)
        _ hstep h0))
    exact ⟨hfin.1, hfin.2.1⟩

lemma findWorst_some (ns : GresNs) (bits : List Bool) (bi : Int)
    (gcnt : Nat) (w : Nat) (h : findWorst ns bits bi gcnt = some w) :
    bitTest bits w = true := by
  unfold findWorst at h
  have hp := foldl_pres
    (fun p : Int × Option Nat =>
      ∀ w2, p.2 = some w2 → bitTest bits w2 = true)
    (fun (w : Int × Option Nat) (g : Nat) =>
      if (g : Int) = bi then w
      else if ¬ bitTest bits g then w
      else if linkAtI ns bi g ≥ w.1 then w
      else (linkAtI ns bi g, some g))
    (List.range gcnt) ((NO_VAL16 : Int), (none : Option Nat))
    ?_ ?_
  · exact hp w h
  · intro p g _ hP
    dsimp only
    split
    · exact hP
    · split
      · exact hP
      · split
        · exact hP
        · intro w2 he
          cases he
          exact not_not.mp (by assumption)
  · intro w2 he
    cases he

lemma pruneLoop_spec (ns : GresNs) (gcnt : Nat) (bi mg : Int)
    (bits : List Bool) (cnt : Nat) (alloc : Int) :
    cnt = bits.count true → alloc = (bits.count true : Int) →
    (pruneLoop ns gcnt bi mg bits cnt alloc).1.length = bits.length ∧
    (pruneLoop ns gcnt bi mg bits cnt alloc).2.1
      = (pruneLoop ns gcnt bi mg bits cnt alloc).1.count true ∧
    (pruneLoop ns gcnt bi mg bits cnt alloc).2.2
      = ((pruneLoop ns gcnt bi mg bits cnt alloc).1.count true : Int) := by
  induction bits, cnt, alloc using pruneLoop.induct ns gcnt bi mg with
  | case1 bits cnt alloc h =>
    intro hc ha
    rw [pruneLoop, if_pos h]
    exact ⟨rfl, hc, ha⟩
  | case2 bits cnt alloc h heq =>
    intro hc ha
    rw [pruneLoop, if_neg h, heq]
    exact ⟨rfl, hc, ha⟩
  | case3 bits cnt alloc h w heq ih =>
    intro hc ha
    have hw := findWorst_some ns bits bi gcnt w heq
    have hcl : (bitClear bits w).count true + 1 = bits.count true :=
      count_clear bits w hw
    have hlen : (bitClear bits w).length = bits.length := by
      unfold bitClear
      exact List.length_set bits w false
    have ih2 := ih (by omega) (by omega)
    rw [pruneLoop, if_neg h, heq]
    rw [hlen] at ih2
    exact ih2

/-- The running invariant of _set_job_bits1's pick loops: the per-node
count and the local alloc_gres_cnt both track the popcount. -/
def JInv (L : Nat) (p : List Bool × Nat × Int) : Prop :=
  p.1.length = L ∧ p.2.1 = p.1.count true ∧
  p.2.2 = (p.1.count true : Int)

lemma jb1_pick_J (sock : SockGres) (ns : GresNs) (si : Option Nat)
    (take : Nat) (L : Nat) (p : List Bool × Nat × Int) (h : JInv L p) :
    JInv L ((pickGresTopo sock ns si take p.1 p.2.1 none none).bits,
      (pickGresTopo sock ns si take p.1 p.2.1 none none).cnt,
      p.2.2 + ((pickGresTopo sock ns si take p.1 p.2.1 none
        none).picked : Int)) := by
  have hspec := pickGresTopo_spec sock ns si take p.1 p.2.1 none none
    (by intro sl he; cases he)
  refine ⟨by rw [hspec.1, h.1], ?_, ?_⟩
  · dsimp only
    rw [hspec.2.2.1, hspec.2.2.2.1, h.2.1]
  · dsimp only
    rw [hspec.2.2.2.1, h.2.2, h.2.1]
    push_cast
    ring

lemma totalAdd_eq (a : Nat) (x : Int) (hx : 0 ≤ x)
    (hb : (a : Int) + x < ((U64 : Nat) : Int)) :
    totalAdd a x = a + x.toNat := by
  unfold totalAdd
  have h1 : ((a : Int) + x).emod ((U64 : Nat) : Int) = (a : Int) + x :=
    Int.emod_eq_of_lt (by omega) hb
  rw [h1]
  omega

lemma jb1Fold1_J (sock : SockGres) (ns : GresNs) (cos : List Nat)
    (pick : Int) (L : Nat) (p0 : List Bool × Nat × Int)
    (h : JInv L p0) : JInv L (jb1Fold1 sock ns cos pick p0) := by
  unfold jb1Fold1
  refine foldl_pres (JInv L) _ _ _ ?_ h
  intro p s _ hP
  dsimp only
  split
  · exact hP
  · split
    · exact hP
    · exact jb1_pick_J sock ns (some s) _ L p hP

lemma jb1Any_J (sock : SockGres) (ns : GresNs) (pick : Int) (L : Nat)
    (p : List Bool × Nat × Int) (h : JInv L p) :
    JInv L (jb1Any sock ns pick p) := by
  unfold jb1Any
  split
  · exact jb1_pick_J sock ns none _ L p h
  · exact h

lemma jb1Fold3_J (sock : SockGres) (ns : GresNs) (cos : List Nat)
    (L : Nat) (p0 : List Bool × Nat × Int) (h : JInv L p0) :
    JInv L (jb1Fold3 sock ns cos p0) := by
  unfold jb1Fold3
  split
  · refine foldl_pres (JInv L) _ _ _ ?_ h
    intro p s _ hP
    dsimp only
    split
    · exact hP
    · split
      · exact hP
      · exact jb1_pick_J sock ns (some s) 1 L p hP
  · exact h

lemma jb1Prune_J (ns : GresNs) (gcnt : Nat) (mg : Int) (L : Nat)
    (p : List Bool × Nat × Int) (h : JInv L p) :
    JInv L (jb1Prune ns gcnt mg p) := by
  unfold jb1Prune
  split
  · dsimp only
    split
    · have hp := pruneLoop_spec ns gcnt (findBestPair ns p.1 gcnt).2 mg
        p.1 p.2.1 p.2.2 h.2.1 h.2.2
      exact ⟨hp.1.trans h.1, hp.2⟩
    · exact h
  · exact h

lemma jb1Finish_spec (js : GresJs) (total1 : Nat) (fini0 : Int)
    (s4 : List Bool × Nat × Int) (L : Nat) (h : JInv L s4)
    (hov : total1 + L < U64) :
    (jb1Finish js total1 fini0 s4).1.length = L ∧
    (jb1Finish js total1 fini0 s4).2.1
      = (jb1Finish js total1 fini0 s4).1.count true ∧
    (jb1Finish js total1 fini0 s4).2.2.1
      = total1 + (jb1Finish js total1 fini0 s4).1.count true ∧
    (jb1Finish js total1 fini0 s4).2.2.2
      = (if js.gres_per_job ≤ (jb1Finish js total1 fini0 s4).2.2.1
          then (1 : Int) else fini0) := by
  have h1 : s4.2.2 = (s4.1.count true : Int) := h.2.2
  have hcle : s4.1.count true ≤ L :=
    le_trans (List.count_le_length true s4.1) (le_of_eq h.1)
  have teq : totalAdd total1 s4.2.2 = total1 + (s4.2.2).toNat :=
    totalAdd_eq total1 s4.2.2 (by omega) (by omega)
  unfold jb1Finish
  dsimp only
  refine ⟨h.1, h.2.1, ?_, rfl⟩
  rw [teq]
  omega

lemma jb1Full_spec (sock : SockGres) (js : GresJs) (ns : GresNs)
    (cos : List Nat) (pick mg : Int) (gcnt : Nat) (total1 : Nat)
    (fini0 : Int) (bits : List Bool) (cnt : Nat)
    (h0 : JInv bits.length (bits, cnt, (0 : Int)))
    (hov : total1 + bits.length < U64) :
    (jb1Finish js total1 fini0
      (jb1Picks sock ns cos pick mg gcnt (bits, cnt, (0 : Int)))).1.length
        = bits.length ∧
    (jb1Finish js total1 fini0
      (jb1Picks sock ns cos pick mg gcnt (bits, cnt, (0 : Int)))).2.1
      = (jb1Finish js total1 fini0
        (jb1Picks sock ns cos pick mg gcnt
          (bits, cnt, (0 : Int)))).1.count true ∧
    (jb1Finish js total1 fini0
      (jb1Picks sock ns cos pick mg gcnt (bits, cnt, (0 : Int)))).2.2.1
      = total1 + (jb1Finish js total1 fini0
        (jb1Picks sock ns cos pick mg gcnt
          (bits, cnt, (0 : Int)))).1.count true ∧
    (jb1Finish js total1 fini0
      (jb1Picks sock ns cos pick mg gcnt (bits, cnt, (0 : Int)))).2.2.2
      = (if js.gres_per_job ≤ (jb1Finish js total1 fini0
          (jb1Picks sock ns cos pick mg gcnt
            (bits, cnt, (0 : Int)))).2.2.1 then (1 : Int) else fini0) := by
  have hA : JInv bits.length
      (jb1Picks sock ns cos pick mg gcnt (bits, cnt, (0 : Int))) := by
    unfold jb1Picks
    exact jb1Prune_J ns gcnt mg bits.length _
      (jb1Fold3_J sock ns cos bits.length _
        (jb1Any_J sock ns pick bits.length _
          (jb1Fold1_J sock ns cos pick bits.length _ h0)))
  exact jb1Finish_spec js total1 fini0 _ bits.length hA hov

lemma setJobBits1_spec (sock : SockGres) (js : GresJs) (ns : GresNs)
    (jni rem_nodes cpt cpc : Nat) (cos : List Nat) (tc : Nat)
    (bits : List Bool) (cnt : Nat) (total0 : Nat)
    (hb : bits.count true = 0) (hcnt : cnt = 0)
    (hov : total0 + bits.length < U64) :
    (setJobBits1 sock js ns jni rem_nodes cpt cpc cos tc bits cnt
        total0).1.length = bits.length ∧
    (setJobBits1 sock js ns jni rem_nodes cpt cpc cos tc bits cnt
        total0).2.1
      = (setJobBits1 sock js ns jni rem_nodes cpt cpc cos tc bits cnt
        total0).1.count true ∧
    (setJobBits1 sock js ns jni rem_nodes cpt cpc cos tc bits cnt
        total0).2.2.1
      = (if jni = 0 then 0 else total0) +
        (setJobBits1 sock js ns jni rem_nodes cpt cpc cos tc bits cnt
          total0).1.count true ∧
    (setJobBits1 sock js ns jni rem_nodes cpt cpc cos tc bits cnt
        total0).2.2.2
      = (if js.gres_per_job ≤ (setJobBits1 sock js ns jni rem_nodes cpt
          cpc cos tc bits cnt total0).2.2.1 then (1 : Int)
         else if js.gres_per_job = total0 then (1 : Int) else 0) := by
  have h0 : JInv bits.length (bits, cnt, (0 : Int)) := by
    refine ⟨rfl, ?_, ?_⟩
    · dsimp only
      omega
    · dsimp only
      rw [hb]
      rfl
  unfold setJobBits1
  dsimp only
  refine jb1Full_spec sock js ns cos _ _ _ _ _ bits cnt h0 ?_
  split
  · omega
  · omega

/-- C7: for every invocation of _set_job_bits1 on a node whose
gres_bit_select slice starts out empty (as _select_and_set_node
allocates it) and whose running total cannot overflow, the returned
fini flag is 1 exactly when, at the moment of return, the job state's
total_gres is at least gres_per_job; the stale entry shortcut
(gres_per_job = total_gres before the first-node reset) never
disagrees with the exit condition when the first node enters with
total_gres = 0. -/
theorem set_job_bits1_fini_iff (sock : SockGres) (js : GresJs)
    (ns : GresNs) (jni rem_nodes cpt cpc : Nat) (cos : List Nat)
    (tc : Nat) (bits : List Bool) (cnt : Nat) (total0 : Nat)
    (hb : bits.count true = 0) (hcnt : cnt = 0)
    (hov : total0 + bits.length < U64)
    (hjni : jni = 0 → total0 = 0) :
    ((setJobBits1 sock js ns jni rem_nodes cpt cpc cos tc bits cnt
        total0).2.2.2 = 1
      ↔ js.gres_per_job ≤ (setJobBits1 sock js ns jni rem_nodes cpt cpc
        cos tc bits cnt total0).2.2.1) := by
  obtain ⟨-, -, h3, h4⟩ :=
    setJobBits1_spec sock js ns jni rem_nodes cpt cpc cos tc bits cnt
      total0 hb hcnt hov
  rw [h4]
  by_cases hj : jni = 0
  · have ht0 := hjni hj
    rw [if_pos hj] at h3
    split_ifs with h1 h2
    · exact iff_of_true rfl h1
    · exact absurd (by omega) h1
    · exact ⟨fun h => absurd h (by omega), fun h => absurd h h1⟩
  · rw [if_neg hj] at h3
    split_ifs with h1 h2
    · exact iff_of_true rfl h1
    · exact absurd (by omega) h1
    · exact ⟨fun h => absurd h (by omega), fun h => absurd h h1⟩

theorem set_job_bits1_fini_iff_witness :
    ((setJobBits1 sockFour jsPerJob nsFour 0 1 1 1 [1] 1
        [false, false, false, false] 0 0).2.2.2 = 1
      ↔ jsPerJob.gres_per_job ≤ (setJobBits1 sockFour jsPerJob nsFour 0
        1 1 1 [1] 1 [false, false, false, false] 0 0).2.2.1) :=
  set_job_bits1_fini_iff sockFour jsPerJob nsFour 0 1 1 1 [1] 1
    [false, false, false, false] 0 0 (by decide) rfl (by decide)
    (fun _ => rfl)

theorem set_job_bits1_fini_iff_cex :
    (setJobBits1 sockNone jsPerJob nsFour 0 1 1 1 [1] 1
        [false, false, false, false] 0 2).2.2.2 = 1
    ∧ ¬ (jsPerJob.gres_per_job ≤
        (setJobBits1 sockNone jsPerJob nsFour 0 1 1 1 [1] 1
          [false, false, false, false] 0 2).2.2.1) := by
  decide

/-- C2: for the non-shared picker _pick_gres_topo the claim holds —
every bit of gres_bit_select it sets (beyond those already set at
entry) is clear in the node's gres_bit_alloc, since the loop skips
candidates with bit_test(gres_ns->gres_bit_alloc, g).  The shared
picker _pick_shared_gres_topo carries no such check (see the
counterexample), so the claim is restated for the non-shared picker
only. -/
theorem pick_gres_topo_avoids_alloc (sock : SockGres) (ns : GresNs)
    (si : Option Nat) (needed : Nat) (bits : List Bool) (cnt : Nat)
    (sorted : Option (List Nat)) (links : Option (List Int))
    (hs : ∀ sl, sorted = some sl → ∀ x ∈ sl, x < bits.length) :
    ∀ g, bitTest (pickGresTopo sock ns si needed bits cnt sorted
        links).bits g = true →
      bitTest bits g = true ∨
        bitTest (ns.gres_bit_alloc.getD []) g = false :=
  (pickGresTopo_spec sock ns si needed bits cnt sorted links
    hs).2.2.2.2.2

theorem pick_gres_topo_avoids_alloc_witness :
    bitTest [false, false, false, false] 2 = false ∧
    (bitTest (pickGresTopo sockFour nsFour none 2
        [false, false, false, false] 0 none none).bits 2 = true →
      bitTest [false, false, false, false] 2 = true ∨
        bitTest (nsFour.gres_bit_alloc.getD []) 2 = false) :=
  ⟨rfl, pick_gres_topo_avoids_alloc sockFour nsFour none 2
    [false, false, false, false] 0 none none
    (fun sl he => by cases he) 2⟩

theorem pick_shared_topo_alloc_overlap_cex :
    bitTest (pickSharedGresTopo sockAny jsShared nsBusy true false false
      none none ⟨[false], 0, [0], 1⟩).bits 0 = true ∧
    bitTest (nsBusy.gres_bit_alloc.getD []) 0 = true := by
  decide

/-- C6: under LL_SHARED_GRES the shared pickers visit topology slots in
the order produced by _get_sorted_topo_by_least_loaded: a permutation
of the slot indices sorted so the integer fixed-point key
(avail - alloc) * gres_cnt_avail / avail is non-increasing; and in the
concrete scenario avail=[10,10], alloc=[5,2] with a per-node need of 1,
slot 1 is the one taken. -/
theorem least_loaded_sort_and_pick :
    (∀ ns : GresNs,
      (sortedTopoByLeastLoaded ns).Perm (List.range ns.topo_cnt) ∧
      (sortedTopoByLeastLoaded ns).Sorted
        (fun a b => llKey ns b ≤ llKey ns a)) ∧
    sortedTopoByLeastLoaded nsLL = [1, 0] ∧
    (setSharedNodeBits confLL sockLL jsLL nsLL false false [1]
      [false, false] 0 [0, 0]).1.bits = [false, true] ∧
    (setSharedNodeBits confLL sockLL jsLL nsLL false false [1]
      [false, false] 0 [0, 0]).1.per_bit = [0, 1] := by
  constructor
  · intro ns
    haveI : IsTotal Nat (fun a b => llKey ns b ≤ llKey ns a) :=
      ⟨fun a b => le_total _ _⟩
    haveI : IsTrans Nat (fun a b => llKey ns b ≤ llKey ns a) :=
      ⟨fun a b c h1 h2 => le_trans h2 h1⟩
    exact ⟨List.perm_insertionSort _ _, List.sorted_insertionSort _ _⟩
  · exact ⟨by decide, by decide, by decide⟩

/-- C10: when the job record has no job_resrcs, or its job_resrcs has
no node_bitmap, gres_select_filter_select_and_set returns SLURM_ERROR
immediately and the job state (gres_cnt_node_select, gres_bit_select,
gres_per_bit_select, total_gres, total_node_cnt) is returned exactly as
it was passed in. -/
theorem select_and_set_missing_job_res (conf : Conf) (job : JobRec)
    (mc : Option McData) (nodes : List NodeCtx) (js : GresJs)
    (h : ∀ jr ∈ job.job_resrcs, jr.node_bitmap = none) :
    selectAndSetKind conf job mc nodes js
      = (SLURM_ERROR, js, nodes.map (fun nd => nd.ns)) := by
  cases hj : job.job_resrcs with
  | none =>
    unfold selectAndSetKind
    rw [hj]
  | some jr =>
    have hb : jr.node_bitmap = none := h jr (by rw [hj]; rfl)
    unfold selectAndSetKind
    rw [hj]
    dsimp only
    rw [hb]

theorem select_and_set_missing_job_res_witness :
    selectAndSetKind confOff jobNoRes none [ndFour] jsPerNode
      = (SLURM_ERROR, jsPerNode, [nsFour]) :=
  select_and_set_missing_job_res confOff jobNoRes none [ndFour] jsPerNode
    (fun _ h => nomatch h)

lemma selectAndSetNode_ns (conf : Conf) (mc : Option McData)
    (eb ots : Bool) (node : NodeCtx) (jni node_cnt rem_node_cnt : Nat)
    (js0 : GresJs) (jf : Int) :
    (selectAndSetNode conf mc eb ots node jni node_cnt rem_node_cnt js0
      jf).2.1 = node.ns := rfl

lemma p1_nsl (conf : Conf) (job : JobRec) (mc : Option McData)
    (node_cnt : Nat) (l : List (Nat × NodeCtx)) (st : LoopSt) :
    (l.foldl (fun (st : LoopSt) ind =>
        if st.rc ≠ SLURM_SUCCESS then
          { st with nsl := st.nsl ++ [ind.2.ns] }
        else
          let r := selectAndSetNode conf mc job.enforce_bind
            job.one_task_per_sharing ind.2 ind.1 node_cnt
            (node_cnt - ind.1) st.js st.job_fini
          ⟨r.1, r.2.2.2, r.2.2.1, st.nsl ++ [r.2.1]⟩) st).nsl
      = st.nsl ++ l.map (fun ind => ind.2.ns) := by
  induction l generalizing st with
  | nil => simp
  | cons a t ih =>
    rw [List.foldl_cons, ih]
    by_cases hrc : st.rc ≠ SLURM_SUCCESS
    · rw [if_pos hrc]
      simp
    · rw [if_neg hrc]
      dsimp only
      rw [selectAndSetNode_ns]
      simp

/-- C8: neither entry point writes the node GRES state.  In this
embedding every write the C code performs lands in the job state or in
call-owned scratch, and the node state each call read is threaded back
to the caller; the theorem records that gres_select_filter_remove_unusable
returns every record with its gres_state_node exactly as it came in,
and that gres_select_filter_select_and_set returns the node-state list
exactly equal to the node states it was handed, on every path including
the error and pass-2 paths. -/
theorem gres_ns_unmodified :
    (∀ (inp : FilterIn) (sgl : Option (List FSock)),
      (((removeUnusable inp sgl).2.1).getD []).map
          (fun x => x.gres_state_node)
        = (sgl.getD []).map (fun x => x.gres_state_node)) ∧
    (∀ (conf : Conf) (job : JobRec) (mc : Option McData)
      (nodes : List NodeCtx) (js : GresJs),
      (selectAndSetKind conf job mc nodes js).2.2
        = nodes.map (fun nd => nd.ns)) := by
  constructor
  · intro inp sgl
    unfold removeUnusable
    rcases inp.core_bitmap with _ | core
    · rfl
    · rcases sgl with _ | l
      · rfl
      · dsimp only
        split
        · rfl
        · exact removeGo_gsn inp core l 0 0
  · intro conf job mc nodes js
    unfold selectAndSetKind
    rcases job.job_resrcs with _ | jr
    · rfl
    · dsimp only
      rcases jr.node_bitmap with _ | nb
      · rfl
      · dsimp only
        rw [p1_nsl conf job mc nodes.length nodes.enum ⟨js, -1, SLURM_SUCCESS, []⟩]
        have he : nodes.enum.map (fun ind => ind.2.ns)
            = nodes.map (fun nd => nd.ns) := by
          rw [show (fun ind : Nat × NodeCtx => ind.2.ns)
              = (fun nd : NodeCtx => nd.ns) ∘ Prod.snd from rfl,
            ← List.map_map, List.enum_map_snd]
        rw [List.nil_append, he]
        split_ifs <;> rfl

/-- The running invariant of the shared pickers: gres_cnt_node_select
tracks the sum of gres_per_bit_select. -/
def SHInv (L : Nat) (st : ShSt) : Prop :=
  st.per_bit.length = L ∧ st.cnt = st.per_bit.sum

lemma pickSharedStep_sh (sb : List Bool) (tid : Nat) (tt tav tal : List Nat)
    (ub us nr : Bool) (ti : Option (List Nat)) (L : Nat) (st : ShSt)
    (j : Nat) (h : SHInv L st) (ht : tiAt ti j < L) :
    SHInv L (pickSharedStep sb tid tt tav tal ub us nr ti st j) := by
  unfold pickSharedStep
  split
  · exact h
  · dsimp only
    split_ifs
    all_goals try exact h
    all_goals refine ⟨?_, ?_⟩
    all_goals dsimp only
    · rw [List.length_set]
      exact h.1
    · rw [sum_set_add _ _ _ (by rw [h.1]; exact ht), h.2]
    · rw [List.length_set]
      exact h.1
    · rw [sum_set_add _ _ _ (by rw [h.1]; exact ht), h.2]

lemma pickSharedGresTopo_sh (sock : SockGres) (js : GresJs) (ns : GresNs)
    (ub us nr : Bool) (si : Option Nat) (ti : Option (List Nat)) (L : Nat)
    (st : ShSt) (h : SHInv L st)
    (hti : ∀ j, j < ns.topo_cnt → tiAt ti j < L) :
    SHInv L (pickSharedGresTopo sock js ns ub us nr si ti st) := by
  unfold pickSharedGresTopo
  rcases resolveSockBits sock si with _ | sb
  · exact h
  · dsimp only
    rcases ns.topo_gres_cnt_alloc with _ | tal
    · exact h
    · rcases ns.topo_gres_cnt_avail with _ | tav
      · exact h
      · refine foldl_pres (SHInv L) _ _ _ ?_ h
        intro st2 j hj hP
        exact pickSharedStep_sh sb js.type_id ns.topo_type_id tav tal ub
          us nr ti L st2 j hP (hti j (List.mem_range.mp hj))

lemma sortedLL_getD_lt (ns : GresNs) (L j : Nat)
    (htopo : ns.topo_cnt ≤ L) (hj : j < ns.topo_cnt) :
    (sortedTopoByLeastLoaded ns).getD j 0 < L := by
  have hlen : (sortedTopoByLeastLoaded ns).length = ns.topo_cnt := by
    unfold sortedTopoByLeastLoaded
    rw [(List.perm_insertionSort _ _).length_eq, List.length_range]
  have hjl : j < (sortedTopoByLeastLoaded ns).length := by omega
  have hmem : (sortedTopoByLeastLoaded ns).getD j 0
      ∈ sortedTopoByLeastLoaded ns := by
    rw [List.getD_eq_get _ _ hjl]
    exact (sortedTopoByLeastLoaded ns).get_mem j hjl
  have := List.mem_range.mp
    ((List.perm_insertionSort _ _).mem_iff.mp hmem)
  omega

lemma pickSharedGres_sh (conf : Conf) (sock : SockGres) (js : GresJs)
    (ns : GresNs) (ub us nr eb : Bool) (used : List Nat) (L : Nat)
    (st : ShSt) (h : SHInv L st) (htopo : ns.topo_cnt ≤ L) :
    SHInv L (pickSharedGres conf sock js ns ub us nr eb used st) := by
  unfold pickSharedGres
  dsimp only
  generalize hgen : (if conf.ll_shared_gres = true then
    some (sortedTopoByLeastLoaded ns) else none : Option (List Nat)) = ti0
  have hti : ∀ j, j < ns.topo_cnt → tiAt ti0 j < L := by
    intro j hj
    by_cases hc : conf.ll_shared_gres
    · rw [if_pos hc] at hgen
      subst hgen
      exact sortedLL_getD_lt ns L j htopo hj
    · rw [if_neg (by simpa using hc)] at hgen
      subst hgen
      exact lt_of_lt_of_le hj htopo
  have hstep1 : ∀ (st2 : ShSt) (s : Nat), SHInv L st2 →
      SHInv L (if st2.needed = 0 then st2
        else if used.getD s 0 = 0 then st2
        else pickSharedGresTopo sock js ns ub us nr (some s) ti0 st2) := by
    intro st2 s h2
    split
    · exact h2
    · split
      · exact h2
      · exact pickSharedGresTopo_sh sock js ns ub us nr (some s) ti0 L st2
          h2 hti
  have hstep3 : ∀ (st2 : ShSt) (s : Nat), SHInv L st2 →
      SHInv L (if st2.needed = 0 then st2
        else if used.getD s 0 ≠ 0 then st2
        else pickSharedGresTopo sock js ns ub us nr (some s) ti0 st2) := by
    intro st2 s h2
    split
    · exact h2
    · split
      · exact h2
      · exact pickSharedGresTopo_sh sock js ns ub us nr (some s) ti0 L st2
          h2 hti
  have h1 : SHInv L ((List.range sock.sock_cnt).foldl (fun st2 s =>
      if st2.needed = 0 then st2
      else if used.getD s 0 = 0 then st2
      else pickSharedGresTopo sock js ns ub us nr (some s) ti0 st2) st) :=
    foldl_pres (SHInv L) _ _ _ (fun st2 s _ h2 => hstep1 st2 s h2) h
  split
  · refine foldl_pres (SHInv L) _ _ _ (fun st2 s _ h2 => hstep3 st2 s h2)
      ?_
    split
    · exact pickSharedGresTopo_sh sock js ns ub us nr none ti0 L _ h1 hti
    · exact h1
  · split
    · exact pickSharedGresTopo_sh sock js ns ub us nr none ti0 L _ h1 hti
    · exact h1

lemma setSharedNodeBits_sh (conf : Conf) (sock : SockGres) (js : GresJs)
    (ns : GresNs) (ub eb : Bool) (used : List Nat) (bits : List Bool)
    (cnt : Nat) (pb : List Nat) (hc : cnt = pb.sum)
    (htopo : ns.topo_cnt ≤ pb.length) :
    (setSharedNodeBits conf sock js ns ub eb used bits cnt
        pb).1.per_bit.length = pb.length ∧
    (setSharedNodeBits conf sock js ns ub eb used bits cnt pb).1.cnt
      = (setSharedNodeBits conf sock js ns ub eb used bits cnt
        pb).1.per_bit.sum := by
  unfold setSharedNodeBits
  dsimp only
  have h1 := pickSharedGres_sh conf sock js ns ub true false eb used
    pb.length ⟨bits, cnt, pb, js.gres_per_node⟩ ⟨rfl, hc⟩ htopo
  split
  · have h2 := pickSharedGres_sh conf sock js ns ub false false eb used
      pb.length _ h1 htopo
    exact ⟨h2.1, h2.2⟩
  · exact ⟨h1.1, h1.2⟩

lemma tbInner_sh (conf : Conf) (sock : SockGres) (js : GresJs)
    (ns : GresNs) (ub nts eb : Bool) (used : List Nat) (L : Nat)
    (p : ShSt × Int × Bool) (t : Nat) (h : SHInv L p.1)
    (htopo : ns.topo_cnt ≤ L) :
    SHInv L (tbInner conf sock js ns ub nts eb used p t).1 := by
  unfold tbInner
  split
  · exact h
  · dsimp only
    have h2 := pickSharedGres_sh conf sock js ns ub true nts eb used L
      ⟨p.1.bits, p.1.cnt, p.1.per_bit, js.gres_per_task⟩ ⟨h.1, h.2⟩ htopo
    split
    · exact h2
    · exact h2

lemma setSharedTaskBits_sh (conf : Conf) (sock : SockGres) (js : GresJs)
    (ns : GresNs) (ub eb nts : Bool) (tps : Option (List Nat))
    (bits : List Bool) (cnt : Nat) (pb : List Nat) (hc : cnt = pb.sum)
    (htopo : ns.topo_cnt ≤ pb.length) :
    (setSharedTaskBits conf sock js ns ub eb nts tps bits cnt
        pb).1.per_bit.length = pb.length ∧
    (setSharedTaskBits conf sock js ns ub eb nts tps bits cnt pb).1.cnt
      = (setSharedTaskBits conf sock js ns ub eb nts tps bits cnt
        pb).1.per_bit.sum := by
  unfold setSharedTaskBits
  rcases tps with _ | tasks
  · exact ⟨rfl, hc⟩
  · dsimp only
    split
    · dsimp only
      have h1 := pickSharedGres_sh conf sock js ns ub true false eb tasks
        pb.length ⟨bits, cnt, pb, mul64 js.gres_per_task
          (getTaskCntNode (some tasks) sock.sock_cnt)⟩ ⟨rfl, hc⟩ htopo
      exact ⟨h1.1, h1.2⟩
    · have hP := foldl_pres
        (fun (acc : ShSt × Int) => SHInv pb.length acc.1)
        (tbSock conf sock js ns ub nts eb tasks)
        (List.range sock.sock_cnt)
        (⟨bits, cnt, pb, 0⟩, SLURM_SUCCESS)
        (fun acc sIdx _ hA => by
          unfold tbSock
          dsimp only
          exact foldl_pres
            (fun (p : ShSt × Int × Bool) => SHInv pb.length p.1)
            _ _ (acc.1, acc.2, false)
            (fun p t _ hp => tbInner_sh conf sock js ns ub nts eb _
              pb.length p t hp htopo) hA)
        ⟨rfl, hc⟩
      exact ⟨hP.1, hP.2⟩

lemma pickZero_selOk (sock : SockGres) (ns : GresNs) (si : Option Nat)
    (take : Nat) (L : Nat) (st : SelSt) (h : SelOk L st) :
    SelOk L ⟨(pickGresTopo sock ns si take st.bits st.cnt st.sorted
        st.links).bits,
      (pickGresTopo sock ns si take st.bits st.cnt st.sorted
        st.links).cnt,
      (pickGresTopo sock ns si take st.bits st.cnt st.sorted
        st.links).sorted,
      (pickGresTopo sock ns si take st.bits st.cnt st.sorted
        st.links).links, 0⟩ := by
  have hp := pickInto_selOk sock ns si take L st h
  exact ⟨hp.1, hp.2.1, hp.2.2⟩

lemma jb2Q_selOk (sock : SockGres) (js : GresJs) (ns : GresNs)
    (st0 : SelSt) (total0 : Nat) (L : Nat) (h : SelOk L st0) :
    SelOk L (jb2Q sock js ns st0 total0).1 := by
  unfold jb2Q
  dsimp only
  have h1 := foldl_pres (fun (p : SelSt × Nat) => SelOk L p.1)
    (fun (p : SelSt × Nat) s =>
      if ¬ (js.gres_per_job > p.2) then p
      else
        (⟨(pickGresTopo sock ns (some s) (js.gres_per_job - p.2)
            p.1.bits p.1.cnt p.1.sorted p.1.links).bits,
          (pickGresTopo sock ns (some s) (js.gres_per_job - p.2)
            p.1.bits p.1.cnt p.1.sorted p.1.links).cnt,
          (pickGresTopo sock ns (some s) (js.gres_per_job - p.2)
            p.1.bits p.1.cnt p.1.sorted p.1.links).sorted,
          (pickGresTopo sock ns (some s) (js.gres_per_job - p.2)
            p.1.bits p.1.cnt p.1.sorted p.1.links).links, 0⟩,
          p.2 + (pickGresTopo sock ns (some s) (js.gres_per_job - p.2)
            p.1.bits p.1.cnt p.1.sorted p.1.links).picked))
    (List.range sock.sock_cnt) (st0, total0)
    (fun p s _ hp => by
      dsimp only
      split
      · exact hp
      · exact pickZero_selOk sock ns (some s) (js.gres_per_job - p.2) L
          p.1 hp) h
  split
  · exact pickZero_selOk sock ns none _ L _ h1
  · exact h1

lemma setJobBits2_cnt (sock : SockGres) (js : GresJs) (ns : GresNs)
    (bits : List Bool) (cnt total0 : Nat) (hc : cnt = bits.count true) :
    ((setJobBits2 sock js ns (some bits) cnt total0).1.getD []).length
      = bits.length ∧
    (setJobBits2 sock js ns (some bits) cnt total0).2.1
      = ((setJobBits2 sock js ns (some bits) cnt
        total0).1.getD []).count true := by
  unfold setJobBits2
  split
  · exact ⟨rfl, hc⟩
  · dsimp only
    have h0 : SelOk bits.length ⟨bits, cnt,
        (if js.gres_per_job > total0 ∧ ns.link_len = bitSize bits then
          (some (List.insertionSort
            (fun a b => (seedLinks ns bits (bitSize bits)).getD a 0
              ≤ (seedLinks ns bits (bitSize bits)).getD b 0)
            (List.range (bitSize bits))),
           some (seedLinks ns bits (bitSize bits)))
         else (none, none)).1,
        (if js.gres_per_job > total0 ∧ ns.link_len = bitSize bits then
          (some (List.insertionSort
            (fun a b => (seedLinks ns bits (bitSize bits)).getD a 0
              ≤ (seedLinks ns bits (bitSize bits)).getD b 0)
            (List.range (bitSize bits))),
           some (seedLinks ns bits (bitSize bits)))
         else (none, none)).2, 0⟩ := by
      refine ⟨rfl, hc, ?_⟩
      intro sl' he x hx
      split at he
      · dsimp only at he
        cases he
        have := (mem_insertionSort _ _ _).mp hx
        exact List.mem_range.mp this
      · cases he
    have hq := jb2Q_selOk sock js ns _ total0 bits.length h0
    exact ⟨hq.1, hq.2.1⟩

lemma getD_replicate {α : Type} (a : α) (n m : Nat) :
    (List.replicate n a).getD m a = a := by
  induction n generalizing m with
  | zero => rfl
  | succ k ih =>
    cases m with
    | zero => rfl
    | succ m2 => exact ih m2

lemma cntSelAt_setCntSel_self (js : GresJs) (n : Nat) (v : Nat)
    (h : n < (js.gres_cnt_node_select.getD []).length) :
    cntSelAt (setCntSel js n v) n = v := by
  unfold cntSelAt setCntSel
  dsimp only
  exact getD_set_self _ n v 0 h

lemma cntSelAt_setCntSel_ne (js : GresJs) (n v m : Nat) (h : m ≠ n) :
    cntSelAt (setCntSel js n v) m = cntSelAt js m := by
  unfold cntSelAt setCntSel
  dsimp only
  exact getD_set_ne _ n m v 0 h

lemma bitsListAt_setBitSel_self (js : GresJs) (n : Nat) (bs : List Bool)
    (h : n < (js.gres_bit_select.getD []).length) :
    bitsListAt (setBitSel js n bs) n = bs := by
  unfold bitsListAt bitSelAt setBitSel
  simp only [Option.getD_some]
  rw [getD_set_self _ n (some bs) none h]
  rfl

lemma bitsListAt_setBitSel_ne (js : GresJs) (n : Nat) (bs : List Bool)
    (m : Nat) (h : m ≠ n) :
    bitsListAt (setBitSel js n bs) m = bitsListAt js m := by
  unfold bitsListAt bitSelAt setBitSel
  simp only [Option.getD_some]
  rw [getD_set_ne _ n m (some bs) none h]

lemma perBitListAt_setPerBit_self (js : GresJs) (n : Nat) (l : List Nat)
    (h : n < (js.gres_per_bit_select.getD []).length) :
    perBitListAt (setPerBit js n l) n = l := by
  unfold perBitListAt setPerBit
  simp only [Option.getD_some]
  rw [getD_set_self _ n (some l) none h]
  rfl

lemma perBitListAt_setPerBit_ne (js : GresJs) (n : Nat) (l : List Nat)
    (m : Nat) (h : m ≠ n) :
    perBitListAt (setPerBit js n l) m = perBitListAt js m := by
  unfold perBitListAt setPerBit
  simp only [Option.getD_some]
  rw [getD_set_ne _ n m (some l) none h]

/-- Output-array well-formedness: each allocated per-node select array
has one entry per allocated node. -/
def JsShape (nc : Nat) (js : GresJs) : Prop :=
  (js.total_node_cnt = 0 ∨ js.total_node_cnt = nc) ∧
  (∀ l, js.gres_cnt_node_select = some l → l.length = nc) ∧
  (∀ b, js.gres_bit_select = some b → b.length = nc) ∧
  (∀ p, js.gres_per_bit_select = some p → p.length = nc)

lemma jb1Full_cnt (sock : SockGres) (js : GresJs) (ns : GresNs)
    (cos : List Nat) (pick mg : Int) (gcnt : Nat) (total1 : Nat)
    (fini0 : Int) (bits : List Bool) (cnt : Nat)
    (h0 : JInv bits.length (bits, cnt, (0 : Int))) :
    (jb1Finish js total1 fini0
      (jb1Picks sock ns cos pick mg gcnt (bits, cnt, (0 : Int)))).1.length
        = bits.length ∧
    (jb1Finish js total1 fini0
      (jb1Picks sock ns cos pick mg gcnt (bits, cnt, (0 : Int)))).2.1
      = (jb1Finish js total1 fini0
        (jb1Picks sock ns cos pick mg gcnt
          (bits, cnt, (0 : Int)))).1.count true := by
  have hA : JInv bits.length
      (jb1Picks sock ns cos pick mg gcnt (bits, cnt, (0 : Int))) := by
    unfold jb1Picks
    exact jb1Prune_J ns gcnt mg bits.length _
      (jb1Fold3_J sock ns cos bits.length _
        (jb1Any_J sock ns pick bits.length _
          (jb1Fold1_J sock ns cos pick bits.length _ h0)))
  exact ⟨hA.1, hA.2.1⟩

lemma setJobBits1_cnt (sock : SockGres) (js : GresJs) (ns : GresNs)
    (jni rem_nodes cpt cpc : Nat) (cos : List Nat) (tc : Nat)
    (bits : List Bool) (cnt : Nat) (total0 : Nat)
    (hb : bits.count true = 0) (hcnt : cnt = 0) :
    (setJobBits1 sock js ns jni rem_nodes cpt cpc cos tc bits cnt
        total0).1.length = bits.length ∧
    (setJobBits1 sock js ns jni rem_nodes cpt cpc cos tc bits cnt
        total0).2.1
      = (setJobBits1 sock js ns jni rem_nodes cpt cpc cos tc bits cnt
        total0).1.count true := by
  have h0 : JInv bits.length (bits, cnt, (0 : Int)) := by
    refine ⟨rfl, ?_, ?_⟩
    · dsimp only
      omega
    · dsimp only
      rw [hb]
      rfl
  unfold setJobBits1
  dsimp only
  exact jb1Full_cnt sock js ns cos _ _ _ _ _ bits cnt h0

lemma prepTot_spec (nc : Nat) (js0 : GresJs) (hsh : JsShape nc js0) :
    JsShape nc (prepTot nc js0) ∧
    (prepTot nc js0).total_node_cnt = nc ∧
    (prepTot nc js0).shared = js0.shared ∧
    (prepTot nc js0).gres_cnt_node_select = js0.gres_cnt_node_select ∧
    (prepTot nc js0).gres_bit_select = js0.gres_bit_select ∧
    (prepTot nc js0).gres_per_bit_select = js0.gres_per_bit_select := by
  obtain ⟨h1, h2, h3, h4⟩ := hsh
  unfold prepTot
  split
  · exact ⟨⟨Or.inr rfl, h2, h3, h4⟩, rfl, rfl, rfl, rfl, rfl⟩
  · next h =>
    refine ⟨⟨h1, h2, h3, h4⟩, ?_, rfl, rfl, rfl, rfl⟩
    rcases h1 with h0 | h0
    · exact absurd h0 h
    · exact h0

lemma prepCnt_spec (nc : Nat) (js : GresJs) (hsh : JsShape nc js) :
    JsShape nc (prepCnt nc js) ∧
    (∃ l, (prepCnt nc js).gres_cnt_node_select = some l
      ∧ l.length = nc) ∧
    (prepCnt nc js).shared = js.shared ∧
    (prepCnt nc js).total_node_cnt = js.total_node_cnt ∧
    (∀ m, cntSelAt (prepCnt nc js) m = cntSelAt js m) ∧
    (prepCnt nc js).gres_bit_select = js.gres_bit_select ∧
    (prepCnt nc js).gres_per_bit_select = js.gres_per_bit_select := by
  obtain ⟨h1, h2, h3, h4⟩ := hsh
  unfold prepCnt
  split
  · next hn =>
    refine ⟨⟨h1, ?_, h3, h4⟩, ⟨_, rfl, List.length_replicate nc 0⟩, rfl,
      rfl, ?_, rfl, rfl⟩
    · intro l hl
      cases hl
      exact List.length_replicate nc 0
    · intro m
      unfold cntSelAt
      rw [hn]
      simp only [Option.getD_some, Option.getD_none]
      rw [getD_replicate 0 nc m]
      rfl
  · next hn =>
    refine ⟨⟨h1, h2, h3, h4⟩, ?_, rfl, rfl, fun m => rfl, rfl, rfl⟩
    rcases hl : js.gres_cnt_node_select with _ | l
    · exact absurd hl hn
    · exact ⟨l, rfl, h2 l hl⟩

lemma sanPrep_spec (nc jni : Nat) (js0 : GresJs) (hsh : JsShape nc js0) :
    JsShape nc (sanPrep nc jni js0) ∧
    (∃ l, (sanPrep nc jni js0).gres_cnt_node_select = some l
      ∧ l.length = nc) ∧
    (sanPrep nc jni js0).shared = js0.shared ∧
    (sanPrep nc jni js0).total_node_cnt = nc ∧
    (∀ m, cntSelAt (sanPrep nc jni js0) m = cntSelAt js0 m) ∧
    (sanPrep nc jni js0).gres_bit_select = js0.gres_bit_select ∧
    (sanPrep nc jni js0).gres_per_bit_select
      = js0.gres_per_bit_select := by
  obtain ⟨ht1, ht2, ht3, ht4, ht5, ht6⟩ := prepTot_spec nc js0 hsh
  obtain ⟨hc1, hc2, hc3, hc4, hc5, hc6, hc7⟩ :=
    prepCnt_spec nc (prepTot nc js0) ht1
  unfold sanPrep
  dsimp only
  split
  · exact ⟨⟨Or.inr (hc4.trans ht2), hc1.2.1, hc1.2.2.1, hc1.2.2.2⟩, hc2,
      hc3.trans ht3, hc4.trans ht2,
      fun m => (hc5 m).trans (by unfold cntSelAt; rw [ht4]),
      hc6.trans ht5, hc7.trans ht6⟩
  · exact ⟨⟨Or.inr (hc4.trans ht2), hc1.2.1, hc1.2.2.1, hc1.2.2.2⟩, hc2,
      hc3.trans ht3, hc4.trans ht2,
      fun m => (hc5 m).trans (by unfold cntSelAt; rw [ht4]),
      hc6.trans ht5, hc7.trans ht6⟩

lemma cntSelAt_congr (js js2 : GresJs)
    (h : js.gres_cnt_node_select = js2.gres_cnt_node_select) (m : Nat) :
    cntSelAt js m = cntSelAt js2 m := by
  unfold cntSelAt
  rw [h]

lemma bitsListAt_congr (js js2 : GresJs)
    (h : js.gres_bit_select = js2.gres_bit_select) (m : Nat) :
    bitsListAt js m = bitsListAt js2 m := by
  unfold bitsListAt bitSelAt
  rw [h]

lemma perBitListAt_congr (js js2 : GresJs)
    (h : js.gres_per_bit_select = js2.gres_per_bit_select) (m : Nat) :
    perBitListAt js m = perBitListAt js2 m := by
  unfold perBitListAt
  rw [h]

lemma setCntSel_shape (nc : Nat) (js : GresJs) (n v : Nat)
    (hsh : JsShape nc js)
    (hex : ∃ l, js.gres_cnt_node_select = some l ∧ l.length = nc) :
    JsShape nc (setCntSel js n v) ∧
    (∃ l, (setCntSel js n v).gres_cnt_node_select = some l
      ∧ l.length = nc) := by
  obtain ⟨l, hl, hlen⟩ := hex
  obtain ⟨h1, h2, h3, h4⟩ := hsh
  have harr : (js.gres_cnt_node_select.getD []) = l := by
    rw [hl]
    rfl
  refine ⟨⟨h1, ?_, h3, h4⟩,
    ⟨(js.gres_cnt_node_select.getD []).set n v, rfl, ?_⟩⟩
  · intro l2 hl2
    cases hl2
    rw [List.length_set, harr]
    exact hlen
  · rw [List.length_set, harr]
    exact hlen

lemma setBitSel_shape (nc : Nat) (js : GresJs) (n : Nat) (bs : List Bool)
    (hsh : JsShape nc js)
    (hex : ∃ b, js.gres_bit_select = some b ∧ b.length = nc) :
    JsShape nc (setBitSel js n bs) ∧
    (∃ b, (setBitSel js n bs).gres_bit_select = some b
      ∧ b.length = nc) := by
  obtain ⟨b, hb, hlen⟩ := hex
  obtain ⟨h1, h2, h3, h4⟩ := hsh
  have harr : (js.gres_bit_select.getD []) = b := by
    rw [hb]
    rfl
  refine ⟨⟨h1, h2, ?_, h4⟩,
    ⟨(js.gres_bit_select.getD []).set n (some bs), rfl, ?_⟩⟩
  · intro b2 hb2
    cases hb2
    rw [List.length_set, harr]
    exact hlen
  · rw [List.length_set, harr]
    exact hlen

lemma setPerBit_shape (nc : Nat) (js : GresJs) (n : Nat) (l : List Nat)
    (hsh : JsShape nc js)
    (hex : ∃ p, js.gres_per_bit_select = some p ∧ p.length = nc) :
    JsShape nc (setPerBit js n l) ∧
    (∃ p, (setPerBit js n l).gres_per_bit_select = some p
      ∧ p.length = nc) := by
  obtain ⟨p, hp, hlen⟩ := hex
  obtain ⟨h1, h2, h3, h4⟩ := hsh
  have harr : (js.gres_per_bit_select.getD []) = p := by
    rw [hp]
    rfl
  refine ⟨⟨h1, h2, h3, ?_⟩,
    ⟨(js.gres_per_bit_select.getD []).set n (some l), rfl, ?_⟩⟩
  · intro p2 hp2
    cases hp2
    rw [List.length_set, harr]
    exact hlen
  · rw [List.length_set, harr]
    exact hlen

lemma jsBit_spec (nc : Nat) (js3 : GresJs) (jni gcnt : Nat)
    (hsh : JsShape nc js3)
    (hcex : ∃ l, js3.gres_cnt_node_select = some l ∧ l.length = nc)
    (hjni : jni < nc) :
    ∀ js5, setCntSel (setBitSel (if js3.gres_bit_select = none then
        { js3 with gres_bit_select := some (List.replicate nc none) }
      else js3) jni (List.replicate gcnt false)) jni 0 = js5 →
    JsShape nc js5 ∧
    (∃ l, js5.gres_cnt_node_select = some l ∧ l.length = nc) ∧
    (∃ b, js5.gres_bit_select = some b ∧ b.length = nc) ∧
    js5.shared = js3.shared ∧
    js5.total_node_cnt = js3.total_node_cnt ∧
    js5.gres_per_bit_select = js3.gres_per_bit_select ∧
    cntSelAt js5 jni = 0 ∧
    bitsListAt js5 jni = List.replicate gcnt false ∧
    (∀ m, m ≠ jni → cntSelAt js5 m = cntSelAt js3 m ∧
      bitsListAt js5 m = bitsListAt js3 m) := by
  intro js5 hdef
  set J4 := (if js3.gres_bit_select = none then
      { js3 with gres_bit_select := some (List.replicate nc none) }
    else js3) with hJ4
  have hsh4 : JsShape nc J4 := by
    obtain ⟨h1, h2, h3, hp4⟩ := hsh
    rw [hJ4]
    split
    · refine ⟨h1, h2, ?_, hp4⟩
      intro b2 hb2
      cases hb2
      exact List.length_replicate nc none
    · exact ⟨h1, h2, h3, hp4⟩
  have hbex4 : ∃ b, J4.gres_bit_select = some b ∧ b.length = nc := by
    rw [hJ4]
    split
    · next hn =>
      exact ⟨List.replicate nc none, rfl, List.length_replicate nc none⟩
    · next hn =>
      rcases hb : js3.gres_bit_select with _ | b
      · exact absurd hb hn
      · exact ⟨b, rfl, hsh.2.2.1 b hb⟩
  have hbl4 : ∀ m, bitsListAt J4 m = bitsListAt js3 m := by
    intro m
    rw [hJ4]
    split
    · next hn =>
      unfold bitsListAt bitSelAt
      rw [hn]
      simp only [Option.getD_some, Option.getD_none]
      rw [getD_replicate none nc m]
      rfl
    · rfl
  have hcnt4 : J4.gres_cnt_node_select = js3.gres_cnt_node_select := by
    rw [hJ4]
    split
    · rfl
    · rfl
  have hsame4 : J4.shared = js3.shared ∧ J4.total_node_cnt
      = js3.total_node_cnt ∧ J4.gres_per_bit_select
      = js3.gres_per_bit_select := by
    rw [hJ4]
    split
    · exact ⟨rfl, rfl, rfl⟩
    · exact ⟨rfl, rfl, rfl⟩
  obtain ⟨l0, hl0, hl0len⟩ := hcex
  obtain ⟨hshB, hbexB⟩ := setBitSel_shape nc J4 jni
    (List.replicate gcnt false) hsh4 hbex4
  have hcex4 : ∃ l, (setBitSel J4 jni
      (List.replicate gcnt false)).gres_cnt_node_select = some l
      ∧ l.length = nc := ⟨l0, by rw [show (setBitSel J4 jni
        (List.replicate gcnt false)).gres_cnt_node_select
        = J4.gres_cnt_node_select from rfl, hcnt4]; exact hl0, hl0len⟩
  obtain ⟨hshC, hcexC⟩ := setCntSel_shape nc _ jni 0 hshB hcex4
  obtain ⟨b4, hb4, hblen4⟩ := hbex4
  subst hdef
  refine ⟨hshC, hcexC, ?_, ?_, ?_, ?_, ?_, ?_, ?_⟩
  · obtain ⟨b, hb, hlen⟩ := hbexB
    exact ⟨b, hb, hlen⟩
  · exact hsame4.1
  · exact hsame4.2.1
  · exact hsame4.2.2
  · refine cntSelAt_setCntSel_self _ jni 0 ?_
    rw [show (setBitSel J4 jni
      (List.replicate gcnt false)).gres_cnt_node_select
      = J4.gres_cnt_node_select from rfl, hcnt4, hl0]
    simp only [Option.getD_some]
    omega
  · rw [bitsListAt_congr (setCntSel (setBitSel J4 jni
      (List.replicate gcnt false)) jni 0) (setBitSel J4 jni
      (List.replicate gcnt false)) rfl jni]
    refine bitsListAt_setBitSel_self J4 jni (List.replicate gcnt false) ?_
    rw [hb4]
    simp only [Option.getD_some]
    omega
  · intro m hm
    constructor
    · rw [cntSelAt_setCntSel_ne _ jni 0 m hm,
        cntSelAt_congr (setBitSel J4 jni (List.replicate gcnt false)) J4
          rfl m,
        cntSelAt_congr J4 js3 hcnt4 m]
    · rw [bitsListAt_congr (setCntSel (setBitSel J4 jni
        (List.replicate gcnt false)) jni 0) (setBitSel J4 jni
        (List.replicate gcnt false)) rfl m,
        bitsListAt_setBitSel_ne J4 jni (List.replicate gcnt false) m hm]
      exact hbl4 m

lemma sum_replicate_zero (n : Nat) : (List.replicate n 0).sum = 0 := by
  induction n with
  | zero => rfl
  | succ k ih => simpa using ih

lemma count_replicate_false (n : Nat) :
    (List.replicate n false).count true = 0 := by
  induction n with
  | zero => rfl
  | succ k ih => simpa using ih

lemma sanShared_slot (conf : Conf) (eb ots : Bool) (node : NodeCtx)
    (jni gcnt : Nat) (jf : Int) (js5 : GresJs) (nc : Nat)
    (hsh : JsShape nc js5)
    (hcex : ∃ l, js5.gres_cnt_node_select = some l ∧ l.length = nc)
    (hbex : ∃ b, js5.gres_bit_select = some b ∧ b.length = nc)
    (htn : js5.total_node_cnt = nc) (hjni : jni < nc)
    (hcnt0 : cntSelAt js5 jni = 0)
    (htopo : node.ns.topo_cnt ≤ gcnt) :
    ∀ r, sanShared conf eb ots node jni gcnt jf js5 = r →
    JsShape nc r.1 ∧
    (∃ l, r.1.gres_cnt_node_select = some l ∧ l.length = nc) ∧
    r.1.shared = js5.shared ∧
    r.1.total_node_cnt = js5.total_node_cnt ∧
    (perBitListAt r.1 jni).sum = cntSelAt r.1 jni ∧
    (∀ m, m ≠ jni → cntSelAt r.1 m = cntSelAt js5 m ∧
      bitsListAt r.1 m = bitsListAt js5 m ∧
      perBitListAt r.1 m = perBitListAt js5 m) := by
  intro r hdef
  unfold sanShared at hdef
  dsimp only at hdef
  set js6 := (if js5.gres_per_bit_select = none then
      { js5 with gres_per_bit_select := some (List.replicate js5.total_node_cnt none) }
    else js5) with hJ6
  have hsh6 : JsShape nc js6 := by
    obtain ⟨h1, h2, h3, h4⟩ := hsh
    rw [hJ6]
    split
    · refine ⟨h1, h2, h3, ?_⟩
      intro p2 hp2
      cases hp2
      rw [List.length_replicate, htn]
    · exact ⟨h1, h2, h3, h4⟩
  have hpbex6 : ∃ p, js6.gres_per_bit_select = some p
      ∧ p.length = nc := by
    rw [hJ6]
    split
    · next hn =>
      exact ⟨List.replicate js5.total_node_cnt none, rfl,
        by rw [List.length_replicate, htn]⟩
    · next hn =>
      rcases hp : js5.gres_per_bit_select with _ | p
      · exact absurd hp hn
      · exact ⟨p, rfl, hsh.2.2.2 p hp⟩
  have hpb6 : ∀ m, perBitListAt js6 m = perBitListAt js5 m := by
    intro m
    rw [hJ6]
    split
    · next hn =>
      unfold perBitListAt
      rw [hn]
      simp only [Option.getD_some, Option.getD_none]
      rw [getD_replicate none js5.total_node_cnt m]
      rfl
    · rfl
  have hsame6 : js6.shared = js5.shared ∧ js6.total_node_cnt
      = js5.total_node_cnt ∧ js6.gres_cnt_node_select
      = js5.gres_cnt_node_select ∧ js6.gres_bit_select
      = js5.gres_bit_select := by
    rw [hJ6]
    split
    · exact ⟨rfl, rfl, rfl, rfl⟩
    · exact ⟨rfl, rfl, rfl, rfl⟩
  obtain ⟨hsh7, hpbex7⟩ := setPerBit_shape nc js6 jni
    (List.replicate gcnt 0) hsh6 hpbex6
  set js7 := setPerBit js6 jni (List.replicate gcnt 0) with hJ7
  have hpb7self : perBitListAt js7 jni = List.replicate gcnt 0 := by
    rw [hJ7]
    refine perBitListAt_setPerBit_self js6 jni (List.replicate gcnt 0) ?_
    obtain ⟨p, hp, hlen⟩ := hpbex6
    rw [hp]
    simp only [Option.getD_some]
    omega
  have hcnt7 : ∀ m, cntSelAt js7 m = cntSelAt js5 m := by
    intro m
    rw [hJ7]
    exact (cntSelAt_congr _ js6 rfl m).trans
      (cntSelAt_congr js6 js5 hsame6.2.2.1 m)
  have hbits7 : ∀ m, bitsListAt js7 m = bitsListAt js5 m := by
    intro m
    rw [hJ7]
    exact (bitsListAt_congr _ js6 rfl m).trans
      (bitsListAt_congr js6 js5 hsame6.2.2.2 m)
  have hcnt70 : cntSelAt js7 jni = 0 := by
    rw [hcnt7 jni]
    exact hcnt0
  have htopo7 : node.ns.topo_cnt ≤ (perBitListAt js7 jni).length := by
    rw [hpb7self, List.length_replicate]
    exact htopo
  have hc7 : cntSelAt js7 jni = (perBitListAt js7 jni).sum := by
    rw [hcnt70, hpb7self, sum_replicate_zero]
  set d := (if js7.gres_per_node ≠ 0 then
      setSharedNodeBits conf node.sock js7 node.ns node.use_busy_dev eb
        node.used_cores_on_sock (bitsListAt js7 jni) (cntSelAt js7 jni)
        (perBitListAt js7 jni)
    else if js7.gres_per_task ≠ 0 then
      setSharedTaskBits conf node.sock js7 node.ns node.use_busy_dev eb
        ots node.tasks_per_socket (bitsListAt js7 jni)
        (cntSelAt js7 jni) (perBitListAt js7 jni)
    else (⟨bitsListAt js7 jni, cntSelAt js7 jni, perBitListAt js7 jni,
      0⟩, ESLURM_INVALID_GRES)) with hD
  have hd : d.1.cnt = d.1.per_bit.sum := by
    rw [hD]
    split
    · exact (setSharedNodeBits_sh conf node.sock js7 node.ns
        node.use_busy_dev eb node.used_cores_on_sock (bitsListAt js7 jni)
        (cntSelAt js7 jni) (perBitListAt js7 jni) hc7 htopo7).2
    · split
      · exact (setSharedTaskBits_sh conf node.sock js7 node.ns
          node.use_busy_dev eb ots node.tasks_per_socket
          (bitsListAt js7 jni) (cntSelAt js7 jni) (perBitListAt js7 jni)
          hc7 htopo7).2
      · dsimp only
        rw [hcnt70, hpb7self, sum_replicate_zero]
  have hcex7 : ∃ l, (setBitSel js7 jni d.1.bits).gres_cnt_node_select
      = some l ∧ l.length = nc := by
    obtain ⟨l, hl, hlen⟩ := hcex
    refine ⟨l, ?_, hlen⟩
    rw [show (setBitSel js7 jni d.1.bits).gres_cnt_node_select
      = js7.gres_cnt_node_select from rfl, hJ7,
      show (setPerBit js6 jni (List.replicate gcnt
        0)).gres_cnt_node_select = js6.gres_cnt_node_select from rfl,
      hsame6.2.2.1]
    exact hl
  have hbex7 : ∃ b, js7.gres_bit_select = some b ∧ b.length = nc := by
    obtain ⟨b, hb, hlen⟩ := hbex
    refine ⟨b, ?_, hlen⟩
    rw [hJ7, show (setPerBit js6 jni (List.replicate gcnt
        0)).gres_bit_select = js6.gres_bit_select from rfl,
      hsame6.2.2.2]
    exact hb
  obtain ⟨hshB, hbexB⟩ := setBitSel_shape nc js7 jni d.1.bits hsh7 hbex7
  obtain ⟨hshC, hcexC⟩ := setCntSel_shape nc _ jni d.1.cnt hshB hcex7
  have hpbexC : ∃ p, (setCntSel (setBitSel js7 jni d.1.bits) jni
      d.1.cnt).gres_per_bit_select = some p ∧ p.length = nc := by
    obtain ⟨p, hp, hlen⟩ := hpbex7
    refine ⟨p, ?_, hlen⟩
    rw [show (setCntSel (setBitSel js7 jni d.1.bits) jni
      d.1.cnt).gres_per_bit_select = js7.gres_per_bit_select from rfl]
    exact hp
  obtain ⟨hshD, hpbexD⟩ := setPerBit_shape nc _ jni d.1.per_bit hshC
    hpbexC
  set js8 := setPerBit (setCntSel (setBitSel js7 jni d.1.bits) jni
    d.1.cnt) jni d.1.per_bit with hJ8
  have hcnt8self : cntSelAt js8 jni = d.1.cnt := by
    rw [hJ8, cntSelAt_congr (setPerBit (setCntSel (setBitSel js7 jni d.1.bits) jni d.1.cnt) jni d.1.per_bit)
      (setCntSel (setBitSel js7 jni d.1.bits) jni d.1.cnt) rfl jni]
    refine cntSelAt_setCntSel_self _ jni d.1.cnt ?_
    obtain ⟨l, hl, hlen⟩ := hcex7
    rw [hl]
    simp only [Option.getD_some]
    omega
  have hpb8self : perBitListAt js8 jni = d.1.per_bit := by
    rw [hJ8]
    refine perBitListAt_setPerBit_self _ jni d.1.per_bit ?_
    obtain ⟨p, hp, hlen⟩ := hpbexC
    rw [hp]
    simp only [Option.getD_some]
    omega
  have hframe8 : ∀ m, m ≠ jni → cntSelAt js8 m = cntSelAt js5 m ∧
      bitsListAt js8 m = bitsListAt js5 m ∧
      perBitListAt js8 m = perBitListAt js5 m := by
    intro m hm
    refine ⟨?_, ?_, ?_⟩
    · rw [hJ8, cntSelAt_congr (setPerBit (setCntSel (setBitSel js7 jni d.1.bits) jni d.1.cnt) jni d.1.per_bit)
        (setCntSel (setBitSel js7 jni d.1.bits) jni d.1.cnt) rfl m,
        cntSelAt_setCntSel_ne _ jni d.1.cnt m hm,
        cntSelAt_congr (setBitSel js7 jni d.1.bits) js7 rfl m]
      exact hcnt7 m
    · rw [hJ8, bitsListAt_congr (setPerBit (setCntSel (setBitSel js7 jni d.1.bits) jni d.1.cnt) jni d.1.per_bit)
        (setCntSel (setBitSel js7 jni d.1.bits) jni d.1.cnt) rfl m,
        bitsListAt_congr (setCntSel (setBitSel js7 jni d.1.bits) jni
          d.1.cnt) (setBitSel js7 jni d.1.bits) rfl m,
        bitsListAt_setBitSel_ne js7 jni d.1.bits m hm]
      exact hbits7 m
    · rw [hJ8, perBitListAt_setPerBit_ne _ jni d.1.per_bit m hm,
        perBitListAt_congr (setCntSel (setBitSel js7 jni d.1.bits) jni
          d.1.cnt) js7 rfl m, hJ7,
        perBitListAt_setPerBit_ne js6 jni (List.replicate gcnt 0) m hm]
      exact hpb6 m
  have hsame8 : js8.shared = js5.shared ∧ js8.total_node_cnt
      = js5.total_node_cnt := by
    constructor
    · rw [hJ8]
      show js7.shared = js5.shared
      rw [hJ7]
      show js6.shared = js5.shared
      exact hsame6.1
    · rw [hJ8]
      show js7.total_node_cnt = js5.total_node_cnt
      rw [hJ7]
      show js6.total_node_cnt = js5.total_node_cnt
      exact hsame6.2.1
  have hfin : ∀ js9, (js9 = js8 ∨ js9 = { js8 with total_gres := js8.total_gres + cntSelAt js8 jni }) →
      JsShape nc js9 ∧
      (∃ l, js9.gres_cnt_node_select = some l ∧ l.length = nc) ∧
      js9.shared = js5.shared ∧
      js9.total_node_cnt = js5.total_node_cnt ∧
      (perBitListAt js9 jni).sum = cntSelAt js9 jni ∧
      (∀ m, m ≠ jni → cntSelAt js9 m = cntSelAt js5 m ∧
        bitsListAt js9 m = bitsListAt js5 m ∧
        perBitListAt js9 m = perBitListAt js5 m) := by
    intro js9 h9
    have hacc : js9.gres_cnt_node_select = js8.gres_cnt_node_select ∧
        js9.gres_bit_select = js8.gres_bit_select ∧
        js9.gres_per_bit_select = js8.gres_per_bit_select ∧
        js9.shared = js8.shared ∧
        js9.total_node_cnt = js8.total_node_cnt := by
      rcases h9 with h9 | h9 <;> rw [h9] <;> exact ⟨rfl, rfl, rfl, rfl,
        rfl⟩
    obtain ⟨ha1, ha2, ha3, ha4, ha5⟩ := hacc
    obtain ⟨hD1, hD2, hD3, hD4⟩ := hshD
    refine ⟨⟨?_, ?_, ?_, ?_⟩, ?_, ?_, ?_, ?_, ?_⟩
    · rw [ha5]
      exact hD1
    · intro l hl
      rw [ha1] at hl
      exact hD2 l hl
    · intro b hb
      rw [ha2] at hb
      exact hD3 b hb
    · intro p hp
      rw [ha3] at hp
      exact hD4 p hp
    · obtain ⟨l, hl, hlen⟩ := hcexC
      refine ⟨l, ?_, hlen⟩
      rw [ha1, hJ8, show (setPerBit (setCntSel (setBitSel js7 jni
        d.1.bits) jni d.1.cnt) jni d.1.per_bit).gres_cnt_node_select
        = (setCntSel (setBitSel js7 jni d.1.bits) jni
          d.1.cnt).gres_cnt_node_select from rfl]
      exact hl
    · rw [ha4]
      exact hsame8.1
    · rw [ha5]
      exact hsame8.2
    · rw [perBitListAt_congr js9 js8 ha3 jni, cntSelAt_congr js9 js8
        ha1 jni, hpb8self, hcnt8self]
      exact hd.symm
    · intro m hm
      rw [cntSelAt_congr js9 js8 ha1 m, bitsListAt_congr js9 js8 ha2 m,
        perBitListAt_congr js9 js8 ha3 m]
      exact hframe8 m hm
  rw [← hdef]
  dsimp only
  split
  · exact hfin _ (Or.inr rfl)
  · exact hfin _ (Or.inl rfl)

lemma writePair_slot (nc : Nat) (js5 : GresJs) (jni : Nat)
    (hsh : JsShape nc js5)
    (hcex : ∃ l, js5.gres_cnt_node_select = some l ∧ l.length = nc)
    (hbex : ∃ b, js5.gres_bit_select = some b ∧ b.length = nc)
    (hjni : jni < nc) (bs : List Bool) (v : Nat) :
    JsShape nc (setCntSel (setBitSel js5 jni bs) jni v) ∧
    (∃ l, (setCntSel (setBitSel js5 jni bs) jni
      v).gres_cnt_node_select = some l ∧ l.length = nc) ∧
    (setCntSel (setBitSel js5 jni bs) jni v).shared = js5.shared ∧
    (setCntSel (setBitSel js5 jni bs) jni v).total_node_cnt
      = js5.total_node_cnt ∧
    (setCntSel (setBitSel js5 jni bs) jni v).gres_per_bit_select
      = js5.gres_per_bit_select ∧
    cntSelAt (setCntSel (setBitSel js5 jni bs) jni v) jni = v ∧
    bitsListAt (setCntSel (setBitSel js5 jni bs) jni v) jni = bs ∧
    (∀ m, m ≠ jni →
      cntSelAt (setCntSel (setBitSel js5 jni bs) jni v) m
        = cntSelAt js5 m ∧
      bitsListAt (setCntSel (setBitSel js5 jni bs) jni v) m
        = bitsListAt js5 m) := by
  obtain ⟨l0, hl0, hl0len⟩ := hcex
  obtain ⟨hshB, hbexB⟩ := setBitSel_shape nc js5 jni bs hsh hbex
  obtain ⟨b0, hb0, hb0len⟩ := hbex
  have hcexB : ∃ l, (setBitSel js5 jni bs).gres_cnt_node_select
      = some l ∧ l.length = nc := ⟨l0, hl0, hl0len⟩
  obtain ⟨hshC, hcexC⟩ := setCntSel_shape nc _ jni v hshB hcexB
  refine ⟨hshC, hcexC, rfl, rfl, rfl, ?_, ?_, ?_⟩
  · refine cntSelAt_setCntSel_self _ jni v ?_
    show jni < ((js5.gres_cnt_node_select.getD []) : List Nat).length
    rw [hl0]
    simp only [Option.getD_some]
    omega
  · rw [bitsListAt_congr (setCntSel (setBitSel js5 jni bs) jni v)
      (setBitSel js5 jni bs) rfl jni]
    refine bitsListAt_setBitSel_self js5 jni bs ?_
    rw [hb0]
    simp only [Option.getD_some]
    omega
  · intro m hm
    constructor
    · rw [cntSelAt_setCntSel_ne _ jni v m hm,
        cntSelAt_congr (setBitSel js5 jni bs) js5 rfl m]
    · rw [bitsListAt_congr (setCntSel (setBitSel js5 jni bs) jni v)
        (setBitSel js5 jni bs) rfl m,
        bitsListAt_setBitSel_ne js5 jni bs m hm]

lemma sanNonshared_slot (mc : Option McData) (node : NodeCtx)
    (jni rem : Nat) (jf : Int) (js5 : GresJs) (nc gcnt : Nat)
    (hsh : JsShape nc js5)
    (hcex : ∃ l, js5.gres_cnt_node_select = some l ∧ l.length = nc)
    (hbex : ∃ b, js5.gres_bit_select = some b ∧ b.length = nc)
    (hjni : jni < nc) (hcnt0 : cntSelAt js5 jni = 0)
    (hbits : bitsListAt js5 jni = List.replicate gcnt false) :
    ∀ r, sanNonshared mc node jni rem jf js5 = r →
    JsShape nc r.1 ∧
    (∃ l, r.1.gres_cnt_node_select = some l ∧ l.length = nc) ∧
    r.1.shared = js5.shared ∧
    r.1.total_node_cnt = js5.total_node_cnt ∧
    (bitsListAt r.1 jni).count true = cntSelAt r.1 jni ∧
    (∀ m, m ≠ jni → cntSelAt r.1 m = cntSelAt js5 m ∧
      bitsListAt r.1 m = bitsListAt js5 m ∧
      perBitListAt r.1 m = perBitListAt js5 m) := by
  intro r hdef
  have hbc : (bitsListAt js5 jni).count true = 0 := by
    rw [hbits]
    exact count_replicate_false gcnt
  have hW : ∀ (bs : List Bool) (v : Nat), v = bs.count true →
      ∀ js6, (js6 = setCntSel (setBitSel js5 jni bs) jni v ∨
        ∃ t, js6 = { setCntSel (setBitSel js5 jni bs) jni v with total_gres := t }) →
      JsShape nc js6 ∧
      (∃ l, js6.gres_cnt_node_select = some l ∧ l.length = nc) ∧
      js6.shared = js5.shared ∧
      js6.total_node_cnt = js5.total_node_cnt ∧
      (bitsListAt js6 jni).count true = cntSelAt js6 jni ∧
      (∀ m, m ≠ jni → cntSelAt js6 m = cntSelAt js5 m ∧
        bitsListAt js6 m = bitsListAt js5 m ∧
        perBitListAt js6 m = perBitListAt js5 m) := by
    intro bs v hv js6 h6
    obtain ⟨w1, w2, w3, w4, w5, w6, w7, w8⟩ :=
      writePair_slot nc js5 jni hsh hcex hbex hjni bs v
    have hacc : js6.gres_cnt_node_select = (setCntSel (setBitSel js5
        jni bs) jni v).gres_cnt_node_select ∧
        js6.gres_bit_select = (setCntSel (setBitSel js5 jni bs) jni
          v).gres_bit_select ∧
        js6.gres_per_bit_select = (setCntSel (setBitSel js5 jni bs) jni
          v).gres_per_bit_select ∧
        js6.shared = (setCntSel (setBitSel js5 jni bs) jni v).shared ∧
        js6.total_node_cnt = (setCntSel (setBitSel js5 jni bs) jni
          v).total_node_cnt := by
      rcases h6 with h6 | ⟨t, h6⟩ <;> rw [h6] <;>
        exact ⟨rfl, rfl, rfl, rfl, rfl⟩
    obtain ⟨ha1, ha2, ha3, ha4, ha5⟩ := hacc
    obtain ⟨q1, q2, q3, q4⟩ := w1
    refine ⟨⟨?_, ?_, ?_, ?_⟩, ?_, ?_, ?_, ?_, ?_⟩
    · rw [ha5]
      exact q1
    · intro l hl
      rw [ha1] at hl
      exact q2 l hl
    · intro b hb
      rw [ha2] at hb
      exact q3 b hb
    · intro p hp
      rw [ha3] at hp
      exact q4 p hp
    · obtain ⟨l, hl, hlen⟩ := w2
      refine ⟨l, ?_, hlen⟩
      rw [ha1]
      exact hl
    · rw [ha4]
      exact w3
    · rw [ha5]
      exact w4
    · rw [bitsListAt_congr js6 (setCntSel (setBitSel js5 jni bs) jni v)
        ha2 jni, cntSelAt_congr js6 (setCntSel (setBitSel js5 jni bs)
        jni v) ha1 jni, w6, w7]
      exact hv.symm
    · intro m hm
      rw [cntSelAt_congr js6 (setCntSel (setBitSel js5 jni bs) jni v)
        ha1 m, bitsListAt_congr js6 (setCntSel (setBitSel js5 jni bs)
        jni v) ha2 m, perBitListAt_congr js6 (setCntSel (setBitSel js5
        jni bs) jni v) ha3 m, perBitListAt_congr (setCntSel (setBitSel
        js5 jni bs) jni v) js5 w5 m]
      exact ⟨(w8 m hm).1, (w8 m hm).2, rfl⟩
  have hId : ∀ js6, (js6 = js5 ∨ js6 = { js5 with total_gres := js5.total_gres + cntSelAt js5 jni }) →
      JsShape nc js6 ∧
      (∃ l, js6.gres_cnt_node_select = some l ∧ l.length = nc) ∧
      js6.shared = js5.shared ∧
      js6.total_node_cnt = js5.total_node_cnt ∧
      (bitsListAt js6 jni).count true = cntSelAt js6 jni ∧
      (∀ m, m ≠ jni → cntSelAt js6 m = cntSelAt js5 m ∧
        bitsListAt js6 m = bitsListAt js5 m ∧
        perBitListAt js6 m = perBitListAt js5 m) := by
    intro js6 h6
    have hacc : js6.gres_cnt_node_select = js5.gres_cnt_node_select ∧
        js6.gres_bit_select = js5.gres_bit_select ∧
        js6.gres_per_bit_select = js5.gres_per_bit_select ∧
        js6.shared = js5.shared ∧
        js6.total_node_cnt = js5.total_node_cnt := by
      rcases h6 with h6 | h6 <;> rw [h6] <;>
        exact ⟨rfl, rfl, rfl, rfl, rfl⟩
    obtain ⟨ha1, ha2, ha3, ha4, ha5⟩ := hacc
    obtain ⟨q1, q2, q3, q4⟩ := hsh
    refine ⟨⟨?_, ?_, ?_, ?_⟩, ?_, ha4, ha5, ?_, ?_⟩
    · rw [ha5]
      exact q1
    · intro l hl
      rw [ha1] at hl
      exact q2 l hl
    · intro b hb
      rw [ha2] at hb
      exact q3 b hb
    · intro p hp
      rw [ha3] at hp
      exact q4 p hp
    · obtain ⟨l, hl, hlen⟩ := hcex
      refine ⟨l, ?_, hlen⟩
      rw [ha1]
      exact hl
    · rw [bitsListAt_congr js6 js5 ha2 jni,
        cntSelAt_congr js6 js5 ha1 jni, hbc, hcnt0]
    · intro m hm
      rw [cntSelAt_congr js6 js5 ha1 m, bitsListAt_congr js6 js5 ha2 m,
        perBitListAt_congr js6 js5 ha3 m]
      exact ⟨rfl, rfl, rfl⟩
  unfold sanNonshared at hdef
  dsimp only at hdef
  have hFin : ∀ dd : GresJs × Int,
      (JsShape nc dd.1 ∧
        (∃ l, dd.1.gres_cnt_node_select = some l ∧ l.length = nc) ∧
        dd.1.shared = js5.shared ∧
        dd.1.total_node_cnt = js5.total_node_cnt ∧
        (bitsListAt dd.1 jni).count true = cntSelAt dd.1 jni ∧
        (∀ m, m ≠ jni → cntSelAt dd.1 m = cntSelAt js5 m ∧
          bitsListAt dd.1 m = bitsListAt js5 m ∧
          perBitListAt dd.1 m = perBitListAt js5 m)) →
      JsShape nc (sanFin jni dd).1 ∧
      (∃ l, (sanFin jni dd).1.gres_cnt_node_select = some l
        ∧ l.length = nc) ∧
      (sanFin jni dd).1.shared = js5.shared ∧
      (sanFin jni dd).1.total_node_cnt = js5.total_node_cnt ∧
      (bitsListAt (sanFin jni dd).1 jni).count true
        = cntSelAt (sanFin jni dd).1 jni ∧
      (∀ m, m ≠ jni → cntSelAt (sanFin jni dd).1 m = cntSelAt js5 m ∧
        bitsListAt (sanFin jni dd).1 m = bitsListAt js5 m ∧
        perBitListAt (sanFin jni dd).1 m = perBitListAt js5 m) := by
    intro dd hP
    unfold sanFin
    dsimp only
    split
    · exact hP
    · exact hP
  rw [← hdef]
  refine hFin _ ?_
  split
  · exact hW _ _ (setNodeBits_selOk node.sock js5 node.ns
      node.used_cores_on_sock (bitsListAt js5 jni) (cntSelAt js5 jni)
      (by rw [hbc, hcnt0])).2 _ (Or.inl rfl)
  · split
    · exact hW _ _ (setSockBits_selOk mc node.sock js5 node.ns
        node.used_cores_on_sock node.used_sock_cnt
        (bitsListAt js5 jni) (cntSelAt js5 jni)
        (by rw [hbc, hcnt0])).2 _ (Or.inl rfl)
    · split
      · exact hW _ _ (setTaskBits_selOk node.sock js5 node.ns
          node.tasks_per_socket (bitsListAt js5 jni)
          (cntSelAt js5 jni) (by rw [hbc, hcnt0])).2 _ (Or.inl rfl)
      · split
        · exact hW _ _ (setJobBits1_cnt node.sock js5 node.ns jni rem
            ((mc.getD ⟨0, 0⟩).cpus_per_task) node.tpc
            node.used_cores_on_sock node.used_core_cnt
            (bitsListAt js5 jni) (cntSelAt js5 jni) js5.total_gres
            hbc hcnt0).2 _ (Or.inr ⟨_, rfl⟩)
        · exact hId _ (Or.inl rfl)

lemma sanTopo0_slot (node : NodeCtx) (jni rem : Nat) (js3 : GresJs)
    (nc : Nat) (hsh : JsShape nc js3)
    (hcex : ∃ l, js3.gres_cnt_node_select = some l ∧ l.length = nc) :
    JsShape nc (sanTopo0 node jni rem js3) ∧
    (∃ l, (sanTopo0 node jni rem js3).gres_cnt_node_select = some l
      ∧ l.length = nc) ∧
    (sanTopo0 node jni rem js3).shared = js3.shared ∧
    (∀ m, m ≠ jni →
      cntSelAt (sanTopo0 node jni rem js3) m = cntSelAt js3 m ∧
      bitsListAt (sanTopo0 node jni rem js3) m = bitsListAt js3 m ∧
      perBitListAt (sanTopo0 node jni rem js3) m
        = perBitListAt js3 m) := by
  have hcase : ∀ js4 : GresJs, ((∃ v, js4 = setCntSel js3 jni v) ∨
      js4 = js3) →
      JsShape nc { js4 with total_gres := js4.total_gres + cntSelAt js4 jni } ∧
      (∃ l, ({ js4 with total_gres := js4.total_gres + cntSelAt js4 jni } : GresJs).gres_cnt_node_select = some l ∧ l.length = nc) ∧
      ({ js4 with total_gres := js4.total_gres + cntSelAt js4 jni } : GresJs).shared = js3.shared ∧
      (∀ m, m ≠ jni →
        cntSelAt { js4 with total_gres := js4.total_gres + cntSelAt js4 jni } m = cntSelAt js3 m ∧
        bitsListAt { js4 with total_gres := js4.total_gres + cntSelAt js4 jni } m = bitsListAt js3 m ∧
        perBitListAt { js4 with total_gres := js4.total_gres + cntSelAt js4 jni } m = perBitListAt js3 m) := by
    intro js4 h4
    rcases h4 with ⟨v, h4⟩ | h4
    · subst h4
      obtain ⟨hshC, hcexC⟩ := setCntSel_shape nc js3 jni v hsh hcex
      refine ⟨⟨hshC.1, hshC.2.1, hshC.2.2.1, hshC.2.2.2⟩, hcexC, rfl, ?_⟩
      intro m hm
      exact ⟨cntSelAt_setCntSel_ne js3 jni v m hm, rfl, rfl⟩
    · subst h4
      exact ⟨⟨hsh.1, hsh.2.1, hsh.2.2.1, hsh.2.2.2⟩, hcex, rfl,
        fun m hm => ⟨rfl, rfl, rfl⟩⟩
  unfold sanTopo0
  dsimp only
  split
  · exact hcase _ (Or.inl ⟨_, rfl⟩)
  · split
    · exact hcase _ (Or.inl ⟨_, rfl⟩)
    · split
      · exact hcase _ (Or.inl ⟨_, rfl⟩)
      · split
        · exact hcase _ (Or.inl ⟨_, rfl⟩)
        · exact hcase _ (Or.inr rfl)

lemma selectAndSetNodeJs_slot (conf : Conf) (mc : Option McData)
    (eb ots : Bool) (node : NodeCtx) (jni nc rem : Nat) (js0 : GresJs)
    (jf : Int) (hsh : JsShape nc js0) (hjni : jni < nc)
    (htopo : node.ns.topo_cnt ≤ getGresNodeCnt node.ns) :
    ∀ r, selectAndSetNodeJs conf mc eb ots node jni nc rem js0 jf = r →
    JsShape nc r.1 ∧
    (∃ l, r.1.gres_cnt_node_select = some l ∧ l.length = nc) ∧
    r.1.shared = js0.shared ∧
    (r.2.2 = 0 → jf = 0 ∨ js0.shared = false) ∧
    (∀ m, m ≠ jni → cntSelAt r.1 m = cntSelAt js0 m ∧
      bitsListAt r.1 m = bitsListAt js0 m ∧
      perBitListAt r.1 m = perBitListAt js0 m) ∧
    (node.ns.topo_cnt ≠ 0 →
      (js0.shared = true →
        (perBitListAt r.1 jni).sum = cntSelAt r.1 jni) ∧
      (js0.shared = false →
        (bitsListAt r.1 jni).count true = cntSelAt r.1 jni)) := by
  intro r hdef
  obtain ⟨hp1, hp2, hp3, hp4, hp5, hp6, hp7⟩ := sanPrep_spec nc jni js0 hsh
  unfold selectAndSetNodeJs at hdef
  dsimp only at hdef
  by_cases ht : node.ns.topo_cnt = 0
  · rw [if_pos ht] at hdef
    obtain ⟨ht1, htex, ht2, ht3⟩ := sanTopo0_slot node jni rem
      (sanPrep nc jni js0) nc hp1 hp2
    rw [← hdef]
    dsimp only
    refine ⟨ht1, htex, ht2.trans hp3, fun h0 => Or.inl h0, ?_, ?_⟩
    · intro m hm
      obtain ⟨hf1, hf2, hf3⟩ := ht3 m hm
      exact ⟨hf1.trans (hp5 m), hf2.trans (bitsListAt_congr _ js0 hp6 m),
        hf3.trans (perBitListAt_congr _ js0 hp7 m)⟩
    · intro htc
      exact absurd ht htc
  · rw [if_neg ht] at hdef
    obtain ⟨hb1, hb2, hb3, hb4, hb5, hb6, hb7, hb8, hb9⟩ :=
      jsBit_spec nc (sanPrep nc jni js0) jni (getGresNodeCnt node.ns)
        hp1 hp2 hjni _ rfl
    have hshr5 : (setCntSel (setBitSel (if (sanPrep nc
        jni js0).gres_bit_select = none then
        { sanPrep nc jni js0 with gres_bit_select := some (List.replicate nc none) }
        else sanPrep nc jni js0) jni (List.replicate
        (getGresNodeCnt node.ns) false)) jni 0).shared
        = js0.shared := hb4.trans hp3
    have hframe0 : ∀ m, m ≠ jni →
        cntSelAt (setCntSel (setBitSel (if (sanPrep nc
          jni js0).gres_bit_select = none then
          { sanPrep nc jni js0 with gres_bit_select := some (List.replicate nc none) }
          else sanPrep nc jni js0) jni (List.replicate
          (getGresNodeCnt node.ns) false)) jni 0) m = cntSelAt js0 m ∧
        bitsListAt (setCntSel (setBitSel (if (sanPrep nc
          jni js0).gres_bit_select = none then
          { sanPrep nc jni js0 with gres_bit_select := some (List.replicate nc none) }
          else sanPrep nc jni js0) jni (List.replicate
          (getGresNodeCnt node.ns) false)) jni 0) m
          = bitsListAt js0 m ∧
        perBitListAt (setCntSel (setBitSel (if (sanPrep nc
          jni js0).gres_bit_select = none then
          { sanPrep nc jni js0 with gres_bit_select := some (List.replicate nc none) }
          else sanPrep nc jni js0) jni (List.replicate
          (getGresNodeCnt node.ns) false)) jni 0) m
          = perBitListAt js0 m := by
      intro m hm
      obtain ⟨hf1, hf2⟩ := hb9 m hm
      refine ⟨hf1.trans (hp5 m),
        hf2.trans (bitsListAt_congr _ js0 hp6 m), ?_⟩
      rw [perBitListAt_congr _ (sanPrep nc jni js0) hb6 m]
      exact perBitListAt_congr _ js0 hp7 m
    by_cases hshr : js0.shared
    · rw [if_pos (by rw [hshr5]; exact hshr)] at hdef
      obtain ⟨s1, s2, s3, s4, s5, s6⟩ := sanShared_slot conf eb ots node
        jni (getGresNodeCnt node.ns) jf _ nc hb1 hb2 hb3
        (hb5.trans hp4) hjni hb7 htopo _ rfl
      rw [← hdef]
      dsimp only
      refine ⟨s1, s2, s3.trans hshr5, fun h0 => Or.inl h0, ?_, ?_⟩
      · intro m hm
        obtain ⟨hf1, hf2, hf3⟩ := s6 m hm
        obtain ⟨hg1, hg2, hg3⟩ := hframe0 m hm
        exact ⟨hf1.trans hg1, hf2.trans hg2, hf3.trans hg3⟩
      · intro _
        constructor
        · intro _
          exact s5
        · intro hfalse
          rw [hfalse] at hshr
          cases hshr
    · rw [if_neg (by rw [hshr5]; simpa using hshr)] at hdef
      obtain ⟨s1, s2, s3, s4, s5, s6⟩ := sanNonshared_slot mc node jni
        rem jf _ nc (getGresNodeCnt node.ns) hb1 hb2 hb3 hjni hb7 hb8
        _ rfl
      rw [← hdef]
      dsimp only
      refine ⟨s1, s2, s3.trans hshr5, fun _ => Or.inr ?_, ?_, ?_⟩
      · rcases hx : js0.shared with _ | _
        · rfl
        · exact absurd hx hshr
      · intro m hm
        obtain ⟨hf1, hf2, hf3⟩ := s6 m hm
        obtain ⟨hg1, hg2, hg3⟩ := hframe0 m hm
        exact ⟨hf1.trans hg1, hf2.trans hg2, hf3.trans hg3⟩
      · intro _
        constructor
        · intro htrue
          rw [htrue] at hshr
          exact absurd rfl hshr
        · intro _
          exact s5

lemma selectAndSetNode_parts (conf : Conf) (mc : Option McData)
    (eb ots : Bool) (node : NodeCtx) (jni nc rem : Nat) (js0 : GresJs)
    (jf : Int) :
    (selectAndSetNode conf mc eb ots node jni nc rem js0 jf).1
      = (selectAndSetNodeJs conf mc eb ots node jni nc rem js0 jf).1 ∧
    (selectAndSetNode conf mc eb ots node jni nc rem js0 jf).2.2.1
      = (selectAndSetNodeJs conf mc eb ots node jni nc rem js0 jf).2.1 ∧
    (selectAndSetNode conf mc eb ots node jni nc rem js0 jf).2.2.2
      = (selectAndSetNodeJs conf mc eb ots node jni nc rem js0 jf).2.2 :=
  ⟨rfl, rfl, rfl⟩

/-- The pass-1 loop invariant of gres_select_filter_select_and_set:
the job state keeps its kind, a zero job_fini certifies a non-shared
kind, the output arrays stay well-shaped, and, as long as rc is
success, every already-visited node with topology satisfies the
count/popcount (or per_bit sum) agreement of its slot. -/
def P1Inv (nc : Nat) (sh : Bool) (E : List (Nat × NodeCtx))
    (st : LoopSt) : Prop :=
  st.js.shared = sh ∧
  (st.job_fini = 0 → sh = false) ∧
  JsShape nc st.js ∧
  ((∃ l, st.js.gres_cnt_node_select = some l ∧ l.length = nc) ∨
    st.js.gres_bit_select = none) ∧
  (st.rc = SLURM_SUCCESS → ∀ pr ∈ E, pr.2.ns.topo_cnt ≠ 0 →
    (sh = true → (perBitListAt st.js pr.1).sum = cntSelAt st.js pr.1) ∧
    (sh = false →
      (bitsListAt st.js pr.1).count true = cntSelAt st.js pr.1))

lemma pass1_inv (conf : Conf) (job : JobRec) (mc : Option McData)
    (nc : Nat) (sh : Bool) :
    ∀ (l E : List (Nat × NodeCtx)) (st : LoopSt),
    (∀ pr ∈ l, pr.1 < nc ∧
      pr.2.ns.topo_cnt ≤ getGresNodeCnt pr.2.ns) →
    l.Pairwise (fun x y => x.1 ≠ y.1) →
    (∀ pr ∈ l, ∀ pr2 ∈ E, pr2.1 ≠ pr.1) →
    P1Inv nc sh E st →
    P1Inv nc sh (E ++ l) (l.foldl (fun (st : LoopSt) ind =>
      if st.rc ≠ SLURM_SUCCESS then
        { st with nsl := st.nsl ++ [ind.2.ns] }
      else
        let r := selectAndSetNode conf mc job.enforce_bind
          job.one_task_per_sharing ind.2 ind.1 nc (nc - ind.1) st.js
          st.job_fini
        ⟨r.1, r.2.2.2, r.2.2.1, st.nsl ++ [r.2.1]⟩) st) := by
  intro l
  induction l with
  | nil =>
    intro E st _ _ _ h
    simpa using h
  | cons a t ih =>
    intro E st hl hpw hdisj hP
    rw [List.foldl_cons]
    have hstep : P1Inv nc sh (E ++ [a])
        (if st.rc ≠ SLURM_SUCCESS then
          { st with nsl := st.nsl ++ [a.2.ns] }
        else
          let r := selectAndSetNode conf mc job.enforce_bind
            job.one_task_per_sharing a.2 a.1 nc (nc - a.1) st.js
            st.job_fini
          ⟨r.1, r.2.2.2, r.2.2.1, st.nsl ++ [r.2.1]⟩) := by
      by_cases hrc : st.rc ≠ SLURM_SUCCESS
      · rw [if_pos hrc]
        exact ⟨hP.1, hP.2.1, hP.2.2.1, hP.2.2.2.1,
          fun hs => absurd hs hrc⟩
      · rw [if_neg hrc]
        have hrc2 : st.rc = SLURM_SUCCESS := not_not.mp hrc
        obtain ⟨m1, m2, m3, m4, m5, m6⟩ :=
          selectAndSetNodeJs_slot conf mc job.enforce_bind
            job.one_task_per_sharing a.2 a.1 nc (nc - a.1) st.js
            st.job_fini hP.2.2.1 (hl a (List.mem_cons_self a t)).1
            (hl a (List.mem_cons_self a t)).2 _ rfl
        dsimp only
        obtain ⟨w1, w2, w3⟩ := selectAndSetNode_parts conf mc
          job.enforce_bind job.one_task_per_sharing a.2 a.1 nc
          (nc - a.1) st.js st.job_fini
        rw [w1, w2, w3]
        refine ⟨m3.trans hP.1, ?_, m1, Or.inl m2, ?_⟩
        · intro h0
          rcases m4 h0 with h0 | h0
          · exact hP.2.1 h0
          · rw [hP.1] at h0
            exact h0
        · intro _ pr hpr htop
          dsimp only
          rcases List.mem_append.mp hpr with hpr | hpr
          · have hne : pr.1 ≠ a.1 :=
              hdisj a (List.mem_cons_self a t) pr hpr
            obtain ⟨f1, f2, f3⟩ := m5 pr.1 hne
            obtain ⟨o1, o2⟩ := hP.2.2.2.2 hrc2 pr hpr htop
            constructor
            · intro hsh
              rw [f3, f1]
              exact o1 hsh
            · intro hsh
              rw [f2, f1]
              exact o2 hsh
          · have hpa : pr = a := List.mem_singleton.mp hpr
            subst hpa
            obtain ⟨e1, e2⟩ := m6 htop
            constructor
            · intro hsh
              exact e1 (hP.1.trans hsh)
            · intro hsh
              exact e2 (hP.1.trans hsh)
    have ht := ih (E ++ [a]) _
      (fun pr hpr => hl pr (List.mem_cons_of_mem a hpr))
      (List.pairwise_cons.mp hpw).2
      (fun pr hpr pr2 hpr2 => by
        rcases List.mem_append.mp hpr2 with h2 | h2
        · exact hdisj pr (List.mem_cons_of_mem a hpr) pr2 h2
        · have h3 : pr2 = a := List.mem_singleton.mp h2
          subst h3
          exact (List.pairwise_cons.mp hpw).1 pr hpr)
      hstep
    rw [List.append_assoc] at ht
    exact ht

lemma setJobBits2_none (sock : SockGres) (js : GresJs) (ns : GresNs)
    (cnt total0 : Nat) :
    (setJobBits2 sock js ns none cnt total0).1 = none := by
  unfold setJobBits2
  split
  · rfl
  · rfl

/-- The pass-2 loop invariant: arrays stay shaped and every visited
topology node keeps gres_cnt_node_select equal to the popcount of its
gres_bit_select slice. -/
def P2Inv (nc : Nat) (pairs : List (Nat × NodeCtx)) (js : GresJs) :
    Prop :=
  JsShape nc js ∧
  ((∃ l, js.gres_cnt_node_select = some l ∧ l.length = nc) ∨
    js.gres_bit_select = none) ∧
  (∀ pr ∈ pairs, pr.2.ns.topo_cnt ≠ 0 →
    (bitsListAt js pr.1).count true = cntSelAt js pr.1)

lemma pass2Node_inv (nc : Nat) (pairs : List (Nat × NodeCtx))
    (node : NodeCtx) (i : Nat) (p : Pass2St) (hi : i < nc)
    (hkey : ∀ pr ∈ pairs, pr.1 = i → pr.2 = node)
    (h : P2Inv nc pairs p.js) :
    P2Inv nc pairs (pass2Node node i p).js := by
  unfold pass2Node
  split
  · exact h
  · dsimp only
    rcases hob : bitSelAt p.js i with _ | bits
    · rw [setJobBits2_none]
      exact h
    · cases hr1 : (setJobBits2 node.sock p.js node.ns (some bits)
          (cntSelAt p.js i) p.js.total_gres).1 with
      | none =>
        exact h
      | some bs =>
        have hbl : bitsListAt p.js i = bits := by
          unfold bitsListAt
          rw [hob]
          rfl
        have harr : ∃ b, p.js.gres_bit_select = some b
            ∧ b.length = nc := by
          rcases hbs : p.js.gres_bit_select with _ | arr
          · exfalso
            unfold bitSelAt at hob
            rw [hbs] at hob
            cases hob
          · exact ⟨arr, rfl, h.1.2.2.1 arr hbs⟩
        have hcex2 : ∃ l, p.js.gres_cnt_node_select = some l
            ∧ l.length = nc := by
          rcases h.2.1 with hx | hx
          · exact hx
          · obtain ⟨b, hb, hlen⟩ := harr
            rw [hx] at hb
            cases hb
        obtain ⟨w1, w2, w3, w4, w5, w6, w7, w8⟩ := writePair_slot nc
          p.js i h.1 hcex2 harr hi bs
          ((setJobBits2 node.sock p.js node.ns (some bits)
            (cntSelAt p.js i) p.js.total_gres).2.1)
        refine ⟨w1, Or.inl w2, ?_⟩
        intro pr hpr htop
        show (bitsListAt (setCntSel (setBitSel p.js i bs) i
            ((setJobBits2 node.sock p.js node.ns (some bits)
              (cntSelAt p.js i) p.js.total_gres).2.1)) pr.1).count true
          = cntSelAt (setCntSel (setBitSel p.js i bs) i
            ((setJobBits2 node.sock p.js node.ns (some bits)
              (cntSelAt p.js i) p.js.total_gres).2.1)) pr.1
        by_cases hpi : pr.1 = i
        · have hnode := hkey pr hpr hpi
          rw [hnode] at htop
          have hold := h.2.2 pr hpr (by rw [hnode]; exact htop)
          rw [hpi] at hold
          have hc : cntSelAt p.js i = bits.count true := by
            rw [← hbl]
            exact hold.symm
          have hq := setJobBits2_cnt node.sock p.js node.ns bits
            (cntSelAt p.js i) p.js.total_gres hc
          rw [hpi, w7, w6]
          rw [hr1] at hq
          simpa using hq.2.symm
        · obtain ⟨f1, f2⟩ := w8 pr.1 hpi
          rw [f1, f2]
          exact h.2.2 pr hpr htop

lemma pass2_fold (nc : Nat) (pairs : List (Nat × NodeCtx))
    (l : List (Nat × NodeCtx)) (p0 : Pass2St)
    (hl : ∀ pr ∈ l, pr.1 < nc ∧
      (∀ pr2 ∈ pairs, pr2.1 = pr.1 → pr2.2 = pr.2))
    (h : P2Inv nc pairs p0.js) :
    P2Inv nc pairs ((l.foldl (fun (p : Pass2St) ind =>
      pass2Node ind.2 ind.1 p) p0).js) := by
  refine foldl_pres (fun (p : Pass2St) => P2Inv nc pairs p.js) _ l p0
    ?_ h
  intro p pr hpr hP
  exact pass2Node_inv nc pairs pr.2 pr.1 p (hl pr hpr).1
    (hl pr hpr).2 hP

/-- C1: on any call of gres_select_filter_select_and_set whose job
state enters with the select output arrays unallocated (the state of a
first allocation: total_node_cnt, gres_cnt_node_select,
gres_bit_select, gres_per_bit_select all empty) and whose nodes have
at least as many GRES devices as topology slots, if the call returns
SLURM_SUCCESS then for every allocated node with topology the returned
job state satisfies: for a non-shared kind the popcount of
gres_bit_select[n] equals gres_cnt_node_select[n]; for a shared kind
the sum of gres_per_bit_select[n][·] equals gres_cnt_node_select[n]. -/
theorem select_and_set_invariant (conf : Conf) (job : JobRec)
    (mc : Option McData) (nodes : List NodeCtx) (js : GresJs)
    (hfresh : js.total_node_cnt = 0 ∧ js.gres_cnt_node_select = none ∧
      js.gres_bit_select = none ∧ js.gres_per_bit_select = none)
    (htopo : ∀ nd ∈ nodes, nd.ns.topo_cnt ≤ getGresNodeCnt nd.ns) :
    (selectAndSetKind conf job mc nodes js).1 = SLURM_SUCCESS →
    ∀ pr ∈ nodes.enum, pr.2.ns.topo_cnt ≠ 0 →
      (js.shared = true →
        (perBitListAt (selectAndSetKind conf job mc nodes js).2.1
          pr.1).sum
        = cntSelAt (selectAndSetKind conf job mc nodes js).2.1 pr.1) ∧
      (js.shared = false →
        (bitsListAt (selectAndSetKind conf job mc nodes js).2.1
          pr.1).count true
        = cntSelAt (selectAndSetKind conf job mc nodes js).2.1 pr.1) := by
  suffices key : ∀ q, selectAndSetKind conf job mc nodes js = q →
      q.1 = SLURM_SUCCESS →
      ∀ pr ∈ nodes.enum, pr.2.ns.topo_cnt ≠ 0 →
      (js.shared = true →
        (perBitListAt q.2.1 pr.1).sum = cntSelAt q.2.1 pr.1) ∧
      (js.shared = false →
        (bitsListAt q.2.1 pr.1).count true = cntSelAt q.2.1 pr.1) by
    exact key _ rfl
  intro q hq hrc pr hpr htopn
  unfold selectAndSetKind at hq
  rcases hjr : job.job_resrcs with _ | jr
  · rw [hjr] at hq
    rw [← hq] at hrc
    dsimp only at hrc
    exact absurd hrc (by decide)
  · rw [hjr] at hq
    dsimp only at hq
    rcases hnb : jr.node_bitmap with _ | nb
    · rw [hnb] at hq
      rw [← hq] at hrc
      dsimp only at hrc
      exact absurd hrc (by decide)
    · rw [hnb] at hq
      dsimp only at hq
      have hP0 : P1Inv nodes.length js.shared []
          ⟨js, -1, SLURM_SUCCESS, []⟩ := by
        refine ⟨rfl, ?_, ?_, ?_, ?_⟩
        · intro h0
          dsimp only at h0
          exact absurd h0 (by decide)
        · refine ⟨Or.inl hfresh.1, ?_, ?_, ?_⟩
          · intro l hl
            rw [show (⟨js, -1, SLURM_SUCCESS, []⟩ :
              LoopSt).js.gres_cnt_node_select
              = js.gres_cnt_node_select from rfl, hfresh.2.1] at hl
            cases hl
          · intro b hb
            rw [show (⟨js, -1, SLURM_SUCCESS, []⟩ :
              LoopSt).js.gres_bit_select = js.gres_bit_select from rfl,
              hfresh.2.2.1] at hb
            cases hb
          · intro p hp
            rw [show (⟨js, -1, SLURM_SUCCESS, []⟩ :
              LoopSt).js.gres_per_bit_select
              = js.gres_per_bit_select from rfl, hfresh.2.2.2] at hp
            cases hp
        · exact Or.inr hfresh.2.2.1
        · intro _ pr2 hpr2
          exact absurd hpr2 (List.not_mem_nil _)
      have hl1 : ∀ pr2 ∈ nodes.enum, pr2.1 < nodes.length ∧
          pr2.2.ns.topo_cnt ≤ getGresNodeCnt pr2.2.ns := by
        intro pr2 hpr2
        constructor
        · have h1 : pr2.1 ∈ nodes.enum.map Prod.fst :=
            List.mem_map_of_mem Prod.fst hpr2
          rw [List.enum_map_fst] at h1
          exact List.mem_range.mp h1
        · have h2 : pr2.2 ∈ nodes.enum.map Prod.snd :=
            List.mem_map_of_mem Prod.snd hpr2
          rw [List.enum_map_snd] at h2
          exact htopo pr2.2 h2
      have hpw : nodes.enum.Pairwise (fun x y => x.1 ≠ y.1) := by
        have hnd := List.nodup_range nodes.length
        rw [← List.enum_map_fst nodes] at hnd
        exact List.pairwise_map.mp hnd
      have hP1 := pass1_inv conf job mc nodes.length js.shared
        nodes.enum [] ⟨js, -1, SLURM_SUCCESS, []⟩ hl1 hpw
        (fun _ _ _ h2 => absurd h2 (List.not_mem_nil _)) hP0
      rw [List.nil_append] at hP1
      split at hq
      · next hfini =>
        split at hq
        · next =>
          rw [← hq] at hrc
          dsimp only at hrc
          exact absurd hrc (by decide)
        · next =>
          rw [← hq] at hrc
          dsimp only at hrc
          have hshf : js.shared = false := hP1.2.1 hfini
          have hseed : P2Inv nodes.length nodes.enum
              (⟨(nodes.enum.foldl (fun (st : LoopSt) ind =>
                if st.rc ≠ SLURM_SUCCESS then
                  { st with nsl := st.nsl ++ [ind.2.ns] }
                else
                  let r := selectAndSetNode conf mc job.enforce_bind
                    job.one_task_per_sharing ind.2 ind.1 nodes.length
                    (nodes.length - ind.1) st.js st.job_fini
                  ⟨r.1, r.2.2.2, r.2.2.1, st.nsl ++ [r.2.1]⟩)
                ⟨js, -1, SLURM_SUCCESS, []⟩).js, -1, false⟩
                  : Pass2St).js := by
            refine ⟨hP1.2.2.1, hP1.2.2.2.1, ?_⟩
            intro pr2 hpr2 ht2
            exact (hP1.2.2.2.2 hrc pr2 hpr2 ht2).2 hshf
          have hl2 : ∀ pr2 ∈ nodes.enum, pr2.1 < nodes.length ∧
              (∀ pr3 ∈ nodes.enum, pr3.1 = pr2.1 →
                pr3.2 = pr2.2) := by
            intro pr2 hpr2
            refine ⟨(hl1 pr2 hpr2).1, ?_⟩
            intro pr3 hpr3 he
            have g2 := List.mem_enum_iff_getElem?.mp hpr2
            have g3 := List.mem_enum_iff_getElem?.mp hpr3
            rw [he] at g3
            rw [g2] at g3
            exact (Option.some.inj g3).symm
          have hP2 := pass2_fold nodes.length nodes.enum nodes.enum
            _ hl2 hseed
          rw [← hq]
          dsimp only
          have hres := hP2.2.2 pr hpr htopn
          constructor
          · intro hst
            rw [hst] at hshf
            cases hshf
          · intro _
            exact hres
      · next =>
        rw [← hq] at hrc
        dsimp only at hrc
        rw [← hq]
        dsimp only
        exact hP1.2.2.2.2 hrc pr hpr htopn

theorem select_and_set_invariant_witness :
    jsPerNode.total_node_cnt = 0 ∧
    ((selectAndSetKind confOff jobOne none [ndFour] jsPerNode).1
        = SLURM_SUCCESS →
      (jsPerNode.shared = false →
        (bitsListAt (selectAndSetKind confOff jobOne none [ndFour]
          jsPerNode).2.1 0).count true
        = cntSelAt (selectAndSetKind confOff jobOne none [ndFour]
          jsPerNode).2.1 0)) :=
  ⟨rfl, fun hrc =>
    (select_and_set_invariant confOff jobOne none [ndFour] jsPerNode
      ⟨rfl, rfl, rfl, rfl⟩ (by decide) hrc (0, ndFour) (by decide)
      (by decide)).2⟩

end GresFilter
